import Mathlib

/-!
# LibrePCB: board footprints, undo commands and the add-pads tool

A shallow embedding of `libs/librepcb/core/project/board/items/bi_footprint.cpp`
(class `BI_Footprint`), of `cmdschematicedit.cpp` (class `CmdSchematicEdit`) and
of `packageeditorstate_addpads.cpp` (class `PackageEditorState_AddPads`),
together with the parts of their collaborators that this code calls.  C++
objects are records, a method that mutates `*this` returns the new record, and
a method that can throw returns the exception (if any) next to the state the
object is left in, because a C++ exception does not undo the assignments made
before it.
-/

namespace librepcb

/-! ## Value types -/

/-- Identifier of a library element (class `Uuid`); only equality is used. -/
abbrev Uuid := Nat

/-- Angles are counted in microdegrees (class `Angle`, not part of the
sources); sum and negation are those of the integers, the reduction to one
turn is left out. -/
abbrev Angle := Int

/-- A point of the board plane, in nanometres (class `Point`). -/
abbrev Point := Int × Int

/-- Exceptions of the footprint code.  `LogicError line` is
`throw LogicError(__FILE__, __LINE__)` at that line of bi_footprint.cpp, the
three `Pad...` errors are the `RuntimeError`s of `BI_Footprint::init`, the two
lifecycle errors are the ones of section 4.1 of the specification,
`StackDiscipline` is the error kind of section 7 for a call the undo stack
rejects, and `External` stands for any exception raised by a collaborator. -/
inductive Error where
  | LogicError (line : Nat)
  | PadUuidDefinedMultipleTimes (pad : Uuid)
  | PadNotFoundInPackage (packagePad : Uuid) (package : Uuid)
  | PadNotFoundInPadSignalMap (packagePad : Uuid) (device : Uuid)
  | AlreadyAttached
  | NotAttached
  | StackDiscipline
  | External (code : Nat)
  deriving DecidableEq, Repr

/-! ## Library elements (read-only inputs) -/

/-- Library footprint pad: `getUuid()`, the optional `getPackagePadUuid()` and
`getPosition()`.  The other geometry attributes (rotation, shape, size, drill,
board side) are left out. -/
structure FootprintPad where
  getUuid : Uuid
  getPackagePadUuid : Option Uuid
  getPosition : Point := (0, 0)
  deriving DecidableEq, Repr

/-- Library stroke text (class `StrokeText`), with the attributes that
`BI_Footprint::getDefaultStrokeTexts` reads and writes. -/
structure StrokeText where
  getUuid : Uuid
  getLayerName : String
  getText : String
  getPosition : Point
  getRotation : Angle
  getMirrored : Bool
  deriving DecidableEq, Repr

/-- Library footprint: `getPads()` and `getStrokeTexts()`. -/
structure Footprint where
  getPads : List FootprintPad
  getStrokeTexts : List StrokeText
  deriving DecidableEq, Repr

/-- Library package: its UUID and the UUIDs of its package pads, which is all
that `getPads().contains(uuid)` looks at. -/
structure Package where
  getUuid : Uuid
  getPads : List Uuid
  deriving DecidableEq, Repr

/-- Library device: its UUID and the package-pad UUIDs that have an entry in
`getPadSignalMap()`. -/
structure Device where
  getUuid : Uuid
  getPadSignalMap : List Uuid
  deriving DecidableEq, Repr

/-- The device instance a footprint belongs to, as far as the footprint reads
it: the board it is on, its library elements and its placement. -/
structure BI_Device where
  getBoard : Nat
  getLibPackage : Package
  getLibDevice : Device
  getLibFootprint : Footprint
  getPosition : Point
  getRotation : Angle
  getMirrored : Bool
  deriving DecidableEq, Repr

/-- The three mappings of a `Transform` object that `getDefaultStrokeTexts`
applies.  Class `Transform` is not part of the sources, hence the mappings are
taken as given. -/
structure Transform where
  mapPoint : Point → Point
  mapMirrored : Bool → Bool
  mapLayerName : String → String

/-! ## Board items -/

/-- The state every board item inherits from `BI_Base`. -/
structure BI_Base where
  mIsAddedToBoard : Bool := false
  mIsSelected : Bool := false
  deriving DecidableEq, Repr

/-- The two lifecycle operations of a board item. -/
inductive Op where
  | addToBoard
  | removeFromBoard
  deriving DecidableEq, Repr

/-- The operation that undoes a completed lifecycle operation. -/
def Op.inverse : Op → Op
  | Op.addToBoard => Op.removeFromBoard
  | Op.removeFromBoard => Op.addToBoard

/-- Modelled from the spec: `addToBoard()` of a board item, whose body
(`BI_Base::addToBoard` and the overrides in `BI_FootprintPad` and
`BI_StrokeText`) is not part of the sources.  Section 4.1: it fails with
`AlreadyAttached` if the item is attached, and on success sets attached to
true.  `fault` is the exception, if any, with which the registration itself
fails (the calls are marked "can throw" in bi_footprint.cpp); by section 5 a
failing operation leaves the item as it was. -/
def BI_Base.addToBoard (fault : Option Error) (b : BI_Base) : Option Error × BI_Base :=
  if b.mIsAddedToBoard then (some Error.AlreadyAttached, b)
  else
    match fault with
    | some e => (some e, b)
    | none => (none, { b with mIsAddedToBoard := true })

/-- Modelled from the spec: `removeFromBoard()` of a board item, whose body is
not part of the sources.  Section 4.1: it fails with `NotAttached` if the item
is not attached, and on success sets attached to false.  `fault` is as for
`BI_Base.addToBoard`. -/
def BI_Base.removeFromBoard (fault : Option Error) (b : BI_Base) : Option Error × BI_Base :=
  if !b.mIsAddedToBoard then (some Error.NotAttached, b)
  else
    match fault with
    | some e => (some e, b)
    | none => (none, { b with mIsAddedToBoard := false })

/-- Dispatch of a lifecycle operation. -/
def BI_Base.call (op : Op) (fault : Option Error) (b : BI_Base) : Option Error × BI_Base :=
  match op with
  | Op.addToBoard => b.addToBoard fault
  | Op.removeFromBoard => b.removeFromBoard fault

/-- The component signal instance a pad is connected to, as far as the
footprint reads it: the net signal it carries, if any (identified by its
address). -/
structure ComponentSignalInstance where
  getNetSignal : Option Nat
  deriving DecidableEq, Repr

/-- Board item of a footprint pad.  `addr` is the address of the object,
`mFootprint` the address of the owning footprint.  `mComponentSignalInstance`
is absent when the pad is not connected; `mPosition` and `mRotation` are the
cached absolute position and rotation.  `mRegisteredNetLines` is the
`QSet<BI_NetLine*>` of bi_footprintpad.h line 153, a set of addresses kept as
a list. -/
structure BI_FootprintPad extends BI_Base where
  addr : Nat
  mFootprint : Nat
  mLibPadUuid : Uuid
  mComponentSignalInstance : Option ComponentSignalInstance := none
  mPosition : Point := (0, 0)
  mRotation : Angle := 0
  mRegisteredNetLines : List Nat := []
  deriving DecidableEq, Repr

/-- Board item of a stroke text.  `addr` is the address of the object (the
footprint stores and compares pointers), `mBoard` the address of its board and
`mFootprint` the back-reference set by `setFootprint`. -/
structure BI_StrokeText extends BI_Base where
  addr : Nat
  mBoard : Nat
  mFootprint : Option Nat
  mText : StrokeText
  deriving DecidableEq, Repr

/-- The footprint board item: the members of class `BI_Footprint`.  `mPads` is
the `QHash<Uuid, BI_FootprintPad*>`, kept as the list of its entries in
iteration order; `mStrokeTexts` is the `QList<BI_StrokeText*>`;
`mGraphicsItem` tells whether the scoped pointer holds an item. -/
structure BI_Footprint extends BI_Base where
  addr : Nat
  mBoard : Nat
  mDevice : BI_Device
  mGraphicsItem : Bool
  mPads : List (Uuid × BI_FootprintPad)
  mStrokeTexts : List BI_StrokeText
  deriving DecidableEq, Repr

/-- Getter `isAddedToBoard()`. -/
def BI_Footprint.isAddedToBoard (fp : BI_Footprint) : Bool := fp.mIsAddedToBoard

/-- Getter `getLibFootprint()`. -/
def BI_Footprint.getLibFootprint (fp : BI_Footprint) : Footprint := fp.mDevice.getLibFootprint

/-- Getter `getRotation()`. -/
def BI_Footprint.getRotation (fp : BI_Footprint) : Angle := fp.mDevice.getRotation

/-- Getter `getMirrored()`. -/
def BI_Footprint.getMirrored (fp : BI_Footprint) : Bool := fp.mDevice.getMirrored

/-! ## addToBoard / removeFromBoard with a scope guard list -/

/-- The object a lifecycle call is made on: the pad at a position of the pad
map, the stroke text at a position of the text list, or the footprint's own
`BI_Base` part. -/
inductive Target where
  | pad (i : Nat)
  | text (i : Nat)
  | self
  deriving DecidableEq, Repr

/-- One lifecycle call, as recorded in the trace of an operation. -/
structure Call where
  target : Target
  op : Op
  deriving DecidableEq, Repr

/-- Perform a lifecycle call on a child (or on the footprint's own base part)
in place. -/
def BI_Footprint.callChild (fp : BI_Footprint) (t : Target) (op : Op)
    (fault : Option Error) : Option Error × BI_Footprint :=
  match t with
  | Target.pad i =>
    match fp.mPads[i]? with
    | none => (none, fp)
    | some (key, pad) =>
      let r := pad.toBI_Base.call op fault
      (r.1, { fp with mPads := fp.mPads.set i (key, { pad with toBI_Base := r.2 }) })
  | Target.text i =>
    match fp.mStrokeTexts[i]? with
    | none => (none, fp)
    | some text =>
      let r := text.toBI_Base.call op fault
      (r.1, { fp with mStrokeTexts := fp.mStrokeTexts.set i { text with toBI_Base := r.2 } })
  | Target.self =>
    let r := fp.toBI_Base.call op fault
    (r.1, { fp with toBI_Base := r.2 })

/-- Modelled from the spec: the `ScopeGuardList` of utils/scopeguardlist.h,
which is not part of the sources.  Sections 4.3 and 9: an explicit stack of
inverse actions, one pushed after each successful step.  An entry names the
captured child and the call the closure makes on it. -/
abbrev ScopeGuardList := List Call

/-- Member `ScopeGuardList::add`: push an inverse action. -/
def ScopeGuardList.add (sgl : ScopeGuardList) (c : Call) : ScopeGuardList := sgl ++ [c]

/-- Execution state of one `addToBoard`/`removeFromBoard` call: the footprint,
the local scope guard list and the trace of lifecycle calls made so far. -/
structure Frame where
  fp : BI_Footprint
  sgl : ScopeGuardList
  calls : List Call

/-- Run the guards in the given order.  A guard makes the inverse lifecycle
call on the child it captured; as the inverse action of a completed step it
fails only for the reason of section 4.1 (wrong attached state), and an
exception of a guard is not propagated. -/
def ScopeGuardList.runEach : List Call → BI_Footprint × List Call → BI_Footprint × List Call
  | [], s => s
  | g :: gs, s => ScopeGuardList.runEach gs ((s.1.callChild g.target g.op none).2, s.2 ++ [g])

/-- Modelled from the spec: what leaving the scope does with a scope guard
list that was not dismissed (sections 4.3 and 9): the inverse actions are
executed in last-in-first-out order. -/
def ScopeGuardList.unwind (fr : Frame) : BI_Footprint × List Call :=
  ScopeGuardList.runEach fr.sgl.reverse (fr.fp, fr.calls)

/-- Result of a footprint operation that can throw: the exception (if any),
the footprint afterwards and the lifecycle calls made, in order. -/
structure Outcome where
  thrown : Option Error
  fp : BI_Footprint
  calls : List Call
  deriving DecidableEq, Repr

/-- An exception leaves the scope of the guard list: unwind, then propagate. -/
def Frame.throw (fr : Frame) (e : Error) : Outcome :=
  let s := ScopeGuardList.unwind fr
  { thrown := some e, fp := s.1, calls := s.2 }

/-- One `foreach` loop of `addToBoard`/`removeFromBoard`:
`foreach (child) { child->op();  // can throw
                   sgl.add([child]() { child->inverse(); }); }`
over the `n` children at positions `i, i+1, ...` of the collection selected by
`mk`.  `faults` tells which calls fail for a reason of their own. -/
def forEachChild (op : Op) (faults : Target → Option Error) (mk : Nat → Target) :
    Nat → Nat → Frame → Option Error × Frame
  | 0, _, fr => (none, fr)
  | n + 1, i, fr =>
    match fr.fp.callChild (mk i) op (faults (mk i)) with
    | (some e, fp1) => (some e, { fr with fp := fp1, calls := fr.calls ++ [⟨mk i, op⟩] })
    | (none, fp1) =>
      forEachChild op faults mk n (i + 1)
        { fp := fp1, sgl := fr.sgl.add ⟨mk i, op.inverse⟩, calls := fr.calls ++ [⟨mk i, op⟩] }

/-- The common body of `addToBoard` and `removeFromBoard` after the guard:
the pads loop, the stroke texts loop, the footprint's own `BI_Base` call and
`sgl.dismiss()`. -/
def BI_Footprint.applyToBoard (op : Op) (faults : Target → Option Error)
    (fp : BI_Footprint) : Outcome :=
  -- ScopeGuardList sgl(mPads.count());
  let fr0 : Frame := { fp := fp, sgl := [], calls := [] }
  -- foreach (BI_FootprintPad* pad, mPads)
  match forEachChild op faults Target.pad fp.mPads.length 0 fr0 with
  | (some e, fr1) => fr1.throw e
  | (none, fr1) =>
    -- foreach (BI_StrokeText* text, mStrokeTexts)
    match forEachChild op faults Target.text fp.mStrokeTexts.length 0 fr1 with
    | (some e, fr2) => fr2.throw e
    | (none, fr2) =>
      -- BI_Base::addToBoard(mGraphicsItem.data()) / BI_Base::removeFromBoard(...)
      match fr2.fp.callChild Target.self op (faults Target.self) with
      | (some e, fp3) =>
        Frame.throw { fr2 with fp := fp3, calls := fr2.calls ++ [⟨Target.self, op⟩] } e
      | (none, fp3) =>
        -- sgl.dismiss();
        { thrown := none, fp := fp3, calls := fr2.calls ++ [⟨Target.self, op⟩] }

/-- `BI_Footprint::addToBoard()` (bi_footprint.cpp lines 226-241). -/
def BI_Footprint.addToBoard (faults : Target → Option Error) (fp : BI_Footprint) : Outcome :=
  if fp.isAddedToBoard then
    { thrown := some (Error.LogicError 228), fp := fp, calls := [] }
  else
    fp.applyToBoard Op.addToBoard faults

/-- `BI_Footprint::removeFromBoard()` (bi_footprint.cpp lines 243-258). -/
def BI_Footprint.removeFromBoard (faults : Target → Option Error) (fp : BI_Footprint) : Outcome :=
  if !fp.isAddedToBoard then
    { thrown := some (Error.LogicError 245), fp := fp, calls := [] }
  else
    fp.applyToBoard Op.removeFromBoard faults

/-! ## Stroke texts of a footprint -/

/-- The list `getDefaultStrokeTexts()` returns (bi_footprint.cpp lines
178-197): a copy of the library footprint's texts, each one moved to the
global coordinate system.  `transform` is the object built by
`Transform transform(*this)`. -/
def BI_Footprint.getDefaultStrokeTexts (transform : Transform) (fp : BI_Footprint) :
    List StrokeText :=
  fp.mDevice.getLibFootprint.getStrokeTexts.map fun text =>
    -- text.setPosition(transform.map(text.getPosition()));
    let text1 := { text with getPosition := transform.mapPoint text.getPosition }
    let text2 :=
      if fp.getMirrored then
        { text1 with getRotation := text1.getRotation +
            (if text1.getMirrored then -fp.getRotation else fp.getRotation) }
      else
        { text1 with getRotation := text1.getRotation +
            (if text1.getMirrored then -fp.getRotation else fp.getRotation) }
    -- text.setMirrored(transform.map(text.getMirrored()));
    let text3 := { text2 with getMirrored := transform.mapMirrored text2.getMirrored }
    -- text.setLayerName(transform.map(text.getLayerName()));
    { text3 with getLayerName := transform.mapLayerName text3.getLayerName }

/-- Modelled from the spec: the constructors of `BI_StrokeText` (declared in
bi_stroketext.h, bodies not part of the sources).  Section 3: a board item is
created detached; the new object lives at `addr`, belongs to `board`, has no
footprint yet and owns the given text. -/
def BI_StrokeText.new (addr : Nat) (board : Nat) (text : StrokeText) : BI_StrokeText :=
  { toBI_Base := {}, addr := addr, mBoard := board, mFootprint := none, mText := text }

/-- Modelled from the spec: `BI_StrokeText::setFootprint` (declared in
bi_stroketext.h, body not part of the sources) stores the non-owning
back-reference to the owning footprint (sections 3 and 9). -/
def BI_StrokeText.setFootprint (text : BI_StrokeText) (footprint : Option Nat) : BI_StrokeText :=
  { text with mFootprint := footprint }

/-- Override `BI_StrokeText::addToBoard()`: the lifecycle contract of a board
item on the text's `BI_Base` part. -/
def BI_StrokeText.addToBoard (fault : Option Error) (text : BI_StrokeText) :
    Option Error × BI_StrokeText :=
  let r := text.toBI_Base.addToBoard fault
  (r.1, { text with toBI_Base := r.2 })

/-- Result of `addStrokeText`: the exception (if any), the footprint
afterwards and the passed text object afterwards. -/
structure TextOutcome where
  thrown : Option Error
  fp : BI_Footprint
  text : BI_StrokeText
  deriving DecidableEq, Repr

/-- `BI_Footprint::addStrokeText(BI_StrokeText& text)` (bi_footprint.cpp lines
199-210).  `fault` is the exception, if any, with which `text.addToBoard()`
fails for a reason of its own. -/
def BI_Footprint.addStrokeText (fault : Option Error) (fp : BI_Footprint)
    (text : BI_StrokeText) : TextOutcome :=
  if fp.mStrokeTexts.any (fun t => t.addr == text.addr) || text.mBoard != fp.mBoard then
    { thrown := some (Error.LogicError 201), fp := fp, text := text }
  else
    -- text.setFootprint(this);
    let text1 := text.setFootprint (some fp.addr)
    if fp.isAddedToBoard then
      -- text.addToBoard();  // can throw
      match text1.addToBoard fault with
      | (some e, text2) => { thrown := some e, fp := fp, text := text2 }
      | (none, text2) =>
        { thrown := none, fp := { fp with mStrokeTexts := fp.mStrokeTexts ++ [text2] },
          text := text2 }
    else
      -- mStrokeTexts.append(&text);
      { thrown := none, fp := { fp with mStrokeTexts := fp.mStrokeTexts ++ [text1] },
        text := text1 }

/-! ## Construction -/

/-- Member `QHash::contains(key)`. -/
def QHash.contains {α : Type} (h : List (Uuid × α)) (key : Uuid) : Bool :=
  h.any fun entry => entry.1 == key

/-- Member `QHash::insert(key, value)`: replaces the value of an existing key,
otherwise adds the entry. -/
def QHash.insert {α : Type} (h : List (Uuid × α)) (key : Uuid) (value : α) : List (Uuid × α) :=
  if QHash.contains h key then
    h.map fun entry => if entry.1 == key then (key, value) else entry
  else
    h ++ [(key, value)]

/-- Modelled from the spec: the constructor
`BI_FootprintPad(BI_Footprint& footprint, const Uuid& padUuid)` (declared in
bi_footprintpad.h, body not part of the sources).  Sections 3 and 9: the pad
is created detached, holds a back-reference to its footprint and is bound to
the library pad of the given identifier. -/
def BI_FootprintPad.new (addr : Nat) (footprint : Nat) (padUuid : Uuid) : BI_FootprintPad :=
  { toBI_Base := {}, addr := addr, mFootprint := footprint, mLibPadUuid := padUuid }

/-- State of a constructor run: the members of the object under
construction, the next free address of the allocator and the addresses of the
pads and stroke texts created with `new` so far. -/
structure Building where
  fp : BI_Footprint
  heap : Nat
  allocated : List Nat
  deriving DecidableEq, Repr

/-- The loop of the constructors,
`foreach (source) { addStrokeText(*new BI_StrokeText(mBoard, source)); }`.
An item of `sources` is what the `BI_StrokeText` constructor makes of one
source: the text of the new object, or the exception it throws (in which case
no object exists). -/
def BI_Footprint.createStrokeTexts (fault : Option Error) :
    List (Except Error StrokeText) → Building → Option Error × Building
  | [], b => (none, b)
  | Except.error e :: _, b => (some e, b)
  | Except.ok text :: rest, b =>
    let obj := BI_StrokeText.new b.heap b.fp.mBoard text
    let r := b.fp.addStrokeText fault obj
    let b1 : Building := { fp := r.fp, heap := b.heap + 1, allocated := b.allocated ++ [b.heap] }
    match r.thrown with
    | some e => (some e, b1)
    | none => BI_Footprint.createStrokeTexts fault rest b1

/-- The "load pads" loop of `BI_Footprint::init()` (bi_footprint.cpp lines
98-122) over the pads of the library footprint. -/
def BI_Footprint.loadPads : List FootprintPad → Building → Option Error × Building
  | [], b => (none, b)
  | libPad :: rest, b =>
    let libPkg := b.fp.mDevice.getLibPackage
    let libDev := b.fp.mDevice.getLibDevice
    if QHash.contains b.fp.mPads libPad.getUuid then
      (some (Error.PadUuidDefinedMultipleTimes libPad.getUuid), b)
    -- libPad.getPackagePadUuid() && (!libPkg.getPads().contains(*libPad.getPackagePadUuid()))
    else if libPad.getPackagePadUuid.any (fun u => !libPkg.getPads.contains u) then
      -- the message names `*libPad.getPackagePadUuid()`, which the condition has shown to exist
      (some (Error.PadNotFoundInPackage (libPad.getPackagePadUuid.getD 0) libPkg.getUuid), b)
    -- libPad.getPackagePadUuid() && (!libDev.getPadSignalMap().contains(*libPad.getPackagePadUuid()))
    else if libPad.getPackagePadUuid.any (fun u => !libDev.getPadSignalMap.contains u) then
      (some (Error.PadNotFoundInPadSignalMap (libPad.getPackagePadUuid.getD 0) libDev.getUuid), b)
    else
      -- BI_FootprintPad* pad = new BI_FootprintPad(*this, libPad.getUuid());
      let pad := BI_FootprintPad.new b.heap b.fp.addr libPad.getUuid
      -- mPads.insert(libPad.getUuid(), pad);
      BI_Footprint.loadPads rest
        { fp := { b.fp with mPads := QHash.insert b.fp.mPads libPad.getUuid pad },
          heap := b.heap + 1, allocated := b.allocated ++ [b.heap] }

/-- `BI_Footprint::init()` (bi_footprint.cpp lines 89-133): create the
graphics item, then load the pads.  The signal connections made at the end
are not part of the state. -/
def BI_Footprint.init (b : Building) : Option Error × Building :=
  -- mGraphicsItem.reset(new BGI_Footprint(*this));
  let b1 : Building := { b with fp := { b.fp with mGraphicsItem := true } }
  BI_Footprint.loadPads b1.fp.getLibFootprint.getPads b1

/-- `BI_Footprint::deinit()` (bi_footprint.cpp lines 135-141): the footprint
afterwards and the addresses of the objects deleted by the two `qDeleteAll`
calls. -/
def BI_Footprint.deinit (fp : BI_Footprint) : BI_Footprint × List Nat :=
  ({ fp with mGraphicsItem := false, mPads := [], mStrokeTexts := [] },
    fp.mPads.map (fun entry => entry.2.addr) ++ fp.mStrokeTexts.map (fun t => t.addr))

/-- Result of a constructor: the exception (if any), the members of the
object when the constructor is left, and the addresses of the pads and stroke
texts that were created and of those that were deleted. -/
structure Construction where
  thrown : Option Error
  self : BI_Footprint
  allocated : List Nat
  deleted : List Nat
  deriving DecidableEq, Repr

/-- The member initialisers `BI_Base(device.getBoard()), mDevice(device)` of
the three constructors, for the object at address `this`. -/
def BI_Footprint.initial (this : Nat) (device : BI_Device) : BI_Footprint :=
  { toBI_Base := {}, addr := this, mBoard := device.getBoard, mDevice := device,
    mGraphicsItem := false, mPads := [], mStrokeTexts := [] }

/-- The handler `catch (...) { deinit(); throw; }` of the constructors. -/
def Building.catchAll (b : Building) (e : Error) : Construction :=
  let d := b.fp.deinit
  { thrown := some e, self := d.1, allocated := b.allocated, deleted := d.2 }

/-- The common shape of the three constructor bodies:
`try { foreach (...) addStrokeText(*new BI_StrokeText(...)); init(); }
 catch (...) { deinit(); throw; }`. -/
def BI_Footprint.construct (fault : Option Error) (sources : List (Except Error StrokeText))
    (b0 : Building) : Construction :=
  match BI_Footprint.createStrokeTexts fault sources b0 with
  | (some e, b1) => b1.catchAll e
  | (none, b1) =>
    match BI_Footprint.init b1 with
    | (some e, b2) => b2.catchAll e
    | (none, b2) => { thrown := none, self := b2.fp, allocated := b2.allocated, deleted := [] }

/-- `BI_Footprint::BI_Footprint(BI_Device& device, const BI_Footprint& other)`
(bi_footprint.cpp lines 49-60). -/
def BI_Footprint.copyOf (this heap : Nat) (fault : Option Error) (device : BI_Device)
    (other : BI_Footprint) : Construction :=
  BI_Footprint.construct fault (other.mStrokeTexts.map fun text => Except.ok text.mText)
    { fp := BI_Footprint.initial this device, heap := heap, allocated := [] }

/-- `BI_Footprint::BI_Footprint(BI_Device& device, const SExpression& node,
const Version& fileFormat)` (bi_footprint.cpp lines 62-74).  `children` gives,
for each child node named `stroke_text`, what the deserialising constructor of
`BI_StrokeText` makes of it. -/
def BI_Footprint.fromNode (this heap : Nat) (fault : Option Error) (device : BI_Device)
    (children : List (Except Error StrokeText)) : Construction :=
  BI_Footprint.construct fault children
    { fp := BI_Footprint.initial this device, heap := heap, allocated := [] }

/-- `BI_Footprint::BI_Footprint(BI_Device& device)` (bi_footprint.cpp lines
76-87). -/
def BI_Footprint.fromDevice (this heap : Nat) (fault : Option Error) (device : BI_Device)
    (transform : Transform) : Construction :=
  BI_Footprint.construct fault
    ((BI_Footprint.getDefaultStrokeTexts transform (BI_Footprint.initial this device)).map
      fun text => Except.ok text)
    { fp := BI_Footprint.initial this device, heap := heap, allocated := [] }

/-- The three constructors applied to the same device, for an object at
address `this` and an allocator at `heap`. -/
def BI_Footprint.constructors (this heap : Nat) (fault : Option Error) (device : BI_Device)
    (other : BI_Footprint) (children : List (Except Error StrokeText))
    (transform : Transform) : List Construction :=
  [BI_Footprint.copyOf this heap fault device other,
    BI_Footprint.fromNode this heap fault device children,
    BI_Footprint.fromDevice this heap fault device transform]

/-! ## Reactions to changes of the device instance -/

/-- Modelled from the spec: `BI_FootprintPad::getCompSigInstNetSignal()`
(declared in bi_footprintpad.h, body not part of the sources) is the net signal
currently bound to the pad (section 4.4): the one of its component signal
instance, null when the pad is not connected (section 3). -/
def BI_FootprintPad.getCompSigInstNetSignal (pad : BI_FootprintPad) : Option Nat :=
  pad.mComponentSignalInstance.bind fun inst => inst.getNetSignal

/-- Modelled from the spec: `BI_FootprintPad::updatePosition()` (declared in
bi_footprintpad.h, body not part of the sources) recomputes the cached absolute
position and rotation from the placement of the parent device (sections 3 and
4.4).  `place` is that computation, which depends on `Transform` and on the
geometry of the library pad. -/
def BI_FootprintPad.updatePosition (place : BI_Device → Uuid → Point × Angle)
    (device : BI_Device) (pad : BI_FootprintPad) : BI_FootprintPad :=
  { pad with
    mPosition := (place device pad.mLibPadUuid).1
    mRotation := (place device pad.mLibPadUuid).2 }

/-- The calls a device handler of the footprint makes on its collaborators:
the graphics item, the pads, the stroke texts and the board.  The argument of
`scheduleAirWiresRebuild` is the `NetSignal*` passed to
`Board::scheduleAirWiresRebuild`, null included. -/
inductive Notification where
  | graphicsItemSetPos (pos : Point)
  | updateGraphicsItemTransform
  | graphicsItemUpdateBoardSide
  | padUpdatePosition (i : Nat)
  | scheduleAirWiresRebuild (netsignal : Option Nat)
  | textUpdateGraphicsItems (i : Nat)
  deriving DecidableEq, Repr

/-- The loop
`foreach (BI_FootprintPad* pad, mPads) { pad->updatePosition();
   mBoard.scheduleAirWiresRebuild(pad->getCompSigInstNetSignal()); }`
of the three device handlers, over the pads from position `i` on: the pads
afterwards and the calls made. -/
def BI_Footprint.updatePads (place : BI_Device → Uuid → Point × Angle) (device : BI_Device) :
    Nat → List (Uuid × BI_FootprintPad) → List (Uuid × BI_FootprintPad) × List Notification
  | _, [] => ([], [])
  | i, (key, pad) :: rest =>
    let pad1 := pad.updatePosition place device
    let r := BI_Footprint.updatePads place device (i + 1) rest
    ((key, pad1) :: r.1,
      Notification.padUpdatePosition i ::
        Notification.scheduleAirWiresRebuild pad1.getCompSigInstNetSignal :: r.2)

/-- `BI_Footprint::deviceInstanceMoved(const Point& pos)` (bi_footprint.cpp
lines 310-317).  `mDevice` is a reference: the record passed in shows the
device as it is when the handler runs. -/
def BI_Footprint.deviceInstanceMoved (place : BI_Device → Uuid → Point × Angle) (pos : Point)
    (fp : BI_Footprint) : BI_Footprint × List Notification :=
  let r := BI_Footprint.updatePads place fp.mDevice 0 fp.mPads
  ({ fp with mPads := r.1 },
    -- mGraphicsItem->setPos(pos.toPxQPointF());
    [Notification.graphicsItemSetPos pos] ++ r.2 ++
    -- foreach (BI_StrokeText* text, mStrokeTexts) { text->updateGraphicsItems(); }
    (List.range fp.mStrokeTexts.length).map Notification.textUpdateGraphicsItems)

/-- `BI_Footprint::deviceInstanceRotated(const Angle& rot)` (bi_footprint.cpp
lines 319-326); the argument is unused. -/
def BI_Footprint.deviceInstanceRotated (place : BI_Device → Uuid → Point × Angle) (_rot : Angle)
    (fp : BI_Footprint) : BI_Footprint × List Notification :=
  let r := BI_Footprint.updatePads place fp.mDevice 0 fp.mPads
  ({ fp with mPads := r.1 },
    -- updateGraphicsItemTransform();
    [Notification.updateGraphicsItemTransform] ++ r.2)

/-- `BI_Footprint::deviceInstanceMirrored(bool mirrored)` (bi_footprint.cpp
lines 328-336); the argument is unused. -/
def BI_Footprint.deviceInstanceMirrored (place : BI_Device → Uuid → Point × Angle)
    (_mirrored : Bool) (fp : BI_Footprint) : BI_Footprint × List Notification :=
  let r := BI_Footprint.updatePads place fp.mDevice 0 fp.mPads
  ({ fp with mPads := r.1 },
    -- updateGraphicsItemTransform(); mGraphicsItem->updateBoardSide();
    [Notification.updateGraphicsItemTransform, Notification.graphicsItemUpdateBoardSide] ++ r.2)

/-- The arguments of the `scheduleAirWiresRebuild` calls among the given calls,
in order. -/
def Notification.rebuildRequests : List Notification → List (Option Nat)
  | [] => []
  | Notification.scheduleAirWiresRebuild s :: rest => s :: Notification.rebuildRequests rest
  | _ :: rest => Notification.rebuildRequests rest

/-- The positions of the pads on which `updatePosition` was called, in order. -/
def Notification.positionUpdates : List Notification → List Nat
  | [] => []
  | Notification.padUpdatePosition i :: rest => i :: Notification.positionUpdates rest
  | _ :: rest => Notification.positionUpdates rest

/-- The three device handlers applied to the same footprint. -/
def BI_Footprint.deviceHandlers (place : BI_Device → Uuid → Point × Angle) (pos : Point)
    (rot : Angle) (mirrored : Bool) (fp : BI_Footprint) :
    List (BI_Footprint × List Notification) :=
  [fp.deviceInstanceMoved place pos, fp.deviceInstanceRotated place rot,
    fp.deviceInstanceMirrored place mirrored]

/-! ## Further operations on a footprint -/

/-- Override `BI_StrokeText::removeFromBoard()`: the lifecycle contract of a
board item on the text's `BI_Base` part. -/
def BI_StrokeText.removeFromBoard (fault : Option Error) (text : BI_StrokeText) :
    Option Error × BI_StrokeText :=
  let r := text.toBI_Base.removeFromBoard fault
  (r.1, { text with toBI_Base := r.2 })

/-- `BI_Footprint::removeStrokeText(BI_StrokeText& text)` (bi_footprint.cpp
lines 212-220).  The object is identified by its address; when the list
contains it, its state is the one held there.  `fault` is the exception, if
any, with which `text.removeFromBoard()` fails for a reason of its own. -/
def BI_Footprint.removeStrokeText (fault : Option Error) (fp : BI_Footprint)
    (text : BI_StrokeText) : TextOutcome :=
  match fp.mStrokeTexts.find? (fun t => t.addr == text.addr) with
  | none =>
    -- if (!mStrokeTexts.contains(&text)) throw LogicError(__FILE__, __LINE__);
    { thrown := some (Error.LogicError 214), fp := fp, text := text }
  | some member =>
    if fp.isAddedToBoard then
      -- text.removeFromBoard();  // can throw
      match member.removeFromBoard fault with
      | (some e, _) => { thrown := some e, fp := fp, text := member }
      | (none, member1) =>
        { thrown := none
          fp := { fp with mStrokeTexts := fp.mStrokeTexts.eraseP (fun t => t.addr == text.addr) }
          text := member1 }
    else
      -- mStrokeTexts.removeOne(&text);
      { thrown := none
        fp := { fp with mStrokeTexts := fp.mStrokeTexts.eraseP (fun t => t.addr == text.addr) }
        text := member }

/-- Modelled from the spec: `setSelected` of a board item (`BI_Base` and the
overrides of pads and stroke texts, not part of the sources) stores the
boolean selected state of section 3. -/
def BI_Base.setSelected (selected : Bool) (b : BI_Base) : BI_Base :=
  { b with mIsSelected := selected }

/-- `BI_Footprint::setSelected(bool selected)` (bi_footprint.cpp lines
293-300): the footprint itself, its graphics item, every pad and every stroke
text. -/
def BI_Footprint.setSelected (selected : Bool) (fp : BI_Footprint) : BI_Footprint :=
  { fp with
    toBI_Base := fp.toBI_Base.setSelected selected
    mPads := fp.mPads.map fun e =>
      (e.1, { e.2 with toBI_Base := e.2.toBI_Base.setSelected selected })
    mStrokeTexts := fp.mStrokeTexts.map fun t =>
      { t with toBI_Base := t.toBI_Base.setSelected selected } }

/-- `BI_Footprint::serialize(SExpression& root) const` (bi_footprint.cpp lines
260-262): the node after the call and the footprint, which a const member does
not change.  The helper `serializePointerContainerUuidSorted` is not part of
the sources and is taken as given. -/
def BI_Footprint.serialize {SExpression : Type}
    (serializePointerContainerUuidSorted : SExpression → List BI_StrokeText → SExpression)
    (root : SExpression) (fp : BI_Footprint) : SExpression × BI_Footprint :=
  (serializePointerContainerUuidSorted root fp.mStrokeTexts, fp)

/-- The keys of the pad map, each with the address of the pad object it maps
to, in map order. -/
def BI_Footprint.padObjects (fp : BI_Footprint) : List (Uuid × Nat) :=
  fp.mPads.map fun e => (e.1, e.2.addr)

/-! ## The undo command CmdSchematicEdit -/

/-- A validated element name (class `ElementName`); only equality is used. -/
abbrev ElementName := String

/-- Modelled from the spec: class `Schematic` (schematic.h) is not part of the
sources.  The undo command of section 3 reads and writes one attribute of the
document, the name of the sheet. -/
structure Schematic where
  mName : ElementName
  deriving DecidableEq, Repr

/-- Getter `Schematic::getName()`. -/
def Schematic.getName (s : Schematic) : ElementName := s.mName

/-- Setter `Schematic::setName(name)`: the name `getName()` returns from then
on. -/
def Schematic.setName (s : Schematic) (name : ElementName) : Schematic :=
  { s with mName := name }

/-- The members of `CmdSchematicEdit`.  `mSchematic` is a reference: the record
holds the state of the schematic the command works on. -/
structure CmdSchematicEdit where
  mSchematic : Schematic
  mOldName : ElementName
  mNewName : ElementName
  deriving DecidableEq, Repr

/-- `CmdSchematicEdit::CmdSchematicEdit(Schematic& schematic)`
(cmdschematicedit.cpp lines 39-44). -/
def CmdSchematicEdit.new (schematic : Schematic) : CmdSchematicEdit :=
  { mSchematic := schematic, mOldName := schematic.getName, mNewName := schematic.getName }

/-- `CmdSchematicEdit::setName(const ElementName& name)` (lines 53-56). -/
def CmdSchematicEdit.setName (cmd : CmdSchematicEdit) (name : ElementName) : CmdSchematicEdit :=
  { cmd with mNewName := name }

/-- `CmdSchematicEdit::performUndo()` (lines 69-71). -/
def CmdSchematicEdit.performUndo (cmd : CmdSchematicEdit) : CmdSchematicEdit :=
  { cmd with mSchematic := cmd.mSchematic.setName cmd.mOldName }

/-- `CmdSchematicEdit::performRedo()` (lines 73-75). -/
def CmdSchematicEdit.performRedo (cmd : CmdSchematicEdit) : CmdSchematicEdit :=
  { cmd with mSchematic := cmd.mSchematic.setName cmd.mNewName }

/-- `CmdSchematicEdit::performExecute()` (lines 62-67): the returned flag and
the command afterwards. -/
def CmdSchematicEdit.performExecute (cmd : CmdSchematicEdit) : Bool × CmdSchematicEdit :=
  -- performRedo();  // can throw
  let cmd1 := cmd.performRedo
  if cmd1.mNewName != cmd1.mOldName then (true, cmd1) else (false, cmd1)

/-- The command as client code prepares it: constructed for a schematic, then
`setName` called for each of `names`, in order. -/
def CmdSchematicEdit.prepared (schematic : Schematic) (names : List ElementName) :
    CmdSchematicEdit :=
  names.foldl CmdSchematicEdit.setName (CmdSchematicEdit.new schematic)

/-- The command after other code has called `setName(name)` on the schematic
the command refers to (`mSchematic` is a reference, so the command sees the
change; its captured `mOldName` stays as it is).  Another `CmdSchematicEdit` on
the same sheet does this call in its `performRedo`. -/
def CmdSchematicEdit.renamedElsewhere (cmd : CmdSchematicEdit) (name : ElementName) :
    CmdSchematicEdit :=
  { cmd with mSchematic := cmd.mSchematic.setName name }

/-! ## The add-pads tool of the package editor and the undo stack it drives -/

/-- Modelled from the spec: the undo commands the add-pads tool creates
(classes `CmdFootprintPadInsert` and `CmdFootprintPadEdit`, not part of the
sources), as reversible units of document mutation (section 3).  The document
they act on is the pad list of the current footprint.  `index` is the position
of the pad in that list; `old` and `new` are the attributes of the pad before
the edit and the ones the edit sets. -/
inductive UndoCommand where
  | CmdFootprintPadInsert (pad : FootprintPad) (index : Nat)
  | CmdFootprintPadEdit (index : Nat) (old new : FootprintPad)
  deriving DecidableEq, Repr

/-- Modelled from the spec: executing a command (section 3, "apply for the
first time"): the insert command appends the pad to the list and remembers its
position, the edit command writes the new attributes.  Returns the command as
executed and the pad list afterwards. -/
def UndoCommand.execute (pads : List FootprintPad) : UndoCommand → UndoCommand × List FootprintPad
  | UndoCommand.CmdFootprintPadInsert pad _ =>
    (UndoCommand.CmdFootprintPadInsert pad pads.length, pads ++ [pad])
  | UndoCommand.CmdFootprintPadEdit index old new =>
    (UndoCommand.CmdFootprintPadEdit index old new, pads.set index new)

/-- Modelled from the spec: undoing an executed command (section 3, "revert
last applied state"). -/
def UndoCommand.undo (pads : List FootprintPad) : UndoCommand → List FootprintPad
  | UndoCommand.CmdFootprintPadInsert _ index => pads.eraseIdx index
  | UndoCommand.CmdFootprintPadEdit index old _ => pads.set index old

/-- Modelled from the spec: whether an executed command changed anything
(section 3: a command without net effect reports "no-op"). -/
def UndoCommand.isEffective : UndoCommand → Bool
  | UndoCommand.CmdFootprintPadInsert _ _ => true
  | UndoCommand.CmdFootprintPadEdit _ old new => old != new

/-- Modelled from the spec: the undo stack of section 3 (class `UndoStack`,
not part of the sources): the executed command groups that can be undone, the
ones that can be redone, and the slot of the command group currently open,
with its children in the order they were appended. -/
structure UndoStack where
  past : List (List UndoCommand) := []
  future : List (List UndoCommand) := []
  group : Option (List UndoCommand) := none
  deriving DecidableEq, Repr

/-- The part of `PackageEditorState::Context` the tool uses: the pads of the
package being edited, the footprint currently open in the editor (a pointer
that can be null) and the undo stack. -/
structure Context where
  package : List Uuid
  currentFootprint : Option Footprint
  undoStack : UndoStack
  deriving DecidableEq, Repr

/-- The calls the tool makes on the undo stack. -/
inductive StackCall where
  | beginCmdGroup
  | appendInsert
  | appendEdit
  | commitCmdGroup
  | abortCmdGroup
  deriving DecidableEq, Repr

/-- Modelled from the spec: `UndoStack::beginCmdGroup` (sections 3, 4.5 and 7):
opening a group while one is open is rejected; otherwise an empty group is
open afterwards.  `fault` is any other exception of the call. -/
def Context.beginCmdGroup (fault : Option Error) (c : Context) : Option Error × Context :=
  match c.undoStack.group with
  | some _ => (some Error.StackDiscipline, c)
  | none =>
    match fault with
    | some e => (some e, c)
    | none => (none, { c with undoStack := { c.undoStack with group := some [] } })

/-- Modelled from the spec: `UndoStack::appendToCmdGroup` (sections 4.5 and
4.6): without an open group the call is rejected; otherwise the command is
executed on the pad list of the current footprint and becomes the last child
of the open group.  `fault` is the exception, if any, with which executing the
command fails; a failing call changes nothing (section 5). -/
def Context.appendToCmdGroup (fault : Option Error) (cmd : UndoCommand) (c : Context) :
    Option Error × Context :=
  match c.undoStack.group, c.currentFootprint with
  | some children, some footprint =>
    match fault with
    | some e => (some e, c)
    | none =>
      let r := cmd.execute footprint.getPads
      (none, { c with
        currentFootprint := some { footprint with getPads := r.2 }
        undoStack := { c.undoStack with group := some (children ++ [r.1]) } })
  | _, _ => (some Error.StackDiscipline, c)

/-- Modelled from the spec: `UndoStack::commitCmdGroup` (section 4.5): without
an open group the call is rejected; a group with at least one effective child
becomes the newest entry of `past` and `future` is cleared; a group without
effective child is dropped.  No group is open afterwards. -/
def Context.commitCmdGroup (fault : Option Error) (c : Context) : Option Error × Context :=
  match c.undoStack.group with
  | none => (some Error.StackDiscipline, c)
  | some children =>
    match fault with
    | some e => (some e, c)
    | none =>
      (none, { c with undoStack :=
        if children.any UndoCommand.isEffective then
          { past := c.undoStack.past ++ [children], future := [], group := none }
        else
          { c.undoStack with group := none } })

/-- Modelled from the spec: `UndoStack::abortCmdGroup` (section 4.5): without
an open group the call is rejected; otherwise every child is undone, last
appended first, and the group is discarded. -/
def Context.abortCmdGroup (fault : Option Error) (c : Context) : Option Error × Context :=
  match c.undoStack.group, c.currentFootprint with
  | some children, some footprint =>
    match fault with
    | some e => (some e, c)
    | none =>
      (none, { c with
        currentFootprint := some { footprint with
          getPads := children.reverse.foldl (fun pads cmd => cmd.undo pads) footprint.getPads }
        undoStack := { c.undoStack with group := none } })
  | _, _ => (some Error.StackDiscipline, c)

/-- The members of `PackageEditorState_AddPads`.  `mCurrentPad` is the pad
being placed; the same object is the last entry of the footprint's pad list
once the insert command ran, and the model keeps both copies equal.
`mCurrentGraphicsItem` tells whether the pointer is set.
`mPackagePadComboBox` is absent while the pointer is null and otherwise holds
the pad selected in the box.  `trace` records the calls made on the undo stack
and whether each returned normally. -/
structure PackageEditorState_AddPads where
  mContext : Context
  mCurrentPad : Option FootprintPad := none
  mCurrentGraphicsItem : Bool := false
  mPackagePadComboBox : Option (Option Uuid) := none
  mLastPad : FootprintPad
  mEditCmd : Option UndoCommand := none
  trace : List (StackCall × Bool) := []
  deriving DecidableEq, Repr

/-- Faults of the undo stack calls of one event: for each kind of call the
exception, if any, with which it fails for a reason of its own. -/
abbrev StackFaults := StackCall → Option Error

/-- `PackageEditorState_AddPads::selectNextFreePadInComboBox()`
(packageeditorstate_addpads.cpp lines 287-304). -/
def PackageEditorState_AddPads.selectNextFreePadInComboBox (st : PackageEditorState_AddPads) :
    PackageEditorState_AddPads :=
  match st.mContext.currentFootprint, st.mPackagePadComboBox with
  | some footprint, some _ =>
    -- the first package pad no footprint pad is connected to
    let pad := st.mContext.package.find? fun pkgPad =>
      !(footprint.getPads.any fun fptPad => fptPad.getPackagePadUuid == some pkgPad)
    -- mPackagePadComboBox->setCurrentPad(pad);
    { st with mPackagePadComboBox := some pad }
  | _, _ => st

/-- The handler `catch (const Exception& e)` of `startAddPad` (lines 246-252). -/
def PackageEditorState_AddPads.startAddPadFailed (st : PackageEditorState_AddPads) :
    Bool × PackageEditorState_AddPads :=
  (false, { st with mCurrentGraphicsItem := false, mCurrentPad := none, mEditCmd := none })

/-- `PackageEditorState_AddPads::startAddPad(const Point& pos)` (lines
232-253).  `uuid` is the result of `Uuid::createRandom()`. -/
def PackageEditorState_AddPads.startAddPad (pos : Point) (uuid : Uuid) (faults : StackFaults)
    (st : PackageEditorState_AddPads) : Bool × PackageEditorState_AddPads :=
  -- mContext.undoStack.beginCmdGroup(tr("Add footprint pad"));
  match st.mContext.beginCmdGroup (faults StackCall.beginCmdGroup) with
  | (some _, c1) =>
    PackageEditorState_AddPads.startAddPadFailed
      { st with mContext := c1, trace := st.trace ++ [(StackCall.beginCmdGroup, false)] }
  | (none, c1) =>
    -- mLastPad.setPosition(pos);
    let lastPad := { st.mLastPad with getPosition := pos }
    -- mCurrentPad = std::make_shared<FootprintPad>(Uuid::createRandom(), mLastPad);
    let pad := { lastPad with getUuid := uuid }
    let st1 := { st with mContext := c1, mLastPad := lastPad, mCurrentPad := some pad,
                         trace := st.trace ++ [(StackCall.beginCmdGroup, true)] }
    -- mContext.undoStack.appendToCmdGroup(new CmdFootprintPadInsert(...));
    match c1.appendToCmdGroup (faults StackCall.appendInsert)
        (UndoCommand.CmdFootprintPadInsert pad 0) with
    | (some _, c2) =>
      PackageEditorState_AddPads.startAddPadFailed
        { st1 with mContext := c2, trace := st1.trace ++ [(StackCall.appendInsert, false)] }
    | (none, c2) =>
      -- mEditCmd.reset(new CmdFootprintPadEdit(*mCurrentPad));
      (true, { st1 with
        mContext := c2
        mEditCmd := some (UndoCommand.CmdFootprintPadEdit
          ((c1.currentFootprint.map fun f => f.getPads.length).getD 0) pad pad)
        mCurrentGraphicsItem := true
        trace := st1.trace ++ [(StackCall.appendInsert, true)] })

/-- The immediate setter `mEditCmd->setPosition(pos, true)`: the pending edit
and the pad it edits get the new position at once. -/
def PackageEditorState_AddPads.editSetPosition (pos : Point) (st : PackageEditorState_AddPads) :
    PackageEditorState_AddPads :=
  match st.mEditCmd with
  | some (UndoCommand.CmdFootprintPadEdit index old new) =>
    let new1 := { new with getPosition := pos }
    { st with
      mEditCmd := some (UndoCommand.CmdFootprintPadEdit index old new1)
      mCurrentPad := st.mCurrentPad.map fun _ => new1
      mContext := { st.mContext with
        currentFootprint := st.mContext.currentFootprint.map fun f =>
          { f with getPads := f.getPads.set index new1 } } }
  | _ => st

/-- `PackageEditorState_AddPads::finishAddPad(const Point& pos)` (lines
255-270).  The function is only called while a current pad exists. -/
def PackageEditorState_AddPads.finishAddPad (pos : Point) (faults : StackFaults)
    (st : PackageEditorState_AddPads) : Bool × PackageEditorState_AddPads :=
  -- mEditCmd->setPosition(pos, true);
  let st1 := st.editSetPosition pos
  match st1.mCurrentPad, st1.mEditCmd with
  | some pad, some cmd =>
    -- mCurrentGraphicsItem.reset(); mLastPad = *mCurrentPad; mCurrentPad.reset();
    let st2 := { st1 with mCurrentGraphicsItem := false, mLastPad := pad, mCurrentPad := none,
                          mEditCmd := none }
    -- mContext.undoStack.appendToCmdGroup(mEditCmd.take());
    match st2.mContext.appendToCmdGroup (faults StackCall.appendEdit) cmd with
    | (some _, c3) =>
      (false, { st2 with mContext := c3, trace := st2.trace ++ [(StackCall.appendEdit, false)] })
    | (none, c3) =>
      -- mContext.undoStack.commitCmdGroup();
      match c3.commitCmdGroup (faults StackCall.commitCmdGroup) with
      | (some _, c4) =>
        (false, { st2 with mContext := c4, trace := st2.trace ++
          [(StackCall.appendEdit, true), (StackCall.commitCmdGroup, false)] })
      | (none, c4) =>
        -- selectNextFreePadInComboBox();
        (true, PackageEditorState_AddPads.selectNextFreePadInComboBox
          { st2 with mContext := c4, trace := st2.trace ++
            [(StackCall.appendEdit, true), (StackCall.commitCmdGroup, true)] })
  | _, _ => (false, st1)

/-- `PackageEditorState_AddPads::abortAddPad()` (lines 272-285).  The function
is only called while a current pad exists. -/
def PackageEditorState_AddPads.abortAddPad (faults : StackFaults)
    (st : PackageEditorState_AddPads) : Bool × PackageEditorState_AddPads :=
  match st.mCurrentPad with
  | some pad =>
    -- mCurrentGraphicsItem.reset(); mLastPad = *mCurrentPad; mCurrentPad.reset();
    -- mEditCmd.reset();
    let st1 := { st with mCurrentGraphicsItem := false, mLastPad := pad, mCurrentPad := none,
                         mEditCmd := none }
    -- mContext.undoStack.abortCmdGroup();
    match st1.mContext.abortCmdGroup (faults StackCall.abortCmdGroup) with
    | (some _, c2) =>
      (false, { st1 with mContext := c2, trace := st1.trace ++ [(StackCall.abortCmdGroup, false)] })
    | (none, c2) =>
      (true, { st1 with mContext := c2, trace := st1.trace ++ [(StackCall.abortCmdGroup, true)] })
  | none => (false, st)

/-- `PackageEditorState_AddPads::entry()` (lines 83-163), without the widgets
of the command tool bar other than the package pad box.  `pos` is the cursor
position mapped to the scene. -/
def PackageEditorState_AddPads.entry (pos : Point) (uuid : Uuid) (faults : StackFaults)
    (st : PackageEditorState_AddPads) : Bool × PackageEditorState_AddPads :=
  -- mPackagePadComboBox = new PackagePadComboBox(); ... selectNextFreePadInComboBox();
  let st1 := PackageEditorState_AddPads.selectNextFreePadInComboBox
    { st with mPackagePadComboBox := some none }
  -- if (!startAddPad(pos)) { return false; }  ...  return true;
  st1.startAddPad pos uuid faults

/-- `PackageEditorState_AddPads::exit()` (lines 165-176). -/
def PackageEditorState_AddPads.exit (faults : StackFaults) (st : PackageEditorState_AddPads) :
    Bool × PackageEditorState_AddPads :=
  match st.mCurrentPad with
  | some _ =>
    -- if (mCurrentPad && !abortAddPad()) { return false; }
    match st.abortAddPad faults with
    | (false, st1) => (false, st1)
    | (true, st1) => (true, { st1 with mPackagePadComboBox := none })
  | none => (true, { st with mPackagePadComboBox := none })

/-- `PackageEditorState_AddPads::processGraphicsSceneLeftMouseButtonPressed`
(lines 194-202).  `pos` is the position of the event mapped to the grid. -/
def PackageEditorState_AddPads.processGraphicsSceneLeftMouseButtonPressed (pos : Point)
    (uuid : Uuid) (faults : StackFaults) (st : PackageEditorState_AddPads) :
    Bool × PackageEditorState_AddPads :=
  -- if (mCurrentPad) { finishAddPad(currentPos); }
  let st1 := match st.mCurrentPad with
    | some _ => (st.finishAddPad pos faults).2
    | none => st
  -- return startAddPad(currentPos);
  st1.startAddPad pos uuid faults

/-- The events of the tool considered here, each with the position, the random
UUID and the faults of the undo stack calls it meets. -/
inductive ToolEvent where
  | entry (pos : Point) (uuid : Uuid) (faults : StackFaults)
  | leftClick (pos : Point) (uuid : Uuid) (faults : StackFaults)
  | exit (faults : StackFaults)

/-- Dispatch of an event to its handler. -/
def PackageEditorState_AddPads.process (st : PackageEditorState_AddPads) :
    ToolEvent → Bool × PackageEditorState_AddPads
  | ToolEvent.entry pos uuid faults => st.entry pos uuid faults
  | ToolEvent.leftClick pos uuid faults =>
    st.processGraphicsSceneLeftMouseButtonPressed pos uuid faults
  | ToolEvent.exit faults => st.exit faults

/-- A sequence of events: whether every handler returned true, and the state
afterwards. -/
def PackageEditorState_AddPads.run (st : PackageEditorState_AddPads) :
    List ToolEvent → Bool × PackageEditorState_AddPads
  | [] => (true, st)
  | ev :: rest =>
    let r := st.process ev
    let q := PackageEditorState_AddPads.run r.2 rest
    (r.1 && q.1, q.2)

/-- Where a placement stands, as seen from the calls on the undo stack. -/
inductive Phase where
  | idle
  | begun
  | placing
  | finishing
  deriving DecidableEq, Repr

/-- The shape of a placement: `beginCmdGroup`, the append of the insert
command, then either the append of the edit command and `commitCmdGroup`, or
`abortCmdGroup`.  Any other call is out of turn. -/
def Phase.step : Phase → StackCall → Option Phase
  | Phase.idle, StackCall.beginCmdGroup => some Phase.begun
  | Phase.begun, StackCall.appendInsert => some Phase.placing
  | Phase.placing, StackCall.appendEdit => some Phase.finishing
  | Phase.finishing, StackCall.commitCmdGroup => some Phase.idle
  | Phase.placing, StackCall.abortCmdGroup => some Phase.idle
  | _, _ => none

/-- The phase after a sequence of calls, if every call was in turn. -/
def Phase.after (start : Option Phase) (calls : List StackCall) : Option Phase :=
  calls.foldl (fun p c => p.bind fun q => q.step c) start

/-- The tool state at the boundary of two events: a command group is open
exactly while a current pad exists, a pending edit command exists with the
current pad, every call on the undo stack so far returned normally, and the
calls so far are whole placements, followed by the begin of one if a current
pad exists. -/
def PackageEditorState_AddPads.Consistent (st : PackageEditorState_AddPads) : Prop :=
  (st.mContext.undoStack.group.isSome = st.mCurrentPad.isSome) ∧
  (st.mCurrentPad.isSome = true → st.mEditCmd.isSome = true) ∧
  (∀ c ∈ st.trace, c.2 = true) ∧
  Phase.after (some Phase.idle) (st.trace.map Prod.fst) =
    some (if st.mCurrentPad.isSome then Phase.placing else Phase.idle)

/-! ## Use of a footprint by net lines -/

/-- The inline `BI_FootprintPad::isUsed()` (bi_footprintpad.h line 94):
`return (mRegisteredNetLines.count() > 0);`. -/
def BI_FootprintPad.isUsed (pad : BI_FootprintPad) : Bool :=
  decide (pad.mRegisteredNetLines.length > 0)

/-- The loop of `BI_Footprint::isUsed()` over the values of the pad map: it
returns `true` at the first used pad and `false` when the loop runs out. -/
def BI_Footprint.isUsedLoop : List (Uuid × BI_FootprintPad) → Bool
  | [] => false
  | entry :: rest => if entry.2.isUsed then true else BI_Footprint.isUsedLoop rest

/-- The method `BI_Footprint::isUsed()` (bi_footprint.cpp lines 163-168). -/
def BI_Footprint.isUsed (fp : BI_Footprint) : Bool :=
  BI_Footprint.isUsedLoop fp.mPads

/-! ## The library class ComponentSignal -/

/-- The signal role of a component signal (class `SignalRole`, not part of the
sources): a value with an equality test. -/
abbrev SignalRole := Nat

/-- The kinds of the `onEdited` signal that componentsignal.cpp emits. -/
inductive ComponentSignal.Event
  | UuidChanged
  | NameChanged
  | RoleChanged
  | ForcedNetNameChanged
  | IsRequiredChanged
  | IsNegatedChanged
  | IsClockChanged
  deriving DecidableEq, Repr

/-- The attributes of a `ComponentSignal` (componentsignal.cpp, constructors at
lines 36-73).  `CircuitIdentifier` and `QString` are strings here. -/
structure ComponentSignal where
  mUuid : Uuid
  mName : String
  mRole : SignalRole
  mForcedNetName : String
  mIsRequired : Bool
  mIsNegated : Bool
  mIsClock : Bool
  deriving DecidableEq, Repr

/-- What a setter of `ComponentSignal` leaves behind: its return value, the
object after the call, and the `onEdited.notify` calls it made, in order. -/
structure ComponentSignal.Edited where
  result : Bool
  signal : ComponentSignal
  onEdited : List ComponentSignal.Event
  deriving DecidableEq, Repr

/-- The method `ComponentSignal::setName` (componentsignal.cpp lines 81-89). -/
def ComponentSignal.setName (s : ComponentSignal) (name : String) : ComponentSignal.Edited :=
  if name == s.mName then
    { result := false, signal := s, onEdited := [] }
  else
    { result := true, signal := { s with mName := name }, onEdited := [.NameChanged] }

/-- The method `ComponentSignal::setRole` (lines 91-99). -/
def ComponentSignal.setRole (s : ComponentSignal) (role : SignalRole) : ComponentSignal.Edited :=
  if role == s.mRole then
    { result := false, signal := s, onEdited := [] }
  else
    { result := true, signal := { s with mRole := role }, onEdited := [.RoleChanged] }

/-- The method `ComponentSignal::setForcedNetName` (lines 101-109). -/
def ComponentSignal.setForcedNetName (s : ComponentSignal) (name : String) :
    ComponentSignal.Edited :=
  if name == s.mForcedNetName then
    { result := false, signal := s, onEdited := [] }
  else
    { result := true, signal := { s with mForcedNetName := name },
      onEdited := [.ForcedNetNameChanged] }

/-- The method `ComponentSignal::setIsRequired` (lines 111-119). -/
def ComponentSignal.setIsRequired (s : ComponentSignal) (required : Bool) :
    ComponentSignal.Edited :=
  if required == s.mIsRequired then
    { result := false, signal := s, onEdited := [] }
  else
    { result := true, signal := { s with mIsRequired := required },
      onEdited := [.IsRequiredChanged] }

/-- The method `ComponentSignal::setIsNegated` (lines 121-129). -/
def ComponentSignal.setIsNegated (s : ComponentSignal) (negated : Bool) :
    ComponentSignal.Edited :=
  if negated == s.mIsNegated then
    { result := false, signal := s, onEdited := [] }
  else
    { result := true, signal := { s with mIsNegated := negated },
      onEdited := [.IsNegatedChanged] }

/-- The method `ComponentSignal::setIsClock` (lines 131-139). -/
def ComponentSignal.setIsClock (s : ComponentSignal) (clock : Bool) : ComponentSignal.Edited :=
  if clock == s.mIsClock then
    { result := false, signal := s, onEdited := [] }
  else
    { result := true, signal := { s with mIsClock := clock }, onEdited := [.IsClockChanged] }

/-- The comparison `ComponentSignal::operator==` (lines 161-170). -/
def ComponentSignal.operatorEq (s rhs : ComponentSignal) : Bool :=
  if s.mUuid != rhs.mUuid then false
  else if s.mName != rhs.mName then false
  else if s.mRole != rhs.mRole then false
  else if s.mForcedNetName != rhs.mForcedNetName then false
  else if s.mIsRequired != rhs.mIsRequired then false
  else if s.mIsNegated != rhs.mIsNegated then false
  else if s.mIsClock != rhs.mIsClock then false
  else true

/-- The first statement of `operator=` (lines 174-177): the UUID is assigned
directly, with a notification when it differs. -/
def ComponentSignal.assignUuid (s : ComponentSignal) (uuid : Uuid) : ComponentSignal.Edited :=
  if s.mUuid != uuid then
    { result := true, signal := { s with mUuid := uuid }, onEdited := [.UuidChanged] }
  else
    { result := false, signal := s, onEdited := [] }

/-- The assignment `ComponentSignal::operator=` (lines 172-185): the UUID
first, then the six setters in the order of the source.  The result is the
assigned object and the notifications emitted during the assignment. -/
def ComponentSignal.assign (s rhs : ComponentSignal) :
    ComponentSignal × List ComponentSignal.Event :=
  let r0 := s.assignUuid rhs.mUuid
  let r1 := r0.signal.setName rhs.mName
  let r2 := r1.signal.setRole rhs.mRole
  let r3 := r2.signal.setForcedNetName rhs.mForcedNetName
  let r4 := r3.signal.setIsRequired rhs.mIsRequired
  let r5 := r4.signal.setIsNegated rhs.mIsNegated
  let r6 := r5.signal.setIsClock rhs.mIsClock
  (r6.signal, r0.onEdited ++ r1.onEdited ++ r2.onEdited ++ r3.onEdited ++ r4.onEdited ++
    r5.onEdited ++ r6.onEdited)

/-- The notifications the specification expects from an
assignment: one per field in which the two objects differ, in the order uuid,
name, role, forced net name, required, negated, clock. -/
def ComponentSignal.differences (s rhs : ComponentSignal) : List ComponentSignal.Event :=
  (if s.mUuid = rhs.mUuid then [] else [.UuidChanged]) ++
  (if s.mName = rhs.mName then [] else [.NameChanged]) ++
  (if s.mRole = rhs.mRole then [] else [.RoleChanged]) ++
  (if s.mForcedNetName = rhs.mForcedNetName then [] else [.ForcedNetNameChanged]) ++
  (if s.mIsRequired = rhs.mIsRequired then [] else [.IsRequiredChanged]) ++
  (if s.mIsNegated = rhs.mIsNegated then [] else [.IsNegatedChanged]) ++
  (if s.mIsClock = rhs.mIsClock then [] else [.IsClockChanged])

/-- The method `addToBoard()` or `removeFromBoard()` of a footprint, selected
by `op`. -/
def BI_Footprint.lifecycleCall (op : Op) (faults : Target → Option Error) (fp : BI_Footprint) :
    Outcome :=
  match op with
  | Op.addToBoard => fp.addToBoard faults
  | Op.removeFromBoard => fp.removeFromBoard faults

/-- The calls of `op` on the first `p` pads, in map order. -/
def padCalls (op : Op) (p : Nat) : List Call :=
  (List.range p).map fun i => { target := Target.pad i, op := op }

/-- The calls of `op` on the first `t` stroke texts, in list order. -/
def textCalls (op : Op) (t : Nat) : List Call :=
  (List.range t).map fun i => { target := Target.text i, op := op }

/-! ## Sequences of operations on a footprint -/

/-- One call of a state changing operation of a footprint, with the faults
of the calls it makes on its children and, for the stroke text operations,
the text object passed in. -/
inductive FootprintCall where
  | addToBoard (faults : Target → Option Error)
  | removeFromBoard (faults : Target → Option Error)
  | addStrokeText (fault : Option Error) (text : BI_StrokeText)
  | removeStrokeText (fault : Option Error) (text : BI_StrokeText)

/-- The footprint after one call, whether the call returned or threw. -/
def BI_Footprint.perform (fp : BI_Footprint) : FootprintCall → BI_Footprint
  | FootprintCall.addToBoard faults => (fp.addToBoard faults).fp
  | FootprintCall.removeFromBoard faults => (fp.removeFromBoard faults).fp
  | FootprintCall.addStrokeText fault text => (fp.addStrokeText fault text).fp
  | FootprintCall.removeStrokeText fault text => (fp.removeStrokeText fault text).fp

/-- The footprint after a sequence of calls, first call first. -/
def BI_Footprint.performAll (fp : BI_Footprint) (calls : List FootprintCall) : BI_Footprint :=
  calls.foldl BI_Footprint.perform fp

/-- A text passed to `addStrokeText` is detached when it is passed in. -/
def FootprintCall.textDetached : FootprintCall → Prop
  | FootprintCall.addStrokeText _ text => text.mIsAddedToBoard = false
  | _ => True

/-- Every pad and every stroke text of the footprint is attached to the board
exactly when the footprint is. -/
def BI_Footprint.ChildrenFollow (fp : BI_Footprint) : Prop :=
  (∀ entry ∈ fp.mPads, entry.2.mIsAddedToBoard = fp.isAddedToBoard) ∧
  (∀ text ∈ fp.mStrokeTexts, text.mIsAddedToBoard = fp.isAddedToBoard)

/-! ## Auxiliary notions for the proofs -/

/-- The attached flag a successful lifecycle operation leaves behind. -/
def Op.attached : Op → Bool
  | Op.addToBoard => true
  | Op.removeFromBoard => false

/-- The guard pushed after a completed call: the inverse call on the same
object. -/
def Call.inverse (c : Call) : Call := { target := c.target, op := c.op.inverse }

/-- A pad with its attached flag set to `v` and nothing else changed. -/
def BI_FootprintPad.setAttached (v : Bool) (pad : BI_FootprintPad) : BI_FootprintPad :=
  { pad with toBI_Base := { pad.toBI_Base with mIsAddedToBoard := v } }

/-- A stroke text with its attached flag set to `v` and nothing else changed. -/
def BI_StrokeText.setAttached (v : Bool) (text : BI_StrokeText) : BI_StrokeText :=
  { text with toBI_Base := { text.toBI_Base with mIsAddedToBoard := v } }

/-- The footprint with the attached flag of itself and of every pad and stroke
text set to `v`, and nothing else changed. -/
def BI_Footprint.setAllAttached (v : Bool) (fp : BI_Footprint) : BI_Footprint :=
  { fp with
    toBI_Base := { fp.toBI_Base with mIsAddedToBoard := v }
    mPads := fp.mPads.map fun entry => (entry.1, entry.2.setAttached v)
    mStrokeTexts := fp.mStrokeTexts.map fun text => text.setAttached v }

/-- The calls a complete pass makes: every pad in map order, then every stroke
text in list order, then the footprint itself. -/
def BI_Footprint.fullPass (op : Op) (fp : BI_Footprint) : List Call :=
  (List.range fp.mPads.length).map (fun i => { target := Target.pad i, op := op }) ++
  (List.range fp.mStrokeTexts.length).map (fun i => { target := Target.text i, op := op }) ++
  [{ target := Target.self, op := op }]

/-- Unwinding the guard list of a frame brings back the footprint `fp0`. -/
def Frame.UnwindsTo (fr : Frame) (fp0 : BI_Footprint) : Prop :=
  (ScopeGuardList.unwind fr).1 = fp0

/-- The pad map entries the pad loop creates for the library pads `l`, the
first one at address `heap`, for the footprint at address `footprint`. -/
def BI_Footprint.padsFor (heap footprint : Nat) : List FootprintPad → List (Uuid × BI_FootprintPad)
  | [] => []
  | p :: rest =>
    (p.getUuid, BI_FootprintPad.new heap footprint p.getUuid) ::
      BI_Footprint.padsFor (heap + 1) footprint rest

/-- Every address handed out by `new` belongs to a pad or stroke text the
footprint owns, and the other way round. -/
def Building.Accounted (b : Building) : Prop :=
  List.Perm b.allocated
    (b.fp.mStrokeTexts.map (fun t => t.addr) ++ b.fp.mPads.map (fun e => e.2.addr))

/-- The footprint under construction is detached and its stroke texts live
below the next free address. -/
def Building.TextsBelowHeap (b : Building) : Prop :=
  b.fp.isAddedToBoard = false ∧ ∀ t ∈ b.fp.mStrokeTexts, t.addr < b.heap

/-! ## Sample data -/

/-- A device with three library pads (two bound to package pads, one
unconnected) and one library stroke text. -/
def sampleDevice : BI_Device :=
  { getBoard := 1
    getLibPackage := { getUuid := 100, getPads := [11, 12] }
    getLibDevice := { getUuid := 200, getPadSignalMap := [11, 12] }
    getLibFootprint :=
      { getPads :=
          [{ getUuid := 21, getPackagePadUuid := some 11 },
           { getUuid := 22, getPackagePadUuid := some 12 },
           { getUuid := 23, getPackagePadUuid := none }]
        getStrokeTexts := [⟨31, "top_names", "NAME", (0, 1), 0, false⟩] }
    getPosition := (5, 5)
    getRotation := 90000000
    getMirrored := false }

/-- A transform that leaves everything in place. -/
def sampleTransform : Transform :=
  { mapPoint := fun p => p, mapMirrored := fun m => m, mapLayerName := fun n => n }

/-- The footprint built for `sampleDevice` at address 500: detached, three
pads and one stroke text. -/
def sampleFootprint : BI_Footprint :=
  (BI_Footprint.fromDevice 500 1000 none sampleDevice sampleTransform).self

/-- The sample footprint after a successful `addToBoard`. -/
def sampleAttached : BI_Footprint :=
  (sampleFootprint.addToBoard fun _ => none).fp

/-- No call fails for a reason of its own. -/
def noFaults : Target → Option Error := fun _ => none

/-- Only the call on the given target fails for a reason of its own. -/
def faultAt (t : Target) : Target → Option Error :=
  fun u => if u = t then some (Error.External 7) else none

/-- The sample device with a library footprint in which the UUID 21 is used by
two pads. -/
def duplicateDevice : BI_Device :=
  { sampleDevice with
    getLibFootprint :=
      { getPads :=
          [{ getUuid := 21, getPackagePadUuid := some 11 },
           { getUuid := 22, getPackagePadUuid := some 12 },
           { getUuid := 21, getPackagePadUuid := none }]
        getStrokeTexts := sampleDevice.getLibFootprint.getStrokeTexts } }

/-- The sample device with a library pad bound to package pad 13, which the
package does not have. -/
def danglingDevice : BI_Device :=
  { sampleDevice with
    getLibFootprint :=
      { getPads :=
          [{ getUuid := 21, getPackagePadUuid := some 11 },
           { getUuid := 22, getPackagePadUuid := some 13 },
           { getUuid := 23, getPackagePadUuid := none }]
        getStrokeTexts := sampleDevice.getLibFootprint.getStrokeTexts } }

/-- The sample device with a pad-signal map that has no entry for package pad
12. -/
def unmappedDevice : BI_Device :=
  { sampleDevice with getLibDevice := { getUuid := 200, getPadSignalMap := [11] } }

/-- The state in which a constructor for `duplicateDevice` calls `init`: no
pad yet, the allocator at address 1000. -/
def duplicateBuilding : Building :=
  { fp := BI_Footprint.initial 500 duplicateDevice, heap := 1000, allocated := [] }

/-- Placement of a pad for the samples: the pads sit in a row right of the
device position. -/
def samplePlace : BI_Device → Uuid → Point × Angle :=
  fun device padUuid =>
    ((device.getPosition.1 + padUuid, device.getPosition.2), device.getRotation)

/-- A footprint with pad P1 (key 21) bound to net signal 7 and pad P2 (key 22)
unconnected, whose device has just been moved by (1000000, 0) from (5, 5): the
cached pad positions are still the ones for (5, 5). -/
def scenarioFootprint : BI_Footprint :=
  { toBI_Base := { mIsAddedToBoard := true }
    addr := 500
    mBoard := 1
    mDevice := { sampleDevice with getPosition := (1000005, 5) }
    mGraphicsItem := true
    mPads :=
      [(21, { toBI_Base := { mIsAddedToBoard := true }, addr := 1001, mFootprint := 500,
              mLibPadUuid := 21, mComponentSignalInstance := some { getNetSignal := some 7 },
              mPosition := (26, 5), mRotation := 90000000 }),
       (22, { toBI_Base := { mIsAddedToBoard := true }, addr := 1002, mFootprint := 500,
              mLibPadUuid := 22, mComponentSignalInstance := none,
              mPosition := (27, 5), mRotation := 90000000 })]
    mStrokeTexts := [] }

/-- A stroke text of board 1 that no footprint owns yet. -/
def sampleStrokeText : BI_StrokeText :=
  BI_StrokeText.new 2000 1 ⟨32, "top_values", "VALUE", (0, 2), 0, false⟩

/-- No call on the undo stack fails for a reason of its own. -/
def noStackFaults : StackFaults := fun _ => none

/-- The tool right after construction, for a package with the pads 11 and 12
and a footprint that has one pad, connected to package pad 11. -/
def sampleTool : PackageEditorState_AddPads :=
  { mContext :=
      { package := [11, 12]
        currentFootprint :=
          some { getPads := [{ getUuid := 21, getPackagePadUuid := some 11 }],
                 getStrokeTexts := [] }
        undoStack := {} }
    mLastPad := { getUuid := 0, getPackagePadUuid := none } }

/-- Entering the tool, two clicks that each place a pad, and leaving the
tool. -/
def sampleEvents : List ToolEvent :=
  [ToolEvent.entry (0, 0) 41 noStackFaults, ToolEvent.leftClick (10, 0) 42 noStackFaults,
    ToolEvent.leftClick (20, 0) 43 noStackFaults, ToolEvent.exit noStackFaults]

/-- The sample footprint after two net lines (at the addresses 3001 and 3002)
have registered themselves at its second pad. -/
def usedFootprint : BI_Footprint :=
  { sampleFootprint with
    mPads := sampleFootprint.mPads.map fun entry =>
      if entry.1 = 22 then (entry.1, { entry.2 with mRegisteredNetLines := [3001, 3002] })
      else entry }

/-- A component signal and a second one that differs from it in the name, the
required flag and the clock flag. -/
def sampleSignal : ComponentSignal :=
  { mUuid := 7, mName := "VCC", mRole := 1, mForcedNetName := "", mIsRequired := false,
    mIsNegated := false, mIsClock := false }

/-- The second sample signal. -/
def otherSignal : ComponentSignal :=
  { mUuid := 7, mName := "CLK", mRole := 1, mForcedNetName := "", mIsRequired := true,
    mIsNegated := false, mIsClock := true }

/-- Executing the insert command fails: `appendToCmdGroup` of the insert
throws, every other call on the undo stack works. -/
def insertFails : StackFaults := fun call =>
  if call = StackCall.appendInsert then some (Error.External 7) else none

/-- A run on the sample footprint: a text is added while the footprint is
detached, `addToBoard` fails at the second pad and is rolled back, a second
`addToBoard` succeeds, a text is added while the footprint is attached, the
first text is removed, and `removeFromBoard` fails at the footprint itself. -/
def sampleCalls : List FootprintCall :=
  [FootprintCall.addStrokeText none sampleStrokeText,
    FootprintCall.addToBoard (faultAt (Target.pad 1)),
    FootprintCall.addToBoard noFaults,
    FootprintCall.addStrokeText none (BI_StrokeText.new 2001 1 ⟨33, "top_names", "X", (0, 3), 0, false⟩),
    FootprintCall.removeStrokeText none sampleStrokeText,
    FootprintCall.removeFromBoard (faultAt Target.self)]

/-! ## Lemmas on the lifecycle calls and the rollback -/

/-- After a successful lifecycle call the inverse call succeeds and restores the
item. -/
theorem BI_Base.call_undo (op : Op) (fault : Option Error) (b : BI_Base)
    (h : (b.call op fault).1 = none) :
    (b.call op fault).2.call op.inverse none = (none, b) := by
  obtain ⟨a, s⟩ := b
  cases op <;> cases a <;> cases fault <;>
    simp [BI_Base.call, BI_Base.addToBoard, BI_Base.removeFromBoard, Op.inverse] at h ⊢

/-- A failing lifecycle call leaves the item as it was. -/
theorem BI_Base.call_fail (op : Op) (fault : Option Error) (b : BI_Base) (e : Error)
    (h : (b.call op fault).1 = some e) : (b.call op fault).2 = b := by
  obtain ⟨a, s⟩ := b
  cases op <;> cases a <;> cases fault <;>
    simp [BI_Base.call, BI_Base.addToBoard, BI_Base.removeFromBoard] at h ⊢

/-- Writing back the element that is already at a position changes nothing. -/
theorem set_of_getElem? {α : Type} (l : List α) (i : Nat) (x : α)
    (h : l[i]? = some x) : l.set i x = l := by
  induction l generalizing i with
  | nil => rfl
  | cons y ys ih =>
    cases i with
    | zero => simp at h; simp [h]
    | succ j => simp at h; simp [ih j h]

/-- A failing call on a child leaves the footprint as it was. -/
theorem BI_Footprint.callChild_fail (fp : BI_Footprint) (t : Target) (op : Op)
    (fault : Option Error) (e : Error)
    (h : (fp.callChild t op fault).1 = some e) : (fp.callChild t op fault).2 = fp := by
  cases t with
  | pad i =>
    simp only [BI_Footprint.callChild] at h ⊢
    split at h
    · simp at h
    · rename_i key pad hget
      simp only [hget]
      have hb := BI_Base.call_fail op fault pad.toBI_Base e h
      simp [hb, set_of_getElem? _ _ _ hget]
  | text i =>
    simp only [BI_Footprint.callChild] at h ⊢
    split at h
    · simp at h
    · rename_i text hget
      simp only [hget]
      have hb := BI_Base.call_fail op fault text.toBI_Base e h
      simp [hb, set_of_getElem? _ _ _ hget]
  | self =>
    simp only [BI_Footprint.callChild] at h ⊢
    have hb := BI_Base.call_fail op fault fp.toBI_Base e h
    simp [hb]

/-- The guard pushed after a successful call on a child restores the footprint
as it was before that call. -/
theorem BI_Footprint.callChild_undo (fp : BI_Footprint) (t : Target) (op : Op)
    (fault : Option Error)
    (h : (fp.callChild t op fault).1 = none) :
    ((fp.callChild t op fault).2.callChild t op.inverse none).2 = fp := by
  cases t with
  | pad i =>
    simp only [BI_Footprint.callChild] at h ⊢
    split at h
    · rename_i hget
      simp [hget]
    · rename_i key pad hget
      simp only [hget]
      have hi : i < fp.mPads.length := by
        rw [List.getElem?_eq_some] at hget; exact hget.1
      have hb := BI_Base.call_undo op fault pad.toBI_Base h
      simp [hi, hb, set_of_getElem? _ _ _ hget]
  | text i =>
    simp only [BI_Footprint.callChild] at h ⊢
    split at h
    · rename_i hget
      simp [hget]
    · rename_i text hget
      simp only [hget]
      have hi : i < fp.mStrokeTexts.length := by
        rw [List.getElem?_eq_some] at hget; exact hget.1
      have hb := BI_Base.call_undo op fault text.toBI_Base h
      simp [hi, hb, set_of_getElem? _ _ _ hget]
  | self =>
    simp only [BI_Footprint.callChild] at h ⊢
    have hb := BI_Base.call_undo op fault fp.toBI_Base h
    simp [hb]

/-- The footprint the guards leave does not depend on the trace. -/
theorem ScopeGuardList.runEach_fst (gs : List Call) (fp : BI_Footprint) (c c2 : List Call) :
    (ScopeGuardList.runEach gs (fp, c)).1 = (ScopeGuardList.runEach gs (fp, c2)).1 := by
  induction gs generalizing fp c c2 with
  | nil => rfl
  | cons g gs ih => simp only [ScopeGuardList.runEach]; exact ih _ _ _

/-- Running guards appends them to the trace, in the order they run. -/
theorem ScopeGuardList.runEach_snd (gs : List Call) (s : BI_Footprint × List Call) :
    (ScopeGuardList.runEach gs s).2 = s.2 ++ gs := by
  induction gs generalizing s with
  | nil => simp [ScopeGuardList.runEach]
  | cons g gs ih => simp only [ScopeGuardList.runEach]; rw [ih]; simp

/-- A loop over children keeps the invariant that unwinding the guard list
brings back the footprint of before the operation. -/
theorem forEachChild_unwindsTo (op : Op) (faults : Target → Option Error) (mk : Nat → Target)
    (fp0 : BI_Footprint) (n i : Nat) (fr : Frame) (h : fr.UnwindsTo fp0) :
    (forEachChild op faults mk n i fr).2.UnwindsTo fp0 := by
  induction n generalizing i fr with
  | zero => simpa [forEachChild] using h
  | succ n ih =>
    simp only [forEachChild]
    split
    · rename_i e fp1 heq
      have hf := BI_Footprint.callChild_fail fr.fp (mk i) op (faults (mk i)) e (by rw [heq])
      rw [heq] at hf
      simp only at hf
      subst hf
      simp only [Frame.UnwindsTo, ScopeGuardList.unwind] at h ⊢
      rw [← h]
      exact ScopeGuardList.runEach_fst _ _ _ _
    · rename_i fp1 heq
      apply ih
      have hu := BI_Footprint.callChild_undo fr.fp (mk i) op (faults (mk i)) (by rw [heq])
      rw [heq] at hu
      simp only at hu
      simp only [Frame.UnwindsTo, ScopeGuardList.unwind, ScopeGuardList.add,
        List.reverse_append, List.reverse_cons, List.reverse_nil, List.nil_append,
        List.singleton_append, ScopeGuardList.runEach, hu] at h ⊢
      rw [← h]
      exact ScopeGuardList.runEach_fst _ _ _ _

/-- If the guarded body throws, the footprint is what it was before. -/
theorem BI_Footprint.applyToBoard_failure (op : Op) (faults : Target → Option Error)
    (fp : BI_Footprint) (h : (fp.applyToBoard op faults).thrown ≠ none) :
    (fp.applyToBoard op faults).fp = fp := by
  have h0 : Frame.UnwindsTo { fp := fp, sgl := [], calls := [] } fp := by
    simp [Frame.UnwindsTo, ScopeGuardList.unwind, ScopeGuardList.runEach]
  have h1 := forEachChild_unwindsTo op faults Target.pad fp fp.mPads.length 0 _ h0
  have h2 := forEachChild_unwindsTo op faults Target.text fp fp.mStrokeTexts.length 0 _ h1
  simp only [BI_Footprint.applyToBoard] at h ⊢
  split
  · rename_i e fr1 heq
    rw [heq] at h1
    simpa [Frame.throw, Frame.UnwindsTo] using h1
  · rename_i fr1 heq
    rw [heq] at h2
    simp only at h2
    split
    · rename_i e fr2 heq2
      rw [heq2] at h2
      simpa [Frame.throw, Frame.UnwindsTo] using h2
    · rename_i fr2 heq2
      rw [heq2] at h2
      simp only at h2
      split
      · rename_i e fp3 heq3
        have hf := BI_Footprint.callChild_fail fr2.fp Target.self op (faults Target.self) e
          (by rw [heq3])
        rw [heq3] at hf
        simp only at hf
        subst hf
        simp only [Frame.throw, Frame.UnwindsTo, ScopeGuardList.unwind] at h2 ⊢
        rw [← h2]
        exact ScopeGuardList.runEach_fst _ _ _ _
      · rename_i fp3 heq3
        simp [heq, heq2, heq3] at h

/-- A successful lifecycle call sets the attached flag and nothing else. -/
theorem BI_Base.call_ok (op : Op) (fault : Option Error) (b : BI_Base)
    (h : (b.call op fault).1 = none) :
    (b.call op fault).2 = { b with mIsAddedToBoard := op.attached } := by
  obtain ⟨a, s⟩ := b
  cases op <;> cases a <;> cases fault <;>
    simp [BI_Base.call, BI_Base.addToBoard, BI_Base.removeFromBoard, Op.attached] at h ⊢

/-- The trace of a loop that did not throw: one call per position, in order. -/
theorem forEachChild_calls_ok (op : Op) (faults : Target → Option Error) (mk : Nat → Target)
    (n i : Nat) (fr : Frame) (h : (forEachChild op faults mk n i fr).1 = none) :
    (forEachChild op faults mk n i fr).2.calls =
      fr.calls ++ (List.range' i n).map (fun j => { target := mk j, op := op }) := by
  induction n generalizing i fr with
  | zero => simp [forEachChild]
  | succ n ih =>
    simp only [forEachChild] at h ⊢
    split
    · rename_i e fp1 heq
      simp [heq] at h
    · rename_i fp1 heq
      simp only [heq] at h
      rw [ih _ _ h]
      simp [List.range'_succ]

/-- The pad map after a pads loop that did not throw. -/
theorem forEachChild_pad_ok (op : Op) (faults : Target → Option Error)
    (todo done : List (Uuid × BI_FootprintPad)) (fr : Frame)
    (hfr : fr.fp.mPads = done ++ todo)
    (h : (forEachChild op faults Target.pad todo.length done.length fr).1 = none) :
    (forEachChild op faults Target.pad todo.length done.length fr).2.fp =
      { fr.fp with mPads := done ++ todo.map fun e => (e.1, e.2.setAttached op.attached) } := by
  induction todo generalizing done fr with
  | nil => simp [forEachChild, ← hfr]
  | cons x rest ih =>
    have hget : fr.fp.mPads[done.length]? = some x := by
      rw [hfr, List.getElem?_append_right (Nat.le_refl _)]; simp
    simp only [List.length_cons, forEachChild] at h ⊢
    split
    · rename_i e fp1 heq
      simp [heq] at h
    · rename_i fp1 heq
      simp only [heq] at h
      have hc : (x.2.toBI_Base.call op (faults (Target.pad done.length))).1 = none := by
        have := congrArg Prod.fst heq
        simpa [BI_Footprint.callChild, hget] using this
      have hfp1 : fp1 = { fr.fp with
          mPads := (done ++ [(x.1, x.2.setAttached op.attached)]) ++ rest } := by
        have := congrArg Prod.snd heq
        simp only [BI_Footprint.callChild, hget, BI_Base.call_ok op _ _ hc] at this
        rw [← this, hfr]
        simp [BI_FootprintPad.setAttached]
      have hlen : (done ++ [(x.1, x.2.setAttached op.attached)]).length = done.length + 1 := by
        simp
      have := ih (done ++ [(x.1, x.2.setAttached op.attached)])
        { fp := fp1, sgl := fr.sgl.add ⟨Target.pad done.length, op.inverse⟩,
          calls := fr.calls ++ [⟨Target.pad done.length, op⟩] }
        (by simp [hfp1]) (by rw [hlen]; exact h)
      rw [hlen] at this
      rw [this]
      simp [hfp1]

/-- The stroke text list after a texts loop that did not throw. -/
theorem forEachChild_text_ok (op : Op) (faults : Target → Option Error)
    (todo done : List BI_StrokeText) (fr : Frame)
    (hfr : fr.fp.mStrokeTexts = done ++ todo)
    (h : (forEachChild op faults Target.text todo.length done.length fr).1 = none) :
    (forEachChild op faults Target.text todo.length done.length fr).2.fp =
      { fr.fp with mStrokeTexts := done ++ todo.map fun t => t.setAttached op.attached } := by
  induction todo generalizing done fr with
  | nil => simp [forEachChild, ← hfr]
  | cons x rest ih =>
    have hget : fr.fp.mStrokeTexts[done.length]? = some x := by
      rw [hfr, List.getElem?_append_right (Nat.le_refl _)]; simp
    simp only [List.length_cons, forEachChild] at h ⊢
    split
    · rename_i e fp1 heq
      simp [heq] at h
    · rename_i fp1 heq
      simp only [heq] at h
      have hc : (x.toBI_Base.call op (faults (Target.text done.length))).1 = none := by
        have := congrArg Prod.fst heq
        simpa [BI_Footprint.callChild, hget] using this
      have hfp1 : fp1 = { fr.fp with
          mStrokeTexts := (done ++ [x.setAttached op.attached]) ++ rest } := by
        have := congrArg Prod.snd heq
        simp only [BI_Footprint.callChild, hget, BI_Base.call_ok op _ _ hc] at this
        rw [← this, hfr]
        simp [BI_StrokeText.setAttached]
      have hlen : (done ++ [x.setAttached op.attached]).length = done.length + 1 := by
        simp
      have := ih (done ++ [x.setAttached op.attached])
        { fp := fp1, sgl := fr.sgl.add ⟨Target.text done.length, op.inverse⟩,
          calls := fr.calls ++ [⟨Target.text done.length, op⟩] }
        (by simp [hfp1]) (by rw [hlen]; exact h)
      rw [hlen] at this
      rw [this]
      simp [hfp1]

/-- If the guarded body returns normally, every attached flag has the value the
operation sets and the trace is the full pass. -/
theorem BI_Footprint.applyToBoard_success (op : Op) (faults : Target → Option Error)
    (fp : BI_Footprint) (h : (fp.applyToBoard op faults).thrown = none) :
    (fp.applyToBoard op faults).fp = fp.setAllAttached op.attached ∧
    (fp.applyToBoard op faults).calls = fp.fullPass op := by
  simp only [BI_Footprint.applyToBoard] at h ⊢
  split
  · rename_i e fr1 heq
    simp [heq, Frame.throw] at h
  · rename_i fr1 heq
    have hp := forEachChild_pad_ok op faults fp.mPads [] _ rfl (by rw [List.length_nil, heq])
    have hpc := forEachChild_calls_ok op faults Target.pad _ _ _ (by rw [heq])
    rw [List.length_nil, heq] at hp
    rw [heq] at hpc
    simp only [List.nil_append] at hp hpc
    split
    · rename_i e fr2 heq2
      simp [heq, heq2, Frame.throw] at h
    · rename_i fr2 heq2
      have hlen : fp.mStrokeTexts.length = fr1.fp.mStrokeTexts.length := by rw [hp]
      rw [hlen] at heq2
      have ht := forEachChild_text_ok op faults fr1.fp.mStrokeTexts [] _ rfl
        (by rw [List.length_nil, heq2])
      have htc := forEachChild_calls_ok op faults Target.text _ _ _ (by rw [heq2])
      rw [List.length_nil, heq2] at ht
      rw [heq2] at htc
      simp only [List.nil_append] at ht htc
      split
      · rename_i e fp3 heq3
        simp [heq, hlen, heq2, heq3, Frame.throw] at h
      · rename_i fp3 heq3
        have hc : (fr2.fp.toBI_Base.call op (faults Target.self)).1 = none := by
          have := congrArg Prod.fst heq3
          simpa [BI_Footprint.callChild] using this
        have h3 := congrArg Prod.snd heq3
        simp only [BI_Footprint.callChild, BI_Base.call_ok op _ _ hc] at h3
        constructor
        · simp only
          rw [← h3, ht, hp]
          simp [BI_Footprint.setAllAttached]
        · simp only
          rw [htc, hpc, ← hlen]
          simp [BI_Footprint.fullPass, List.range_eq_range']

/-- The image of a shorter range is a beginning of the image of a longer one. -/
theorem range'_map_prefix {β : Type} (f : Nat → β) (s k n : Nat) (h : k ≤ n) :
    (List.range' s k).map f <+: (List.range' s n).map f := by
  obtain ⟨d, rfl⟩ := Nat.exists_eq_add_of_le h
  rw [Nat.add_comm k d, ← List.range'_append_1 s k d, List.map_append]
  exact List.prefix_append _ _

/-- Guard list and trace of a loop: `k` calls succeeded and pushed their guard,
and if the loop threw, the call at position `i + k` is the one that failed. -/
theorem forEachChild_trace (op : Op) (faults : Target → Option Error) (mk : Nat → Target)
    (n i : Nat) (fr : Frame) :
    ∃ k, k ≤ n ∧
      (forEachChild op faults mk n i fr).2.sgl =
        fr.sgl ++ (List.range' i k).map (fun j => Call.inverse { target := mk j, op := op }) ∧
      ((forEachChild op faults mk n i fr).1 = none → k = n ∧
        (forEachChild op faults mk n i fr).2.calls =
          fr.calls ++ (List.range' i k).map (fun j => { target := mk j, op := op })) ∧
      ((forEachChild op faults mk n i fr).1 ≠ none → k < n ∧
        (forEachChild op faults mk n i fr).2.calls =
          fr.calls ++ (List.range' i k).map (fun j => { target := mk j, op := op }) ++
            [{ target := mk (i + k), op := op }]) := by
  induction n generalizing i fr with
  | zero => exact ⟨0, Nat.le_refl _, by simp [forEachChild], by simp [forEachChild],
      by simp [forEachChild]⟩
  | succ n ih =>
    simp only [forEachChild]
    split
    · rename_i e fp1 heq
      exact ⟨0, Nat.zero_le _, by simp, by simp, by simp⟩
    · rename_i fp1 heq
      obtain ⟨k, hk, hs, hok, hfail⟩ := ih (i + 1)
        { fp := fp1, sgl := fr.sgl.add ⟨mk i, op.inverse⟩, calls := fr.calls ++ [⟨mk i, op⟩] }
      refine ⟨k + 1, Nat.succ_le_succ hk, ?_, ?_, ?_⟩
      · rw [hs]; simp [List.range'_succ, ScopeGuardList.add, Call.inverse]
      · intro h
        obtain ⟨h1, h2⟩ := hok h
        refine ⟨by rw [h1], ?_⟩
        rw [h2]; simp [List.range'_succ]
      · intro h
        obtain ⟨h1, h2⟩ := hfail h
        refine ⟨Nat.succ_lt_succ h1, ?_⟩
        rw [h2]; simp [List.range'_succ, Nat.add_assoc, Nat.add_comm 1 k]

/-- Unwinding appends the guards to the trace, last pushed first. -/
theorem ScopeGuardList.unwind_calls (fr : Frame) :
    (ScopeGuardList.unwind fr).2 = fr.calls ++ fr.sgl.reverse := by
  simp [ScopeGuardList.unwind, ScopeGuardList.runEach_snd]

/-- If the guarded body throws, the trace is a beginning of the full pass, ending
with the failed call, followed by the inverse of every earlier call in reverse
order. -/
theorem BI_Footprint.applyToBoard_failure_trace (op : Op) (faults : Target → Option Error)
    (fp : BI_Footprint) (h : (fp.applyToBoard op faults).thrown ≠ none) :
    ∃ done failed, done ++ [failed] <+: fp.fullPass op ∧
      (fp.applyToBoard op faults).calls = done ++ failed :: (done.map Call.inverse).reverse := by
  obtain ⟨k1, hk1, hs1, hok1, hfail1⟩ :=
    forEachChild_trace op faults Target.pad fp.mPads.length 0 { fp := fp, sgl := [], calls := [] }
  simp only [BI_Footprint.applyToBoard] at h ⊢
  split
  · rename_i e fr1 heq
    rw [heq] at hs1 hfail1
    obtain ⟨hlt, hc⟩ := hfail1 (by simp)
    simp only [List.nil_append, Nat.zero_add] at hs1 hc
    refine ⟨(List.range' 0 k1).map (fun j => { target := Target.pad j, op := op }),
      { target := Target.pad k1, op := op }, ?_, ?_⟩
    · have := range'_map_prefix (fun j => ({ target := Target.pad j, op := op } : Call))
        0 (k1 + 1) fp.mPads.length hlt
      rw [List.range'_concat, List.map_append] at this
      simp only [BI_Footprint.fullPass, List.range_eq_range', List.append_assoc]
      refine List.IsPrefix.trans ?_ (List.prefix_append _ _)
      simpa using this
    · simp [Frame.throw, ScopeGuardList.unwind_calls, hs1, hc, Call.inverse, Function.comp_def]
  · rename_i fr1 heq
    rw [heq] at hs1 hok1
    obtain ⟨hk1n, hc1⟩ := hok1 rfl
    subst hk1n
    simp only [List.nil_append] at hs1 hc1
    obtain ⟨k2, hk2, hs2, hok2, hfail2⟩ :=
      forEachChild_trace op faults Target.text fp.mStrokeTexts.length 0 fr1
    split
    · rename_i e fr2 heq2
      rw [heq2] at hs2 hfail2
      obtain ⟨hlt, hc⟩ := hfail2 (by simp)
      simp only [Nat.zero_add] at hs2 hc
      refine ⟨(List.range' 0 fp.mPads.length).map (fun j => { target := Target.pad j, op := op })
        ++ (List.range' 0 k2).map (fun j => { target := Target.text j, op := op }),
        { target := Target.text k2, op := op }, ?_, ?_⟩
      · have := range'_map_prefix (fun j => ({ target := Target.text j, op := op } : Call))
          0 (k2 + 1) fp.mStrokeTexts.length hlt
        rw [List.range'_concat, List.map_append] at this
        simp only [BI_Footprint.fullPass, List.range_eq_range', List.append_assoc]
        refine (List.prefix_append_right_inj _).2 ?_
        refine List.IsPrefix.trans ?_ (List.prefix_append _ _)
        simpa using this
      · simp [Frame.throw, ScopeGuardList.unwind_calls, hs2, hs1, hc, hc1, Call.inverse,
          Function.comp_def]
    · rename_i fr2 heq2
      rw [heq2] at hs2 hok2
      obtain ⟨hk2n, hc2⟩ := hok2 rfl
      subst hk2n
      simp only at hs2 hc2
      split
      · rename_i e fp3 heq3
        refine ⟨(List.range' 0 fp.mPads.length).map (fun j => { target := Target.pad j, op := op })
          ++ (List.range' 0 fp.mStrokeTexts.length).map
            (fun j => { target := Target.text j, op := op }),
          { target := Target.self, op := op }, ?_, ?_⟩
        · simp [BI_Footprint.fullPass, List.range_eq_range']
        · simp [Frame.throw, ScopeGuardList.unwind_calls, hs2, hs1, hc2, hc1, Call.inverse,
            Function.comp_def]
      · rename_i fp3 heq3
        simp [heq, heq2, heq3] at h

/-! ## Lemmas on the pad map and the constructors -/

/-- Keys of the hash after inserting a new key. -/
theorem QHash.contains_insert {α : Type} (h : List (Uuid × α)) (key : Uuid) (value : α)
    (k : Uuid) (hne : QHash.contains h key = false) :
    QHash.contains (QHash.insert h key value) k = (QHash.contains h k || k == key) := by
  simp only [QHash.insert, hne, Bool.false_eq_true, if_false]
  simp only [QHash.contains, List.any_append, List.any_cons, List.any_nil, Bool.or_false]
  congr 1
  exact Bool.eq_iff_iff.2 (by simp only [beq_iff_eq]; exact eq_comm)

/-- Inserting a new key adds one entry. -/
theorem QHash.insert_new {α : Type} (h : List (Uuid × α)) (key : Uuid) (value : α)
    (hne : QHash.contains h key = false) :
    QHash.insert h key value = h ++ [(key, value)] := by
  simp [QHash.insert, hne]

/-- Member `contains` is membership in the list of keys. -/
theorem QHash.contains_iff {α : Type} (h : List (Uuid × α)) (k : Uuid) :
    QHash.contains h k = true ↔ k ∈ h.map Prod.fst := by
  simp only [QHash.contains, List.any_eq_true, beq_iff_eq, List.mem_map]

/-- A duplicated pad UUID, or one that is already a key of the pad map, makes
the pad loop throw. -/
theorem BI_Footprint.loadPads_duplicate (l : List FootprintPad) (b : Building)
    (h : ¬ (l.map FootprintPad.getUuid).Nodup ∨
      ∃ p ∈ l, QHash.contains b.fp.mPads p.getUuid = true) :
    (BI_Footprint.loadPads l b).1 ≠ none := by
  induction l generalizing b with
  | nil => simp at h
  | cons p rest ih =>
    simp only [BI_Footprint.loadPads]
    split
    · simp
    · rename_i hc
      split
      · simp
      · split
        · simp
        · apply ih
          have hcf : QHash.contains b.fp.mPads p.getUuid = false := by simpa using hc
          rcases h with h | ⟨q, hq, hqc⟩
          · simp only [List.map_cons, List.nodup_cons, not_and_or, not_not] at h
            rcases h with h | h
            · right
              obtain ⟨q, hq, hqe⟩ := List.mem_map.1 h
              exact ⟨q, hq, by simp [QHash.contains_insert _ _ _ _ hcf, hqe]⟩
            · exact Or.inl h
          · right
            rcases List.mem_cons.1 hq with rfl | hq
            · rw [hcf] at hqc; simp at hqc
            · exact ⟨q, hq, by simp [QHash.contains_insert _ _ _ _ hcf, hqc]⟩

/-- A pad that names a package pad missing from the package makes the pad loop
throw. -/
theorem BI_Footprint.loadPads_dangling (l : List FootprintPad) (b : Building)
    (h : ∃ p ∈ l, ∃ u, p.getPackagePadUuid = some u ∧ u ∉ b.fp.mDevice.getLibPackage.getPads) :
    (BI_Footprint.loadPads l b).1 ≠ none := by
  induction l generalizing b with
  | nil => simp at h
  | cons p rest ih =>
    simp only [BI_Footprint.loadPads]
    split
    · simp
    · split
      · simp
      · rename_i hc2
        split
        · simp
        · apply ih
          obtain ⟨q, hq, u, hu, hn⟩ := h
          rcases List.mem_cons.1 hq with rfl | hq
          · exfalso; apply hc2; simp [hu, hn]
          · exact ⟨q, hq, u, hu, hn⟩

/-- A pad that names a package pad without entry in the pad-signal map makes
the pad loop throw. -/
theorem BI_Footprint.loadPads_unmapped (l : List FootprintPad) (b : Building)
    (h : ∃ p ∈ l, ∃ u, p.getPackagePadUuid = some u ∧
      u ∉ b.fp.mDevice.getLibDevice.getPadSignalMap) :
    (BI_Footprint.loadPads l b).1 ≠ none := by
  induction l generalizing b with
  | nil => simp at h
  | cons p rest ih =>
    simp only [BI_Footprint.loadPads]
    split
    · simp
    · split
      · simp
      · split
        · simp
        · rename_i hc3
          apply ih
          obtain ⟨q, hq, u, hu, hn⟩ := h
          rcases List.mem_cons.1 hq with rfl | hq
          · exfalso; apply hc3; simp [hu, hn]
          · exact ⟨q, hq, u, hu, hn⟩

/-- The "not found in package" error is only raised for a pad that names a
package pad, and one that the package does not have. -/
theorem BI_Footprint.loadPads_dangling_only (l : List FootprintPad) (b : Building)
    (u k : Uuid) (h : (BI_Footprint.loadPads l b).1 = some (Error.PadNotFoundInPackage u k)) :
    ∃ p ∈ l, p.getPackagePadUuid = some u ∧ u ∉ b.fp.mDevice.getLibPackage.getPads := by
  induction l generalizing b with
  | nil => simp [BI_Footprint.loadPads] at h
  | cons p rest ih =>
    simp only [BI_Footprint.loadPads] at h
    split at h
    · simp at h
    · split at h
      · rename_i hc2
        cases hp : p.getPackagePadUuid with
        | none => simp [hp] at hc2
        | some v =>
          simp only [hp, Option.getD_some, Option.some.injEq, Error.PadNotFoundInPackage.injEq] at h
          simp only [hp, Option.any_some] at hc2
          obtain ⟨rfl, -⟩ := h
          exact ⟨p, List.mem_cons_self _ _, hp, by simpa using hc2⟩
      · split at h
        · simp at h
        · obtain ⟨q, hq, h1, h2⟩ := ih _ h
          exact ⟨q, List.mem_cons_of_mem _ hq, h1, h2⟩

/-- The "not found in pad-signal map" error is only raised for a pad that
names a package pad, and one that the map does not have. -/
theorem BI_Footprint.loadPads_unmapped_only (l : List FootprintPad) (b : Building)
    (u k : Uuid) (h : (BI_Footprint.loadPads l b).1 = some (Error.PadNotFoundInPadSignalMap u k)) :
    ∃ p ∈ l, p.getPackagePadUuid = some u ∧ u ∉ b.fp.mDevice.getLibDevice.getPadSignalMap := by
  induction l generalizing b with
  | nil => simp [BI_Footprint.loadPads] at h
  | cons p rest ih =>
    simp only [BI_Footprint.loadPads] at h
    split at h
    · simp at h
    · split at h
      · simp at h
      · split at h
        · rename_i hc3
          cases hp : p.getPackagePadUuid with
          | none => simp [hp] at hc3
          | some v =>
            simp only [hp, Option.getD_some, Option.some.injEq,
              Error.PadNotFoundInPadSignalMap.injEq] at h
            simp only [hp, Option.any_some] at hc3
            obtain ⟨rfl, -⟩ := h
            exact ⟨p, List.mem_cons_self _ _, hp, by simpa using hc3⟩
        · obtain ⟨q, hq, h1, h2⟩ := ih _ h
          exact ⟨q, List.mem_cons_of_mem _ hq, h1, h2⟩

/-- The keys of the created entries are the library pad UUIDs, in order. -/
theorem BI_Footprint.padsFor_keys (heap footprint : Nat) (l : List FootprintPad) :
    (BI_Footprint.padsFor heap footprint l).map Prod.fst = l.map FootprintPad.getUuid := by
  induction l generalizing heap with
  | nil => rfl
  | cons p rest ih => simp [BI_Footprint.padsFor, ih]

/-- Every created entry maps its key to a detached pad bound to that key. -/
theorem BI_Footprint.padsFor_bound (heap footprint : Nat) (l : List FootprintPad) :
    ∀ e ∈ BI_Footprint.padsFor heap footprint l,
      e.2.mLibPadUuid = e.1 ∧ e.2.mFootprint = footprint ∧ e.2.mIsAddedToBoard = false := by
  induction l generalizing heap with
  | nil => simp [BI_Footprint.padsFor]
  | cons p rest ih =>
    intro e he
    simp only [BI_Footprint.padsFor, List.mem_cons] at he
    rcases he with rfl | he
    · exact ⟨rfl, rfl, rfl⟩
    · exact ih _ e he

/-- When the library pads pass the three checks, the pad loop returns normally
and has added exactly one new pad per library pad. -/
theorem BI_Footprint.loadPads_ok (l : List FootprintPad) (b : Building)
    (hfresh : ∀ p ∈ l, QHash.contains b.fp.mPads p.getUuid = false)
    (hnodup : (l.map FootprintPad.getUuid).Nodup)
    (hpkg : ∀ p ∈ l, ∀ u ∈ p.getPackagePadUuid, u ∈ b.fp.mDevice.getLibPackage.getPads)
    (hmap : ∀ p ∈ l, ∀ u ∈ p.getPackagePadUuid, u ∈ b.fp.mDevice.getLibDevice.getPadSignalMap) :
    BI_Footprint.loadPads l b =
      (none, { fp := { b.fp with mPads := b.fp.mPads ++ BI_Footprint.padsFor b.heap b.fp.addr l },
               heap := b.heap + l.length,
               allocated := b.allocated ++ List.range' b.heap l.length }) := by
  induction l generalizing b with
  | nil => simp [BI_Footprint.loadPads, BI_Footprint.padsFor]
  | cons p rest ih =>
    have hc1 : QHash.contains b.fp.mPads p.getUuid = false := hfresh p (List.mem_cons_self _ _)
    have hc2 : p.getPackagePadUuid.any
        (fun u => !b.fp.mDevice.getLibPackage.getPads.contains u) = false := by
      cases hp : p.getPackagePadUuid with
      | none => rfl
      | some u => simpa using hpkg p (List.mem_cons_self _ _) u (by simp [hp])
    have hc3 : p.getPackagePadUuid.any
        (fun u => !b.fp.mDevice.getLibDevice.getPadSignalMap.contains u) = false := by
      cases hp : p.getPackagePadUuid with
      | none => rfl
      | some u => simpa using hmap p (List.mem_cons_self _ _) u (by simp [hp])
    simp only [List.map_cons, List.nodup_cons] at hnodup
    simp only [BI_Footprint.loadPads, hc1, hc2, hc3, Bool.false_eq_true, if_false]
    rw [ih]
    · simp [BI_Footprint.padsFor, QHash.insert_new _ _ _ hc1, List.range'_succ,
        Nat.add_assoc, Nat.add_comm 1]
    · intro q hq
      simp only [QHash.contains_insert _ _ _ _ hc1, hfresh q (List.mem_cons_of_mem _ hq),
        Bool.false_or, beq_eq_false_iff_ne, ne_eq]
      intro he
      exact hnodup.1 (List.mem_map.2 ⟨q, hq, he⟩)
    · exact hnodup.2
    · exact fun q hq => hpkg q (List.mem_cons_of_mem _ hq)
    · exact fun q hq => hmap q (List.mem_cons_of_mem _ hq)

/-- The pad loop over a concatenation: the loop over the first part, then (if
that did not throw) the loop over the second part. -/
theorem BI_Footprint.loadPads_append (l1 l2 : List FootprintPad) (b : Building) :
    BI_Footprint.loadPads (l1 ++ l2) b =
      match BI_Footprint.loadPads l1 b with
      | (some e, b1) => (some e, b1)
      | (none, b1) => BI_Footprint.loadPads l2 b1 := by
  induction l1 generalizing b with
  | nil => simp [BI_Footprint.loadPads]
  | cons p rest ih =>
    simp only [List.cons_append, BI_Footprint.loadPads]
    split
    · rfl
    · split
      · rfl
      · split
        · rfl
        · exact ih _

/-- The pad loop keeps the books of the allocator, whether it throws or not. -/
theorem BI_Footprint.loadPads_accounted (l : List FootprintPad) (b : Building)
    (h : b.Accounted) : (BI_Footprint.loadPads l b).2.Accounted := by
  induction l generalizing b with
  | nil => simpa [BI_Footprint.loadPads] using h
  | cons p rest ih =>
    simp only [BI_Footprint.loadPads]
    split
    · exact h
    · rename_i hc
      have hc1 : QHash.contains b.fp.mPads p.getUuid = false := by simpa using hc
      split
      · exact h
      · split
        · exact h
        · apply ih
          simp only [Building.Accounted, QHash.insert_new _ _ _ hc1, List.map_append,
            List.map_cons, List.map_nil, ← List.append_assoc] at h ⊢
          exact List.Perm.append_right _ h

/-- During construction `addStrokeText` of a freshly created text cannot
throw, so the text loop keeps the books of the allocator and leaves the other
members alone. -/
theorem BI_Footprint.createStrokeTexts_accounted (fault : Option Error)
    (sources : List (Except Error StrokeText)) (b : Building)
    (h1 : b.Accounted) (h2 : b.TextsBelowHeap) :
    (BI_Footprint.createStrokeTexts fault sources b).2.Accounted ∧
    (BI_Footprint.createStrokeTexts fault sources b).2.TextsBelowHeap ∧
    (BI_Footprint.createStrokeTexts fault sources b).2.fp.mDevice = b.fp.mDevice ∧
    (BI_Footprint.createStrokeTexts fault sources b).2.fp.mPads = b.fp.mPads := by
  induction sources generalizing b with
  | nil => exact ⟨h1, h2, rfl, rfl⟩
  | cons item rest ih =>
    cases item with
    | error e => exact ⟨h1, h2, rfl, rfl⟩
    | ok text =>
      have hany : (b.fp.mStrokeTexts.any fun t => t.addr == b.heap) = false := by
        rw [List.any_eq_false]
        intro t ht
        have := h2.2 t ht
        simp only [beq_iff_eq]
        omega
      have hadd : b.fp.addStrokeText fault (BI_StrokeText.new b.heap b.fp.mBoard text) =
          { thrown := none
            fp := { b.fp with mStrokeTexts := b.fp.mStrokeTexts ++
              [(BI_StrokeText.new b.heap b.fp.mBoard text).setFootprint (some b.fp.addr)] }
            text := (BI_StrokeText.new b.heap b.fp.mBoard text).setFootprint (some b.fp.addr) } := by
        simp [BI_Footprint.addStrokeText, BI_StrokeText.new, hany, h2.1]
      simp only [BI_Footprint.createStrokeTexts, hadd]
      have := ih
        { fp := { b.fp with mStrokeTexts := b.fp.mStrokeTexts ++
            [(BI_StrokeText.new b.heap b.fp.mBoard text).setFootprint (some b.fp.addr)] },
          heap := b.heap + 1, allocated := b.allocated ++ [b.heap] }
        (by
          simp only [Building.Accounted, List.map_append, List.map_cons, List.map_nil,
            BI_StrokeText.setFootprint, BI_StrokeText.new] at h1 ⊢
          refine (List.Perm.append_right _ h1).trans ?_
          simp only [List.append_assoc]
          exact List.Perm.append_left _ List.perm_append_comm)
        (by
          refine ⟨h2.1, ?_⟩
          intro t ht
          simp only [List.mem_append, List.mem_singleton] at ht
          rcases ht with ht | rfl
          · exact Nat.lt_succ_of_lt (h2.2 t ht)
          · simp [BI_StrokeText.setFootprint, BI_StrokeText.new])
      exact this

/-- Core of the failure path of the three constructors: the handler empties
both collections and deletes exactly the objects that were created. -/
theorem BI_Footprint.construct_failure (fault : Option Error)
    (sources : List (Except Error StrokeText)) (this heap : Nat) (device : BI_Device)
    (h : (BI_Footprint.construct fault sources
      { fp := BI_Footprint.initial this device, heap := heap, allocated := [] }).thrown ≠ none) :
    let c := BI_Footprint.construct fault sources
      { fp := BI_Footprint.initial this device, heap := heap, allocated := [] }
    c.self.mPads = [] ∧ c.self.mStrokeTexts = [] ∧ c.self.mGraphicsItem = false ∧
      List.Perm c.deleted c.allocated := by
  have h0a : Building.Accounted
      { fp := BI_Footprint.initial this device, heap := heap, allocated := [] } := by
    simp [Building.Accounted, BI_Footprint.initial]
  have h0b : Building.TextsBelowHeap
      { fp := BI_Footprint.initial this device, heap := heap, allocated := [] } := by
    simp [Building.TextsBelowHeap, BI_Footprint.initial, BI_Footprint.isAddedToBoard]
  obtain ⟨ha, -, -, -⟩ := BI_Footprint.createStrokeTexts_accounted fault sources _ h0a h0b
  simp only [BI_Footprint.construct] at h ⊢
  split
  · rename_i e b1 heq
    rw [heq] at ha
    refine ⟨rfl, rfl, rfl, ?_⟩
    simp only [Building.catchAll, BI_Footprint.deinit]
    exact (List.perm_append_comm.trans ha.symm)
  · rename_i b1 heq
    rw [heq] at ha
    have hb : (BI_Footprint.init b1).2.Accounted := by
      simp only [BI_Footprint.init]
      exact BI_Footprint.loadPads_accounted _ _ ha
    split
    · rename_i e b2 heq2
      rw [heq2] at hb
      refine ⟨rfl, rfl, rfl, ?_⟩
      simp only [Building.catchAll, BI_Footprint.deinit]
      exact (List.perm_append_comm.trans hb.symm)
    · rename_i b2 heq2
      simp [heq, heq2] at h

/-- When `init` throws for every state of the object that has this device, the
constructor body throws. -/
theorem BI_Footprint.construct_throws (fault : Option Error)
    (sources : List (Except Error StrokeText)) (b0 : Building)
    (h : ∀ b : Building, b.fp.mDevice = b0.fp.mDevice → (BI_Footprint.init b).1 ≠ none) :
    (BI_Footprint.construct fault sources b0).thrown ≠ none := by
  simp only [BI_Footprint.construct]
  split
  · simp [Building.catchAll]
  · rename_i b1 heq
    split
    · simp [Building.catchAll]
    · rename_i b2 heq2
      exfalso
      refine h b1 ?_ (by rw [heq2])
      have : (BI_Footprint.createStrokeTexts fault sources b0).2.fp.mDevice = b0.fp.mDevice := by
        clear heq h
        induction sources generalizing b0 with
        | nil => rfl
        | cons item rest ih =>
          cases item with
          | error e => rfl
          | ok text =>
            simp only [BI_Footprint.createStrokeTexts]
            have hd : (b0.fp.addStrokeText fault
                (BI_StrokeText.new b0.heap b0.fp.mBoard text)).fp.mDevice = b0.fp.mDevice := by
              simp only [BI_Footprint.addStrokeText]
              split
              · rfl
              · split
                · split <;> rfl
                · rfl
            split
            · exact hd
            · rw [ih]; exact hd
      rw [heq] at this
      exact this

/-! ## Attaching and detaching a footprint -/

/-- C1: for a footprint that is not attached, if `addToBoard` fails at any step
(a pad, a stroke text or the footprint's own `BI_Base::addToBoard`), then the
attached flag of the footprint and of every pad and stroke text is what it was
before the call; in fact the whole footprint is. -/
theorem BI_Footprint.addToBoard_failure_restores (faults : Target → Option Error)
    (fp : BI_Footprint) (hdetached : fp.isAddedToBoard = false)
    (hfail : (fp.addToBoard faults).thrown ≠ none) :
    (fp.addToBoard faults).fp.isAddedToBoard = fp.isAddedToBoard ∧
    (fp.addToBoard faults).fp.mPads.map (fun e => (e.1, e.2.mIsAddedToBoard)) =
      fp.mPads.map (fun e => (e.1, e.2.mIsAddedToBoard)) ∧
    (fp.addToBoard faults).fp.mStrokeTexts.map (fun t => (t.addr, t.mIsAddedToBoard)) =
      fp.mStrokeTexts.map (fun t => (t.addr, t.mIsAddedToBoard)) ∧
    (fp.addToBoard faults).fp = fp := by
  have h : (fp.addToBoard faults).fp = fp := by
    simp only [BI_Footprint.addToBoard, hdetached] at hfail ⊢
    exact BI_Footprint.applyToBoard_failure _ _ _ (by simpa using hfail)
  rw [h]
  exact ⟨rfl, rfl, rfl, rfl⟩

/-- Witness for C1: on the sample footprint the call on the stroke text fails
after all three pads were attached. -/
theorem BI_Footprint.addToBoard_failure_restores_witness :
    sampleFootprint.isAddedToBoard = false ∧
    (sampleFootprint.addToBoard (faultAt (Target.text 0))).thrown = some (Error.External 7) ∧
    (sampleFootprint.addToBoard (faultAt (Target.text 0))).fp = sampleFootprint :=
  ⟨by decide, by decide,
    (BI_Footprint.addToBoard_failure_restores (faultAt (Target.text 0)) sampleFootprint
      (by decide) (by decide)).2.2.2⟩

/-- C2: for an attached footprint, if `removeFromBoard` fails at any step, then
the calls made are a beginning `done ++ [failed]` of the full pass followed by
the inverse call (re-attach) on every object of `done`, last first; afterwards
the footprint is unchanged, so it is still attached, and its pads and stroke
texts, when attached before the call, are all still attached. -/
theorem BI_Footprint.removeFromBoard_failure_reattaches (faults : Target → Option Error)
    (fp : BI_Footprint) (hattached : fp.isAddedToBoard = true)
    (hfail : (fp.removeFromBoard faults).thrown ≠ none) :
    (∃ done failed, done ++ [failed] <+: fp.fullPass Op.removeFromBoard ∧
      (fp.removeFromBoard faults).calls = done ++ failed :: (done.map Call.inverse).reverse) ∧
    (fp.removeFromBoard faults).fp = fp ∧
    (fp.removeFromBoard faults).fp.isAddedToBoard = true ∧
    ((∀ e ∈ fp.mPads, e.2.mIsAddedToBoard = true) →
      ∀ e ∈ (fp.removeFromBoard faults).fp.mPads, e.2.mIsAddedToBoard = true) ∧
    ((∀ t ∈ fp.mStrokeTexts, t.mIsAddedToBoard = true) →
      ∀ t ∈ (fp.removeFromBoard faults).fp.mStrokeTexts, t.mIsAddedToBoard = true) := by
  have hf : (fp.applyToBoard Op.removeFromBoard faults).thrown ≠ none := by
    simpa [BI_Footprint.removeFromBoard, hattached] using hfail
  have h : (fp.removeFromBoard faults).fp = fp := by
    simp only [BI_Footprint.removeFromBoard, hattached]
    exact BI_Footprint.applyToBoard_failure _ _ _ hf
  refine ⟨?_, h, ?_, ?_, ?_⟩
  · simp only [BI_Footprint.removeFromBoard, hattached]
    exact BI_Footprint.applyToBoard_failure_trace _ _ _ hf
  · rw [h]; exact hattached
  · rw [h]; exact id
  · rw [h]; exact id

/-- Witness for C2: on the attached sample footprint, whose pads and stroke
text are attached, the footprint's own `BI_Base::removeFromBoard` fails after
all children were detached; afterwards all are attached again. -/
theorem BI_Footprint.removeFromBoard_failure_reattaches_witness :
    sampleAttached.isAddedToBoard = true ∧
    (sampleAttached.removeFromBoard (faultAt Target.self)).thrown = some (Error.External 7) ∧
    (∀ e ∈ sampleAttached.mPads, e.2.mIsAddedToBoard = true) ∧
    (∀ t ∈ sampleAttached.mStrokeTexts, t.mIsAddedToBoard = true) ∧
    (∀ e ∈ (sampleAttached.removeFromBoard (faultAt Target.self)).fp.mPads,
      e.2.mIsAddedToBoard = true) ∧
    (∀ t ∈ (sampleAttached.removeFromBoard (faultAt Target.self)).fp.mStrokeTexts,
      t.mIsAddedToBoard = true) :=
  ⟨by decide, by decide, by decide, by decide,
    (BI_Footprint.removeFromBoard_failure_reattaches (faultAt Target.self) sampleAttached
      (by decide) (by decide)).2.2.2.1 (by decide),
    (BI_Footprint.removeFromBoard_failure_reattaches (faultAt Target.self) sampleAttached
      (by decide) (by decide)).2.2.2.2 (by decide)⟩

/-- C3: `addToBoard` on a footprint that is already attached throws (the
`LogicError` of line 228), makes no call on any pad or stroke text, and leaves
the footprint and every child unchanged. -/
theorem BI_Footprint.addToBoard_attached_rejected (faults : Target → Option Error)
    (fp : BI_Footprint) (hattached : fp.isAddedToBoard = true) :
    (fp.addToBoard faults).thrown = some (Error.LogicError 228) ∧
    (fp.addToBoard faults).calls = [] ∧
    (fp.addToBoard faults).fp = fp := by
  simp [BI_Footprint.addToBoard, hattached]

/-- Witness for C3 on the attached sample footprint. -/
theorem BI_Footprint.addToBoard_attached_rejected_witness :
    sampleAttached.isAddedToBoard = true ∧
    (sampleAttached.addToBoard noFaults).thrown = some (Error.LogicError 228) ∧
    (sampleAttached.addToBoard noFaults).calls = [] ∧
    (sampleAttached.addToBoard noFaults).fp = sampleAttached :=
  ⟨by decide, BI_Footprint.addToBoard_attached_rejected noFaults sampleAttached (by decide)⟩

/-- C4: `removeFromBoard` on a footprint that is not attached throws (the
`LogicError` of line 245), makes no call on any pad or stroke text, and leaves
the footprint and every child unchanged. -/
theorem BI_Footprint.removeFromBoard_detached_rejected (faults : Target → Option Error)
    (fp : BI_Footprint) (hdetached : fp.isAddedToBoard = false) :
    (fp.removeFromBoard faults).thrown = some (Error.LogicError 245) ∧
    (fp.removeFromBoard faults).calls = [] ∧
    (fp.removeFromBoard faults).fp = fp := by
  simp [BI_Footprint.removeFromBoard, hdetached]

/-- Witness for C4 on the detached sample footprint. -/
theorem BI_Footprint.removeFromBoard_detached_rejected_witness :
    sampleFootprint.isAddedToBoard = false ∧
    (sampleFootprint.removeFromBoard noFaults).thrown = some (Error.LogicError 245) ∧
    (sampleFootprint.removeFromBoard noFaults).calls = [] ∧
    (sampleFootprint.removeFromBoard noFaults).fp = sampleFootprint :=
  ⟨by decide, BI_Footprint.removeFromBoard_detached_rejected noFaults sampleFootprint (by decide)⟩

/-- C5: a successful `addToBoard` calls `addToBoard` on every pad, then on
every stroke text, then on the footprint itself, and afterwards the footprint
and all its pads and stroke texts are attached; a successful `removeFromBoard`
calls `removeFromBoard` in the same pads, texts, self order, and afterwards all
are detached.  Nothing but the attached flags changes. -/
theorem BI_Footprint.addToBoard_removeFromBoard_success (faults : Target → Option Error)
    (fp : BI_Footprint) :
    ((fp.addToBoard faults).thrown = none →
      (fp.addToBoard faults).calls = fp.fullPass Op.addToBoard ∧
      (fp.addToBoard faults).fp.isAddedToBoard = true ∧
      (∀ e ∈ (fp.addToBoard faults).fp.mPads, e.2.mIsAddedToBoard = true) ∧
      (∀ t ∈ (fp.addToBoard faults).fp.mStrokeTexts, t.mIsAddedToBoard = true) ∧
      (fp.addToBoard faults).fp = fp.setAllAttached true) ∧
    ((fp.removeFromBoard faults).thrown = none →
      (fp.removeFromBoard faults).calls = fp.fullPass Op.removeFromBoard ∧
      (fp.removeFromBoard faults).fp.isAddedToBoard = false ∧
      (∀ e ∈ (fp.removeFromBoard faults).fp.mPads, e.2.mIsAddedToBoard = false) ∧
      (∀ t ∈ (fp.removeFromBoard faults).fp.mStrokeTexts, t.mIsAddedToBoard = false) ∧
      (fp.removeFromBoard faults).fp = fp.setAllAttached false) := by
  constructor
  · intro h
    by_cases ha : fp.isAddedToBoard = true
    · simp [BI_Footprint.addToBoard, ha] at h
    · have hd : fp.isAddedToBoard = false := by simpa using ha
      simp only [BI_Footprint.addToBoard, hd, Bool.false_eq_true, if_false] at h ⊢
      obtain ⟨h1, h2⟩ := BI_Footprint.applyToBoard_success Op.addToBoard faults fp h
      rw [h1, h2]
      refine ⟨rfl, rfl, ?_, ?_, rfl⟩
      · intro e he
        simp only [BI_Footprint.setAllAttached, List.mem_map] at he
        obtain ⟨x, -, rfl⟩ := he
        rfl
      · intro t ht
        simp only [BI_Footprint.setAllAttached, List.mem_map] at ht
        obtain ⟨x, -, rfl⟩ := ht
        rfl
  · intro h
    by_cases ha : fp.isAddedToBoard = true
    · simp only [BI_Footprint.removeFromBoard, ha, Bool.not_true, Bool.false_eq_true,
        if_false] at h ⊢
      obtain ⟨h1, h2⟩ := BI_Footprint.applyToBoard_success Op.removeFromBoard faults fp h
      rw [h1, h2]
      refine ⟨rfl, rfl, ?_, ?_, rfl⟩
      · intro e he
        simp only [BI_Footprint.setAllAttached, List.mem_map] at he
        obtain ⟨x, -, rfl⟩ := he
        rfl
      · intro t ht
        simp only [BI_Footprint.setAllAttached, List.mem_map] at ht
        obtain ⟨x, -, rfl⟩ := ht
        rfl
    · simp [BI_Footprint.removeFromBoard, ha] at h

/-- Witness for C5: attaching the sample footprint succeeds, and so does
detaching the attached one. -/
theorem BI_Footprint.addToBoard_removeFromBoard_success_witness :
    (sampleFootprint.addToBoard noFaults).thrown = none ∧
    (sampleFootprint.addToBoard noFaults).calls =
      [⟨Target.pad 0, Op.addToBoard⟩, ⟨Target.pad 1, Op.addToBoard⟩,
        ⟨Target.pad 2, Op.addToBoard⟩, ⟨Target.text 0, Op.addToBoard⟩,
        ⟨Target.self, Op.addToBoard⟩] ∧
    (sampleAttached.removeFromBoard noFaults).thrown = none ∧
    (sampleAttached.removeFromBoard noFaults).fp = sampleFootprint :=
  ⟨by decide,
    ((BI_Footprint.addToBoard_removeFromBoard_success noFaults sampleFootprint).1
      (by decide)).1.trans (by decide),
    by decide,
    ((BI_Footprint.addToBoard_removeFromBoard_success noFaults sampleAttached).2
      (by decide)).2.2.2.2.trans (by decide)⟩

/-! ## Construction of a footprint -/

/-- C6: when the pads of the library footprint pass the three checks of
`init` (no UUID twice, every named package pad in the package and in the
pad-signal map), `init`, started with the empty pad map as in every
constructor, returns normally with a pad map whose key set is exactly the set
of library pad UUIDs: no key twice, as many entries as library pads, and every
entry is the pad bound to the library pad of its key. -/
theorem BI_Footprint.init_pad_map (b : Building) (hempty : b.fp.mPads = [])
    (hnodup : (b.fp.getLibFootprint.getPads.map FootprintPad.getUuid).Nodup)
    (hpkg : ∀ p ∈ b.fp.getLibFootprint.getPads, ∀ u ∈ p.getPackagePadUuid,
      u ∈ b.fp.mDevice.getLibPackage.getPads)
    (hmap : ∀ p ∈ b.fp.getLibFootprint.getPads, ∀ u ∈ p.getPackagePadUuid,
      u ∈ b.fp.mDevice.getLibDevice.getPadSignalMap) :
    (BI_Footprint.init b).1 = none ∧
    (∀ k, QHash.contains (BI_Footprint.init b).2.fp.mPads k = true ↔
      ∃ p ∈ b.fp.getLibFootprint.getPads, p.getUuid = k) ∧
    ((BI_Footprint.init b).2.fp.mPads.map Prod.fst).Nodup ∧
    (BI_Footprint.init b).2.fp.mPads.length = b.fp.getLibFootprint.getPads.length ∧
    (∀ e ∈ (BI_Footprint.init b).2.fp.mPads, e.2.mLibPadUuid = e.1) := by
  have h := BI_Footprint.loadPads_ok b.fp.getLibFootprint.getPads
    { b with fp := { b.fp with mGraphicsItem := true } }
    (by intro p _; simp [hempty, QHash.contains]) hnodup hpkg hmap
  have hinit : BI_Footprint.init b = BI_Footprint.loadPads b.fp.getLibFootprint.getPads
    { b with fp := { b.fp with mGraphicsItem := true } } := rfl
  rw [hinit, h]
  refine ⟨rfl, ?_, ?_, ?_, ?_⟩ <;> simp only [hempty, List.nil_append]
  · intro k
    rw [QHash.contains_iff, BI_Footprint.padsFor_keys]
    simp
  · rw [BI_Footprint.padsFor_keys]; exact hnodup
  · have := congrArg List.length (BI_Footprint.padsFor_keys b.heap b.fp.addr
      b.fp.getLibFootprint.getPads)
    simpa using this
  · intro e he
    exact (BI_Footprint.padsFor_bound _ _ _ e he).1

/-- Witness for C6: `init` on the sample device, from the empty pad map. -/
theorem BI_Footprint.init_pad_map_witness :
    (BI_Footprint.init
      { fp := BI_Footprint.initial 500 sampleDevice, heap := 1000, allocated := [] }).1 = none ∧
    (BI_Footprint.init
      { fp := BI_Footprint.initial 500 sampleDevice, heap := 1000, allocated := [] }).2.fp.mPads.map
        Prod.fst = [21, 22, 23] ∧
    (BI_Footprint.init
      { fp := BI_Footprint.initial 500 sampleDevice, heap := 1000, allocated := [] }).2.fp.mPads.length
        = 3 :=
  ⟨(BI_Footprint.init_pad_map
      { fp := BI_Footprint.initial 500 sampleDevice, heap := 1000, allocated := [] }
      rfl (by decide) (by decide) (by decide)).1,
    by decide,
    (BI_Footprint.init_pad_map
      { fp := BI_Footprint.initial 500 sampleDevice, heap := 1000, allocated := [] }
      rfl (by decide) (by decide) (by decide)).2.2.2.1⟩

/-- C7: if two pads of the library footprint share a UUID, each of the three
constructors throws; and when the pads before the second pad with that UUID
pass all checks, `init` throws the "defined multiple times" error for that
UUID, that is, on reaching that pad. -/
theorem BI_Footprint.duplicate_pad_uuid_rejected (this heap : Nat) (fault : Option Error)
    (device : BI_Device) (other : BI_Footprint) (children : List (Except Error StrokeText))
    (transform : Transform)
    (hdup : ¬ (device.getLibFootprint.getPads.map FootprintPad.getUuid).Nodup) :
    (∀ c ∈ BI_Footprint.constructors this heap fault device other children transform,
      c.thrown ≠ none) ∧
    (∀ (b : Building) (front back : List FootprintPad) (p : FootprintPad),
      b.fp.mDevice = device → b.fp.mPads = [] →
      device.getLibFootprint.getPads = front ++ p :: back →
      p.getUuid ∈ front.map FootprintPad.getUuid →
      (front.map FootprintPad.getUuid).Nodup →
      (∀ q ∈ front, ∀ u ∈ q.getPackagePadUuid, u ∈ device.getLibPackage.getPads) →
      (∀ q ∈ front, ∀ u ∈ q.getPackagePadUuid, u ∈ device.getLibDevice.getPadSignalMap) →
      (BI_Footprint.init b).1 = some (Error.PadUuidDefinedMultipleTimes p.getUuid)) := by
  constructor
  · have key : ∀ sources, (BI_Footprint.construct fault sources
        { fp := BI_Footprint.initial this device, heap := heap, allocated := [] }).thrown
        ≠ none := by
      intro sources
      apply BI_Footprint.construct_throws
      intro b hb
      apply BI_Footprint.loadPads_duplicate
      left
      have : b.fp.mDevice = device := hb
      simpa [BI_Footprint.getLibFootprint, this] using hdup
    intro c hc
    simp only [BI_Footprint.constructors, List.mem_cons, List.mem_singleton,
      List.not_mem_nil, or_false] at hc
    rcases hc with rfl | rfl | rfl <;> exact key _
  · intro b front back p hdev hempty hsplit hmem hnd hpkg hmap
    have hinit : BI_Footprint.init b = BI_Footprint.loadPads (front ++ p :: back)
        { b with fp := { b.fp with mGraphicsItem := true } } := by
      simp [BI_Footprint.init, BI_Footprint.getLibFootprint, hdev, hsplit]
    rw [hinit, BI_Footprint.loadPads_append,
      BI_Footprint.loadPads_ok front _ (by intro q _; simp [hempty, QHash.contains]) hnd
        (by simpa [hdev] using hpkg) (by simpa [hdev] using hmap)]
    have hc : QHash.contains (BI_Footprint.padsFor b.heap b.fp.addr front) p.getUuid
        = true := by
      rw [QHash.contains_iff, BI_Footprint.padsFor_keys]
      exact hmem
    simp [BI_Footprint.loadPads, hempty, hc]

/-- Witness for C7: the library footprint of `duplicateDevice` uses the UUID 21
twice; the constructor from the device throws on reaching the third pad. -/
theorem BI_Footprint.duplicate_pad_uuid_rejected_witness :
    ¬ (duplicateDevice.getLibFootprint.getPads.map FootprintPad.getUuid).Nodup ∧
    (BI_Footprint.fromDevice 500 1000 none duplicateDevice sampleTransform).thrown ≠ none ∧
    (BI_Footprint.fromDevice 500 1000 none duplicateDevice sampleTransform).thrown =
      some (Error.PadUuidDefinedMultipleTimes 21) :=
  ⟨by decide,
    (BI_Footprint.duplicate_pad_uuid_rejected 500 1000 none duplicateDevice sampleFootprint []
      sampleTransform (by decide)).1 _
      (List.mem_cons_of_mem _ (List.mem_cons_of_mem _ (List.mem_singleton.2 rfl))),
    by decide⟩

/-- C8: if some library pad names a package pad that is not among the pads of
the device's package, each of the three constructors throws; and the "not found
in package" error of `init` is only ever raised for a pad that names a package
pad (one missing from the package), never for a pad without package pad. -/
theorem BI_Footprint.dangling_package_pad_rejected (this heap : Nat) (fault : Option Error)
    (device : BI_Device) (other : BI_Footprint) (children : List (Except Error StrokeText))
    (transform : Transform)
    (hbad : ∃ p ∈ device.getLibFootprint.getPads, ∃ u, p.getPackagePadUuid = some u ∧
      u ∉ device.getLibPackage.getPads) :
    (∀ c ∈ BI_Footprint.constructors this heap fault device other children transform,
      c.thrown ≠ none) ∧
    (∀ (b : Building) (u k : Uuid), b.fp.mDevice = device →
      (BI_Footprint.init b).1 = some (Error.PadNotFoundInPackage u k) →
      ∃ p ∈ device.getLibFootprint.getPads, p.getPackagePadUuid = some u ∧
        u ∉ device.getLibPackage.getPads) := by
  constructor
  · have key : ∀ sources, (BI_Footprint.construct fault sources
        { fp := BI_Footprint.initial this device, heap := heap, allocated := [] }).thrown
        ≠ none := by
      intro sources
      apply BI_Footprint.construct_throws
      intro b hb
      apply BI_Footprint.loadPads_dangling
      have : b.fp.mDevice = device := hb
      simpa [BI_Footprint.getLibFootprint, this] using hbad
    intro c hc
    simp only [BI_Footprint.constructors, List.mem_cons, List.mem_singleton,
      List.not_mem_nil, or_false] at hc
    rcases hc with rfl | rfl | rfl <;> exact key _
  · intro b u k hdev h
    have := BI_Footprint.loadPads_dangling_only _ _ u k h
    simpa [BI_Footprint.getLibFootprint, hdev] using this

/-- Witness for C8: a pad of `danglingDevice` names package pad 13, which the
package does not have; copying a footprint for that device throws. -/
theorem BI_Footprint.dangling_package_pad_rejected_witness :
    (∃ p ∈ danglingDevice.getLibFootprint.getPads, ∃ u, p.getPackagePadUuid = some u ∧
      u ∉ danglingDevice.getLibPackage.getPads) ∧
    (BI_Footprint.copyOf 500 1000 none danglingDevice sampleFootprint).thrown ≠ none ∧
    (BI_Footprint.copyOf 500 1000 none danglingDevice sampleFootprint).thrown =
      some (Error.PadNotFoundInPackage 13 100) :=
  ⟨⟨{ getUuid := 22, getPackagePadUuid := some 13 }, by decide, 13, rfl, by decide⟩,
    (BI_Footprint.dangling_package_pad_rejected 500 1000 none danglingDevice sampleFootprint []
      sampleTransform
      ⟨{ getUuid := 22, getPackagePadUuid := some 13 }, by decide, 13, rfl, by decide⟩).1 _
      (List.mem_cons_self _ _),
    by decide⟩

/-- C9: if some library pad names a package pad that has no entry in the
pad-signal map of the library device, each of the three constructors throws;
and the "not found in pad-signal map" error of `init` is only ever raised for a
pad that names a package pad (one missing from the map), never for a pad
without package pad. -/
theorem BI_Footprint.unmapped_package_pad_rejected (this heap : Nat) (fault : Option Error)
    (device : BI_Device) (other : BI_Footprint) (children : List (Except Error StrokeText))
    (transform : Transform)
    (hbad : ∃ p ∈ device.getLibFootprint.getPads, ∃ u, p.getPackagePadUuid = some u ∧
      u ∉ device.getLibDevice.getPadSignalMap) :
    (∀ c ∈ BI_Footprint.constructors this heap fault device other children transform,
      c.thrown ≠ none) ∧
    (∀ (b : Building) (u k : Uuid), b.fp.mDevice = device →
      (BI_Footprint.init b).1 = some (Error.PadNotFoundInPadSignalMap u k) →
      ∃ p ∈ device.getLibFootprint.getPads, p.getPackagePadUuid = some u ∧
        u ∉ device.getLibDevice.getPadSignalMap) := by
  constructor
  · have key : ∀ sources, (BI_Footprint.construct fault sources
        { fp := BI_Footprint.initial this device, heap := heap, allocated := [] }).thrown
        ≠ none := by
      intro sources
      apply BI_Footprint.construct_throws
      intro b hb
      apply BI_Footprint.loadPads_unmapped
      have : b.fp.mDevice = device := hb
      simpa [BI_Footprint.getLibFootprint, this] using hbad
    intro c hc
    simp only [BI_Footprint.constructors, List.mem_cons, List.mem_singleton,
      List.not_mem_nil, or_false] at hc
    rcases hc with rfl | rfl | rfl <;> exact key _
  · intro b u k hdev h
    have := BI_Footprint.loadPads_unmapped_only _ _ u k h
    simpa [BI_Footprint.getLibFootprint, hdev] using this

/-- Witness for C9: a pad of `unmappedDevice` names package pad 12, which has
no entry in the pad-signal map; loading a footprint for that device from a
file node throws. -/
theorem BI_Footprint.unmapped_package_pad_rejected_witness :
    (∃ p ∈ unmappedDevice.getLibFootprint.getPads, ∃ u, p.getPackagePadUuid = some u ∧
      u ∉ unmappedDevice.getLibDevice.getPadSignalMap) ∧
    (BI_Footprint.fromNode 500 1000 none unmappedDevice []).thrown ≠ none ∧
    (BI_Footprint.fromNode 500 1000 none unmappedDevice []).thrown =
      some (Error.PadNotFoundInPadSignalMap 12 200) :=
  ⟨⟨{ getUuid := 22, getPackagePadUuid := some 12 }, by decide, 12, rfl, by decide⟩,
    (BI_Footprint.unmapped_package_pad_rejected 500 1000 none unmappedDevice sampleFootprint []
      sampleTransform
      ⟨{ getUuid := 22, getPackagePadUuid := some 12 }, by decide, 12, rfl, by decide⟩).1 _
      (List.mem_cons_of_mem _ (List.mem_cons_self _ _)),
    by decide⟩

/-- C10: whenever one of the three constructors throws, whether in the stroke
text loop or inside `init`, the object is left as `deinit` leaves it: it owns no
pad and no stroke text, the graphics item is gone, and the objects deleted are
exactly the pads and stroke texts that were created before the failure. -/
theorem BI_Footprint.construction_failure_cleans_up (this heap : Nat) (fault : Option Error)
    (device : BI_Device) (other : BI_Footprint) (children : List (Except Error StrokeText))
    (transform : Transform) :
    ∀ c ∈ BI_Footprint.constructors this heap fault device other children transform,
      c.thrown ≠ none →
      c.self.mPads = [] ∧ c.self.mStrokeTexts = [] ∧ c.self.mGraphicsItem = false ∧
      List.Perm c.deleted c.allocated ∧
      ∃ fp : BI_Footprint, c.self = fp.deinit.1 ∧ c.deleted = fp.deinit.2 := by
  have key : ∀ sources, (BI_Footprint.construct fault sources
      { fp := BI_Footprint.initial this device, heap := heap, allocated := [] }).thrown ≠ none →
      (BI_Footprint.construct fault sources
        { fp := BI_Footprint.initial this device, heap := heap, allocated := [] }).self.mPads = [] ∧
      (BI_Footprint.construct fault sources
        { fp := BI_Footprint.initial this device, heap := heap,
          allocated := [] }).self.mStrokeTexts = [] ∧
      (BI_Footprint.construct fault sources
        { fp := BI_Footprint.initial this device, heap := heap,
          allocated := [] }).self.mGraphicsItem = false ∧
      List.Perm (BI_Footprint.construct fault sources
        { fp := BI_Footprint.initial this device, heap := heap, allocated := [] }).deleted
        (BI_Footprint.construct fault sources
        { fp := BI_Footprint.initial this device, heap := heap, allocated := [] }).allocated ∧
      ∃ fp : BI_Footprint, (BI_Footprint.construct fault sources
        { fp := BI_Footprint.initial this device, heap := heap, allocated := [] }).self
          = fp.deinit.1 ∧
        (BI_Footprint.construct fault sources
        { fp := BI_Footprint.initial this device, heap := heap, allocated := [] }).deleted
          = fp.deinit.2 := by
    intro sources h
    obtain ⟨h1, h2, h3, h4⟩ := BI_Footprint.construct_failure fault sources this heap device h
    refine ⟨h1, h2, h3, h4, ?_⟩
    simp only [BI_Footprint.construct] at h ⊢
    split
    · rename_i e b1 heq
      exact ⟨b1.fp, rfl, rfl⟩
    · rename_i b1 heq
      split
      · rename_i e b2 heq2
        exact ⟨b2.fp, rfl, rfl⟩
      · rename_i b2 heq2
        simp [heq, heq2] at h
  intro c hc
  simp only [BI_Footprint.constructors, List.mem_cons, List.mem_singleton,
    List.not_mem_nil, or_false] at hc
  rcases hc with rfl | rfl | rfl <;> exact key _

/-- Witness for C10: the constructor from `duplicateDevice` throws inside
`init` after one stroke text and two pads were created; all three are deleted
and the collections are empty. -/
theorem BI_Footprint.construction_failure_cleans_up_witness :
    (BI_Footprint.fromDevice 500 1000 none duplicateDevice sampleTransform).thrown ≠ none ∧
    (BI_Footprint.fromDevice 500 1000 none duplicateDevice sampleTransform).allocated =
      [1000, 1001, 1002] ∧
    (BI_Footprint.fromDevice 500 1000 none duplicateDevice sampleTransform).self.mPads = [] ∧
    (BI_Footprint.fromDevice 500 1000 none duplicateDevice sampleTransform).self.mStrokeTexts
      = [] :=
  ⟨by decide, by decide,
    (BI_Footprint.construction_failure_cleans_up 500 1000 none duplicateDevice sampleFootprint []
      sampleTransform _ (List.mem_cons_of_mem _ (List.mem_cons_of_mem _ (List.mem_singleton.2 rfl)))
      (by decide)).1,
    (BI_Footprint.construction_failure_cleans_up 500 1000 none duplicateDevice sampleFootprint []
      sampleTransform _ (List.mem_cons_of_mem _ (List.mem_cons_of_mem _ (List.mem_singleton.2 rfl)))
      (by decide)).2.1⟩

/-! ## Order of checks and pad creation in init -/

/-- When the pad loop throws, it does so on some library pad `p`: the pads of
the library pads before `p` have been created and inserted, none for `p` or
for a later pad, and the exception is the one of a check on `p`. -/
theorem BI_Footprint.loadPads_thrown (l : List FootprintPad) (b : Building) (e : Error)
    (h : (BI_Footprint.loadPads l b).1 = some e) :
    ∃ front p back, l = front ++ p :: back ∧
      (BI_Footprint.loadPads l b).2 =
        { fp := { b.fp with
            mPads := b.fp.mPads ++ BI_Footprint.padsFor b.heap b.fp.addr front },
          heap := b.heap + front.length,
          allocated := b.allocated ++ List.range' b.heap front.length } ∧
      (e = Error.PadUuidDefinedMultipleTimes p.getUuid ∨
        ∃ u, p.getPackagePadUuid = some u ∧
          (e = Error.PadNotFoundInPackage u b.fp.mDevice.getLibPackage.getUuid ∨
            e = Error.PadNotFoundInPadSignalMap u b.fp.mDevice.getLibDevice.getUuid)) := by
  induction l generalizing b with
  | nil => simp [BI_Footprint.loadPads] at h
  | cons p rest ih =>
    simp only [BI_Footprint.loadPads] at h ⊢
    split
    · rename_i hc
      simp only [hc, if_true, Option.some.injEq] at h
      exact ⟨[], p, rest, rfl, by simp [BI_Footprint.padsFor], Or.inl h.symm⟩
    · rename_i hc
      simp only [hc, if_false] at h
      split
      · rename_i hc2
        simp only [hc2, if_true, Option.some.injEq] at h
        refine ⟨[], p, rest, rfl, by simp [BI_Footprint.padsFor], Or.inr ?_⟩
        cases hp : p.getPackagePadUuid with
        | none => simp [hp] at hc2
        | some u =>
          simp [hp] at h
          exact ⟨u, rfl, Or.inl h.symm⟩
      · rename_i hc2
        simp only [hc2, if_false] at h
        split
        · rename_i hc3
          simp only [hc3, if_true, Option.some.injEq] at h
          refine ⟨[], p, rest, rfl, by simp [BI_Footprint.padsFor], Or.inr ?_⟩
          cases hp : p.getPackagePadUuid with
          | none => simp [hp] at hc3
          | some u =>
            simp [hp] at h
            exact ⟨u, rfl, Or.inr h.symm⟩
        · rename_i hc3
          simp only [hc3, if_false] at h
          have hc1 : QHash.contains b.fp.mPads p.getUuid = false := by simpa using hc
          obtain ⟨front, q, back, hsplit, hres, herr⟩ := ih _ h
          refine ⟨p :: front, q, back, by simp [hsplit], ?_, herr⟩
          rw [hres]
          simp [BI_Footprint.padsFor, QHash.insert_new _ _ _ hc1, List.range'_succ,
            Nat.add_assoc, Nat.add_comm 1]

/-- C11 (as amended): in `init` the three checks of a library pad are run
before the pad object of that pad is created, pad by pad in one loop.  When
`init`, started with the empty pad map, throws, it does so on some library pad
`p` with the exception of one of the three checks on `p`; no pad object exists
for `p` or for a later library pad, while the pads of all library pads before
`p` have been created and inserted. -/
theorem BI_Footprint.init_failure_keeps_earlier_pads (b : Building) (e : Error)
    (hempty : b.fp.mPads = []) (hfail : (BI_Footprint.init b).1 = some e) :
    ∃ front p back, b.fp.getLibFootprint.getPads = front ++ p :: back ∧
      (BI_Footprint.init b).2.fp.mPads = BI_Footprint.padsFor b.heap b.fp.addr front ∧
      (BI_Footprint.init b).2.fp.mPads.map Prod.fst = front.map FootprintPad.getUuid ∧
      (BI_Footprint.init b).2.allocated = b.allocated ++ List.range' b.heap front.length ∧
      (e = Error.PadUuidDefinedMultipleTimes p.getUuid ∨
        ∃ u, p.getPackagePadUuid = some u ∧
          (e = Error.PadNotFoundInPackage u b.fp.mDevice.getLibPackage.getUuid ∨
            e = Error.PadNotFoundInPadSignalMap u b.fp.mDevice.getLibDevice.getUuid)) := by
  have hinit : BI_Footprint.init b = BI_Footprint.loadPads b.fp.getLibFootprint.getPads
    { b with fp := { b.fp with mGraphicsItem := true } } := rfl
  rw [hinit] at hfail ⊢
  obtain ⟨front, p, back, hsplit, hres, herr⟩ := BI_Footprint.loadPads_thrown _ _ e hfail
  refine ⟨front, p, back, hsplit, ?_, ?_, ?_, herr⟩
  · rw [hres]; simp [hempty]
  · rw [hres]; simp [hempty, BI_Footprint.padsFor_keys]
  · rw [hres]

/-- Witness for C11 as amended: `init` for `duplicateDevice` throws on the
third library pad, after the pads for 21 and 22 were created. -/
theorem BI_Footprint.init_failure_keeps_earlier_pads_witness :
    duplicateBuilding.fp.mPads = [] ∧
    (BI_Footprint.init duplicateBuilding).1 = some (Error.PadUuidDefinedMultipleTimes 21) ∧
    ∃ front p back, duplicateBuilding.fp.getLibFootprint.getPads = front ++ p :: back ∧
      (BI_Footprint.init duplicateBuilding).2.fp.mPads.map Prod.fst =
        front.map FootprintPad.getUuid := by
  obtain ⟨front, p, back, h1, -, h3, -⟩ := BI_Footprint.init_failure_keeps_earlier_pads
    duplicateBuilding (Error.PadUuidDefinedMultipleTimes 21) rfl (by decide)
  exact ⟨rfl, by decide, front, p, back, h1, h3⟩

/-- Counterexample to C11 as stated: `init` for `duplicateDevice` throws on the
third library pad, and at that moment two pad objects have already been
created in this call and inserted into the pad map. -/
theorem BI_Footprint.init_checks_not_before_all_pads :
    (BI_Footprint.init duplicateBuilding).1 = some (Error.PadUuidDefinedMultipleTimes 21) ∧
    (BI_Footprint.init duplicateBuilding).2.fp.mPads.map Prod.fst = [21, 22] ∧
    (BI_Footprint.init duplicateBuilding).2.allocated = [1000, 1001] := by
  decide

/-! ## Device handlers -/

/-- The rebuild requests of two call lists in a row. -/
theorem Notification.rebuildRequests_append (l1 l2 : List Notification) :
    Notification.rebuildRequests (l1 ++ l2) =
      Notification.rebuildRequests l1 ++ Notification.rebuildRequests l2 := by
  induction l1 with
  | nil => rfl
  | cons n rest ih => cases n <;> simp [Notification.rebuildRequests, ih]

/-- The position updates of two call lists in a row. -/
theorem Notification.positionUpdates_append (l1 l2 : List Notification) :
    Notification.positionUpdates (l1 ++ l2) =
      Notification.positionUpdates l1 ++ Notification.positionUpdates l2 := by
  induction l1 with
  | nil => rfl
  | cons n rest ih => cases n <;> simp [Notification.positionUpdates, ih]

/-- Calls on stroke texts contain no rebuild request. -/
theorem Notification.rebuildRequests_texts (l : List Nat) :
    Notification.rebuildRequests (l.map Notification.textUpdateGraphicsItems) = [] := by
  induction l with
  | nil => rfl
  | cons n rest ih => simpa [Notification.rebuildRequests] using ih

/-- Calls on stroke texts contain no position update of a pad. -/
theorem Notification.positionUpdates_texts (l : List Nat) :
    Notification.positionUpdates (l.map Notification.textUpdateGraphicsItems) = [] := by
  induction l with
  | nil => rfl
  | cons n rest ih => simpa [Notification.positionUpdates] using ih

/-- What the pad loop of the device handlers does: every pad gets its cached
position recomputed, `updatePosition` is called on the positions `i, i+1, ...`
in order, and the rebuild requests carry the net signals of the pads, in
order. -/
theorem BI_Footprint.updatePads_spec (place : BI_Device → Uuid → Point × Angle)
    (device : BI_Device) (i : Nat) (pads : List (Uuid × BI_FootprintPad)) :
    (BI_Footprint.updatePads place device i pads).1 =
      pads.map (fun e => (e.1, e.2.updatePosition place device)) ∧
    Notification.positionUpdates (BI_Footprint.updatePads place device i pads).2 =
      List.range' i pads.length ∧
    Notification.rebuildRequests (BI_Footprint.updatePads place device i pads).2 =
      pads.map (fun e => e.2.getCompSigInstNetSignal) := by
  induction pads generalizing i with
  | nil => exact ⟨rfl, rfl, rfl⟩
  | cons e rest ih =>
    obtain ⟨key, pad⟩ := e
    obtain ⟨h1, h2, h3⟩ := ih (i + 1)
    refine ⟨?_, ?_, ?_⟩
    · simp [BI_Footprint.updatePads, h1]
    · simp [BI_Footprint.updatePads, Notification.positionUpdates, h2, List.range'_succ]
    · simp [BI_Footprint.updatePads, Notification.rebuildRequests, h3,
        BI_FootprintPad.updatePosition, BI_FootprintPad.getCompSigInstNetSignal]

/-- C12: each of the handlers `deviceInstanceMoved`, `deviceInstanceRotated`
and `deviceInstanceMirrored` recomputes the cached position of every pad of
the footprint, calling `updatePosition` exactly once per pad (in map order),
and makes one `scheduleAirWiresRebuild` call per pad whose argument is the net
signal currently bound to that pad; nothing but the pads' caches changes. -/
theorem BI_Footprint.deviceHandlers_update_pads (place : BI_Device → Uuid → Point × Angle)
    (pos : Point) (rot : Angle) (mirrored : Bool) (fp : BI_Footprint) :
    ∀ r ∈ fp.deviceHandlers place pos rot mirrored,
      r.1.mPads = fp.mPads.map (fun e => (e.1, e.2.updatePosition place fp.mDevice)) ∧
      r.1 = { fp with mPads := r.1.mPads } ∧
      Notification.positionUpdates r.2 = List.range fp.mPads.length ∧
      (∀ i, i < fp.mPads.length → (Notification.positionUpdates r.2).count i = 1) ∧
      Notification.rebuildRequests r.2 = fp.mPads.map (fun e => e.2.getCompSigInstNetSignal) := by
  obtain ⟨h1, h2, h3⟩ := BI_Footprint.updatePads_spec place fp.mDevice 0 fp.mPads
  have hcount : ∀ i, i < fp.mPads.length → (List.range fp.mPads.length).count i = 1 := by
    intro i hi
    exact List.count_eq_one_of_mem (List.nodup_range _) (List.mem_range.2 hi)
  intro r hr
  simp only [BI_Footprint.deviceHandlers, List.mem_cons, List.mem_singleton,
    List.not_mem_nil, or_false] at hr
  rcases hr with rfl | rfl | rfl
  · have hp : Notification.positionUpdates (fp.deviceInstanceMoved place pos).2 =
        List.range fp.mPads.length := by
      simp [BI_Footprint.deviceInstanceMoved, Notification.positionUpdates_append,
        Notification.positionUpdates, Notification.positionUpdates_texts, h2,
        List.range_eq_range']
    refine ⟨?_, rfl, hp, ?_, ?_⟩
    · simp [BI_Footprint.deviceInstanceMoved, h1]
    · rw [hp]; exact hcount
    · simp [BI_Footprint.deviceInstanceMoved, Notification.rebuildRequests_append,
        Notification.rebuildRequests, Notification.rebuildRequests_texts, h3]
  · have hp : Notification.positionUpdates (fp.deviceInstanceRotated place rot).2 =
        List.range fp.mPads.length := by
      simp [BI_Footprint.deviceInstanceRotated, Notification.positionUpdates, h2,
        List.range_eq_range']
    refine ⟨?_, rfl, hp, ?_, ?_⟩
    · simp [BI_Footprint.deviceInstanceRotated, h1]
    · rw [hp]; exact hcount
    · simp [BI_Footprint.deviceInstanceRotated, Notification.rebuildRequests, h3]
  · have hp : Notification.positionUpdates (fp.deviceInstanceMirrored place mirrored).2 =
        List.range fp.mPads.length := by
      simp [BI_Footprint.deviceInstanceMirrored, Notification.positionUpdates, h2,
        List.range_eq_range']
    refine ⟨?_, rfl, hp, ?_, ?_⟩
    · simp [BI_Footprint.deviceInstanceMirrored, h1]
    · rw [hp]; exact hcount
    · simp [BI_Footprint.deviceInstanceMirrored, Notification.rebuildRequests, h3]

/-- Witness for C12: the move handler on the scenario footprint. -/
theorem BI_Footprint.deviceHandlers_update_pads_witness :
    Notification.positionUpdates (scenarioFootprint.deviceInstanceMoved samplePlace
      (1000005, 5)).2 = [0, 1] ∧
    (scenarioFootprint.deviceInstanceMoved samplePlace (1000005, 5)).1.mPads.map
      (fun e => e.2.mPosition) = [(1000026, 5), (1000027, 5)] :=
  ⟨(BI_Footprint.deviceHandlers_update_pads samplePlace (1000005, 5) 0 false scenarioFootprint
      _ (List.mem_cons_self _ _)).2.2.1.trans (by decide),
    by decide⟩

/-- Counterexample to C13 as stated: for the footprint with P1 bound to net
signal 7 and P2 unconnected, the move handler makes two
`scheduleAirWiresRebuild` calls, one for net signal 7 and one, issued for P2,
with a null net signal, while only one pad is bound to a net signal. -/
theorem BI_Footprint.deviceInstanceMoved_requests_per_pad :
    Notification.rebuildRequests
      (scenarioFootprint.deviceInstanceMoved samplePlace (1000005, 5)).2 = [some 7, none] ∧
    (scenarioFootprint.mPads.filter
      (fun e => e.2.getCompSigInstNetSignal.isSome)).length = 1 ∧
    (Notification.rebuildRequests
      (scenarioFootprint.deviceInstanceMoved samplePlace (1000005, 5)).2).length ≠
      (scenarioFootprint.mPads.filter
        (fun e => e.2.getCompSigInstNetSignal.isSome)).length := by
  decide

/-- C13 (as amended): when the device of a footprint moves, one
`scheduleAirWiresRebuild` call is made per pad, with the pad's net signal, or
null for an unconnected pad; the number of calls that name a net signal equals
the number of pads bound to a net signal.  For the footprint with P1 bound to
net signal 7 and P2 unconnected, exactly one call names a net signal, namely 7,
the call issued for P2 passes null, and P2's cached position is updated. -/
theorem BI_Footprint.deviceInstanceMoved_rebuild_requests
    (place : BI_Device → Uuid → Point × Angle) (pos : Point) (fp : BI_Footprint) :
    (Notification.rebuildRequests (fp.deviceInstanceMoved place pos).2).length =
      fp.mPads.length ∧
    ((Notification.rebuildRequests (fp.deviceInstanceMoved place pos).2).filter
      Option.isSome).length =
      (fp.mPads.filter (fun e => e.2.getCompSigInstNetSignal.isSome)).length ∧
    (∀ s, (Notification.rebuildRequests (fp.deviceInstanceMoved place pos).2).count (some s) =
      (fp.mPads.filter (fun e => e.2.getCompSigInstNetSignal == some s)).length) ∧
    Notification.rebuildRequests
      (scenarioFootprint.deviceInstanceMoved samplePlace (1000005, 5)).2 = [some 7, none] ∧
    (scenarioFootprint.mPads.map (fun e => e.2.mPosition)) = [(26, 5), (27, 5)] ∧
    ((scenarioFootprint.deviceInstanceMoved samplePlace (1000005, 5)).1.mPads.map
      (fun e => e.2.mPosition)) = [(1000026, 5), (1000027, 5)] := by
  have h3 : Notification.rebuildRequests (fp.deviceInstanceMoved place pos).2 =
      fp.mPads.map (fun e => e.2.getCompSigInstNetSignal) := by
    have := (BI_Footprint.updatePads_spec place fp.mDevice 0 fp.mPads).2.2
    simp [BI_Footprint.deviceInstanceMoved, Notification.rebuildRequests_append,
      Notification.rebuildRequests, Notification.rebuildRequests_texts, this]
  rw [h3]
  refine ⟨by simp, ?_, ?_, by decide, by decide, by decide⟩
  · rw [List.filter_map, List.length_map]
    rfl
  · intro s
    rw [List.count_eq_countP, List.countP_map, List.countP_eq_length_filter]
    rfl

/-! ## CmdSchematicEdit -/

/-- Calls of `setName` change neither the schematic nor the old name captured
at construction. -/
theorem CmdSchematicEdit.prepared_frame (schematic : Schematic) (names : List ElementName) :
    (CmdSchematicEdit.prepared schematic names).mSchematic = schematic ∧
    (CmdSchematicEdit.prepared schematic names).mOldName = schematic.getName := by
  have key : ∀ (cmd : CmdSchematicEdit),
      (names.foldl CmdSchematicEdit.setName cmd).mSchematic = cmd.mSchematic ∧
      (names.foldl CmdSchematicEdit.setName cmd).mOldName = cmd.mOldName := by
    induction names with
    | nil => intro cmd; exact ⟨rfl, rfl⟩
    | cons n rest ih =>
      intro cmd
      simp only [List.foldl_cons]
      exact ih (cmd.setName n)
  exact key _

/-- C14, as the code has it: for every effective `CmdSchematicEdit` (the new
name differs from the old name), `performExecute` returns true and
`performExecute` followed by `performUndo` leaves the schematic with the old
name, which is the name the schematic had when the command was constructed
(calls of `setName` on the command do not change it).  This is the name the
schematic had immediately before `performExecute` exactly when the schematic
still had the captured name then; in that case the schematic is as it was
before `performExecute`, as it is for a command executed on the schematic it
was constructed for with no rename in between. -/
theorem CmdSchematicEdit.undo_restores_captured_name (cmd : CmdSchematicEdit)
    (heffective : cmd.mNewName ≠ cmd.mOldName) :
    cmd.performExecute.1 = true ∧
    cmd.performExecute.2.performUndo.mSchematic.getName = cmd.mOldName ∧
    (cmd.performExecute.2.performUndo.mSchematic.getName = cmd.mSchematic.getName ↔
      cmd.mSchematic.getName = cmd.mOldName) ∧
    (cmd.mSchematic.getName = cmd.mOldName →
      cmd.performExecute.2.performUndo.mSchematic = cmd.mSchematic) ∧
    (∀ (schematic : Schematic) (names renames : List ElementName),
      (renames.foldl CmdSchematicEdit.renamedElsewhere
        (CmdSchematicEdit.prepared schematic names)).mOldName = schematic.getName ∧
      (cmd = CmdSchematicEdit.prepared schematic names →
        cmd.performExecute.2.performUndo.mSchematic = schematic)) := by
  have hold : ∀ (renames : List ElementName) (c : CmdSchematicEdit),
      (renames.foldl CmdSchematicEdit.renamedElsewhere c).mOldName = c.mOldName := by
    intro renames
    induction renames with
    | nil => intro c; rfl
    | cons r rest ih =>
      intro c
      simp only [List.foldl_cons]
      exact ih (c.renamedElsewhere r)
  refine ⟨?_, ?_, ?_, ?_, ?_⟩
  · simp [CmdSchematicEdit.performExecute, CmdSchematicEdit.performRedo, heffective]
  · simp [CmdSchematicEdit.performExecute, CmdSchematicEdit.performRedo,
      CmdSchematicEdit.performUndo, Schematic.setName, Schematic.getName, heffective]
  · simp only [CmdSchematicEdit.performExecute, CmdSchematicEdit.performRedo,
      CmdSchematicEdit.performUndo, Schematic.setName, Schematic.getName]
    split <;> exact eq_comm
  · intro h
    obtain ⟨⟨s⟩, o, n⟩ := cmd
    simp only [Schematic.getName] at h
    subst h
    have hne : n ≠ s := heffective
    simp [CmdSchematicEdit.performExecute, CmdSchematicEdit.performRedo,
      CmdSchematicEdit.performUndo, Schematic.setName, hne]
  · intro schematic names renames
    obtain ⟨h1, h2⟩ := CmdSchematicEdit.prepared_frame schematic names
    refine ⟨(hold renames _).trans h2, ?_⟩
    intro hc
    subst hc
    generalize CmdSchematicEdit.prepared schematic names = cmd at *
    obtain ⟨⟨s⟩, o, n⟩ := cmd
    simp only [Schematic.getName] at h1 h2
    subst h1 h2
    have hne : n ≠ o := heffective
    simp [CmdSchematicEdit.performExecute, CmdSchematicEdit.performRedo,
      CmdSchematicEdit.performUndo, Schematic.setName, hne]

/-- Witness for C14: renaming the sheet "Main" to "Power", once right after
construction and once after the sheet has been renamed to "Other" by other
code: undo gives "Main" both times. -/
theorem CmdSchematicEdit.undo_restores_captured_name_witness :
    (CmdSchematicEdit.prepared ⟨"Main"⟩ ["Power"]).mNewName ≠
      (CmdSchematicEdit.prepared ⟨"Main"⟩ ["Power"]).mOldName ∧
    (CmdSchematicEdit.prepared ⟨"Main"⟩ ["Power"]).performExecute.2.mSchematic.getName =
      "Power" ∧
    (CmdSchematicEdit.prepared ⟨"Main"⟩ ["Power"]).performExecute.2.performUndo.mSchematic =
      ⟨"Main"⟩ ∧
    ((CmdSchematicEdit.prepared ⟨"Main"⟩ ["Power"]).renamedElsewhere
      "Other").performExecute.2.performUndo.mSchematic.getName = "Main" :=
  ⟨by decide, by decide,
    (CmdSchematicEdit.undo_restores_captured_name (CmdSchematicEdit.prepared ⟨"Main"⟩ ["Power"])
      (by decide)).2.2.2.1 (by decide),
    (CmdSchematicEdit.undo_restores_captured_name
      ((CmdSchematicEdit.prepared ⟨"Main"⟩ ["Power"]).renamedElsewhere "Other")
      (by decide)).2.1⟩

/-- C14, counterexample: a command is constructed for the sheet "Main" and
given the new name "Power"; before it is executed, a second command on the
same sheet renames the sheet to "Other".  The first command is effective, the
sheet is called "Other" immediately before its `performExecute`, and after
`performExecute` and `performUndo` the sheet is called "Main". -/
theorem CmdSchematicEdit.undo_after_rename_elsewhere :
    (CmdSchematicEdit.prepared ⟨"Main"⟩ ["Other"]).performExecute.2.mSchematic =
      (CmdSchematicEdit.prepared ⟨"Main"⟩ ["Power"]).mSchematic.setName "Other" ∧
    ((CmdSchematicEdit.prepared ⟨"Main"⟩ ["Power"]).renamedElsewhere "Other").mNewName ≠
      ((CmdSchematicEdit.prepared ⟨"Main"⟩ ["Power"]).renamedElsewhere "Other").mOldName ∧
    ((CmdSchematicEdit.prepared ⟨"Main"⟩ ["Power"]).renamedElsewhere
      "Other").mSchematic.getName = "Other" ∧
    ((CmdSchematicEdit.prepared ⟨"Main"⟩ ["Power"]).renamedElsewhere
      "Other").performExecute.1 = true ∧
    ((CmdSchematicEdit.prepared ⟨"Main"⟩ ["Power"]).renamedElsewhere
      "Other").performExecute.2.performUndo.mSchematic.getName = "Main" ∧
    ((CmdSchematicEdit.prepared ⟨"Main"⟩ ["Power"]).renamedElsewhere
        "Other").performExecute.2.performUndo.mSchematic.getName ≠
      ((CmdSchematicEdit.prepared ⟨"Main"⟩ ["Power"]).renamedElsewhere
        "Other").mSchematic.getName := by
  decide

/-- C15: for every effective `CmdSchematicEdit`, `performExecute`, then
`performUndo`, then `performRedo` leaves the schematic with the name it had
immediately after `performExecute`, which is the new name set on the
command. -/
theorem CmdSchematicEdit.redo_after_undo (schematic : Schematic) (names : List ElementName)
    (heffective : (CmdSchematicEdit.prepared schematic names).mNewName ≠
      (CmdSchematicEdit.prepared schematic names).mOldName) :
    (CmdSchematicEdit.prepared schematic
        names).performExecute.2.performUndo.performRedo.mSchematic.getName =
      (CmdSchematicEdit.prepared schematic names).performExecute.2.mSchematic.getName ∧
    (CmdSchematicEdit.prepared schematic
        names).performExecute.2.performUndo.performRedo.mSchematic.getName =
      (CmdSchematicEdit.prepared schematic names).mNewName ∧
    (CmdSchematicEdit.prepared schematic names).performExecute.2.performUndo.performRedo =
      (CmdSchematicEdit.prepared schematic names).performExecute.2 := by
  generalize CmdSchematicEdit.prepared schematic names = cmd at *
  obtain ⟨s, o, n⟩ := cmd
  simp only at heffective
  simp [CmdSchematicEdit.performExecute, CmdSchematicEdit.performRedo,
    CmdSchematicEdit.performUndo, Schematic.setName, Schematic.getName, heffective]

/-- Witness for C15: renaming the sheet "Main" to "Power". -/
theorem CmdSchematicEdit.redo_after_undo_witness :
    (CmdSchematicEdit.prepared ⟨"Main"⟩ ["Power"]).mNewName ≠
      (CmdSchematicEdit.prepared ⟨"Main"⟩ ["Power"]).mOldName ∧
    (CmdSchematicEdit.prepared ⟨"Main"⟩
        ["Power"]).performExecute.2.performUndo.performRedo.mSchematic.getName =
      (CmdSchematicEdit.prepared ⟨"Main"⟩ ["Power"]).mNewName :=
  ⟨by decide, (CmdSchematicEdit.redo_after_undo ⟨"Main"⟩ ["Power"] (by decide)).2.1⟩

/-- Removing the entry appended last gives back the list. -/
theorem eraseIdx_append_singleton {α : Type} (l : List α) (a : α) :
    (l ++ [a]).eraseIdx l.length = l := by
  induction l with
  | nil => rfl
  | cons x xs ih => simp [List.eraseIdx, ih]

/-- What a successful `startAddPad` has done: no group was open before, the
footprint exists, one group is open now with the insert command as its only
child, the new pad is the last entry of the pad list, and exactly the calls
`beginCmdGroup` and the append of the insert command were made. -/
theorem PackageEditorState_AddPads.startAddPad_ok (pos : Point) (uuid : Uuid)
    (faults : StackFaults) (st : PackageEditorState_AddPads)
    (h : (st.startAddPad pos uuid faults).1 = true) :
    st.mContext.undoStack.group = none ∧
    ∃ footprint pad, st.mContext.currentFootprint = some footprint ∧
      (st.startAddPad pos uuid faults).2.mCurrentPad = some pad ∧
      (st.startAddPad pos uuid faults).2.mEditCmd =
        some (UndoCommand.CmdFootprintPadEdit footprint.getPads.length pad pad) ∧
      (st.startAddPad pos uuid faults).2.mContext =
        { st.mContext with
          currentFootprint := some { footprint with getPads := footprint.getPads ++ [pad] }
          undoStack := { st.mContext.undoStack with
            group := some [UndoCommand.CmdFootprintPadInsert pad footprint.getPads.length] } } ∧
      (st.startAddPad pos uuid faults).2.trace =
        st.trace ++ [(StackCall.beginCmdGroup, true), (StackCall.appendInsert, true)] := by
  obtain ⟨⟨pkg, fpt, ⟨past, future, group⟩⟩, cur, gi, box, last, edit, tr⟩ := st
  cases group <;> cases fpt <;> cases hb : faults StackCall.beginCmdGroup <;>
    cases ha : faults StackCall.appendInsert <;>
    simp [PackageEditorState_AddPads.startAddPad, PackageEditorState_AddPads.startAddPadFailed,
      Context.beginCmdGroup, Context.appendToCmdGroup, UndoCommand.execute, hb, ha] at h ⊢

/-- What a successful `abortAddPad` has done: the group that was open is
gone, its children are undone, and exactly the call `abortCmdGroup` was made. -/
theorem PackageEditorState_AddPads.abortAddPad_ok (faults : StackFaults)
    (st : PackageEditorState_AddPads) (h : (st.abortAddPad faults).1 = true) :
    ∃ children footprint, st.mContext.undoStack.group = some children ∧
      st.mContext.currentFootprint = some footprint ∧
      (st.abortAddPad faults).2.mCurrentPad = none ∧
      (st.abortAddPad faults).2.mEditCmd = none ∧
      (st.abortAddPad faults).2.mContext =
        { st.mContext with
          currentFootprint := some { footprint with
            getPads := children.reverse.foldl (fun pads cmd => cmd.undo pads) footprint.getPads }
          undoStack := { st.mContext.undoStack with group := none } } ∧
      (st.abortAddPad faults).2.trace = st.trace ++ [(StackCall.abortCmdGroup, true)] := by
  obtain ⟨⟨pkg, fpt, ⟨past, future, group⟩⟩, cur, gi, box, last, edit, tr⟩ := st
  cases group <;> cases fpt <;> cases cur <;> cases hb : faults StackCall.abortCmdGroup <;>
    simp [PackageEditorState_AddPads.abortAddPad, Context.abortCmdGroup, hb] at h ⊢

/-- C17: a successful `startAddPad` followed by a successful `abortAddPad`
leaves the pad count of the current footprint (indeed its pad list) as it was
before `startAddPad`, leaves no command group open, and adds no entry to the
undo stack. -/
theorem PackageEditorState_AddPads.start_then_abort (pos : Point) (uuid : Uuid)
    (faults faults2 : StackFaults) (st : PackageEditorState_AddPads)
    (hstart : (st.startAddPad pos uuid faults).1 = true)
    (habort : ((st.startAddPad pos uuid faults).2.abortAddPad faults2).1 = true) :
    (((st.startAddPad pos uuid faults).2.abortAddPad faults2).2.mContext.currentFootprint.map
      fun f => f.getPads.length) = (st.mContext.currentFootprint.map fun f => f.getPads.length) ∧
    ((st.startAddPad pos uuid faults).2.abortAddPad faults2).2.mContext.currentFootprint =
      st.mContext.currentFootprint ∧
    ((st.startAddPad pos uuid faults).2.abortAddPad faults2).2.mContext.undoStack.group = none ∧
    ((st.startAddPad pos uuid faults).2.abortAddPad faults2).2.mContext.undoStack.past =
      st.mContext.undoStack.past ∧
    ((st.startAddPad pos uuid faults).2.abortAddPad faults2).2.mContext.undoStack.future =
      st.mContext.undoStack.future := by
  obtain ⟨hg, footprint, pad, hf, -, -, hctx, -⟩ :=
    PackageEditorState_AddPads.startAddPad_ok pos uuid faults st hstart
  obtain ⟨children, footprint2, hg2, hf2, -, -, hctx2, -⟩ :=
    PackageEditorState_AddPads.abortAddPad_ok faults2 _ habort
  rw [hctx] at hg2 hf2
  simp only [Option.some.injEq] at hg2 hf2
  subst hg2 hf2
  have hpads : ((st.startAddPad pos uuid faults).2.abortAddPad
      faults2).2.mContext.currentFootprint = st.mContext.currentFootprint := by
    rw [hctx2, hctx, hf]
    simp [UndoCommand.undo, eraseIdx_append_singleton]
  refine ⟨by rw [hpads], hpads, ?_, ?_, ?_⟩
  · rw [hctx2]
  · rw [hctx2, hctx]
  · rw [hctx2, hctx]

/-- The phase after more calls is the phase after the first calls, continued. -/
theorem Phase.after_append (start : Option Phase) (l1 l2 : List StackCall) :
    Phase.after start (l1 ++ l2) = Phase.after (Phase.after start l1) l2 := by
  simp [Phase.after, List.foldl_append]

/-- Selecting the next free pad touches only the package pad box. -/
theorem PackageEditorState_AddPads.selectNextFreePadInComboBox_frame
    (st : PackageEditorState_AddPads) :
    st.selectNextFreePadInComboBox =
      { st with mPackagePadComboBox := st.selectNextFreePadInComboBox.mPackagePadComboBox } := by
  simp only [PackageEditorState_AddPads.selectNextFreePadInComboBox]
  split <;> rfl

/-- What `finishAddPad` does when a current pad and its edit command exist:
the current pad is gone afterwards; on success the open group is closed and
exactly the append of the edit command and `commitCmdGroup` were made; on
failure a group that was open is still open. -/
theorem PackageEditorState_AddPads.finishAddPad_spec (pos : Point) (faults : StackFaults)
    (st : PackageEditorState_AddPads) (hcur : st.mCurrentPad.isSome = true)
    (hedit : st.mEditCmd.isSome = true) :
    (st.finishAddPad pos faults).2.mCurrentPad = none ∧
    (st.finishAddPad pos faults).2.mEditCmd = none ∧
    ((st.finishAddPad pos faults).1 = true →
      st.mContext.undoStack.group.isSome = true ∧
      (st.finishAddPad pos faults).2.mContext.undoStack.group = none ∧
      (st.finishAddPad pos faults).2.trace =
        st.trace ++ [(StackCall.appendEdit, true), (StackCall.commitCmdGroup, true)]) ∧
    ((st.finishAddPad pos faults).1 = false → st.mContext.undoStack.group.isSome = true →
      (st.finishAddPad pos faults).2.mContext.undoStack.group.isSome = true) := by
  obtain ⟨⟨pkg, fpt, ⟨past, future, group⟩⟩, cur, gi, box, last, edit, tr⟩ := st
  cases cur with
  | none => simp at hcur
  | some pad =>
    cases edit with
    | none => simp at hedit
    | some cmd =>
      cases cmd <;> cases group <;> cases fpt <;> cases ha : faults StackCall.appendEdit <;>
        cases hc : faults StackCall.commitCmdGroup <;>
        simp [PackageEditorState_AddPads.finishAddPad, PackageEditorState_AddPads.editSetPosition,
          PackageEditorState_AddPads.selectNextFreePadInComboBox,
          Context.appendToCmdGroup, Context.commitCmdGroup, UndoCommand.execute, ha, hc,
          apply_ite UndoStack.group] <;>
        split <;> simp [apply_ite UndoStack.group]

/-- A successful `startAddPad` from a boundary without placement in progress
leads to a consistent boundary with a placement in progress. -/
theorem PackageEditorState_AddPads.startAddPad_consistent (pos : Point) (uuid : Uuid)
    (faults : StackFaults) (st : PackageEditorState_AddPads)
    (htr : ∀ c ∈ st.trace, c.2 = true)
    (hph : Phase.after (some Phase.idle) (st.trace.map Prod.fst) = some Phase.idle)
    (h : (st.startAddPad pos uuid faults).1 = true) :
    (st.startAddPad pos uuid faults).2.Consistent := by
  obtain ⟨-, footprint, pad, -, hcur, hedit, hctx, htrace⟩ :=
    PackageEditorState_AddPads.startAddPad_ok pos uuid faults st h
  refine ⟨?_, ?_, ?_, ?_⟩
  · rw [hctx, hcur]; rfl
  · intro _; rw [hedit]; rfl
  · intro c hc
    rw [htrace] at hc
    simp only [List.mem_append, List.mem_cons, List.mem_singleton, List.not_mem_nil,
      or_false] at hc
    rcases hc with hc | rfl | rfl
    · exact htr c hc
    · rfl
    · rfl
  · rw [htrace, hcur, List.map_append, Phase.after_append, hph]
    rfl

/-- Every event handler that returns true leads from a consistent boundary to
a consistent boundary. -/
theorem PackageEditorState_AddPads.process_consistent (st : PackageEditorState_AddPads)
    (ev : ToolEvent) (hst : st.Consistent) (h : (st.process ev).1 = true) :
    (st.process ev).2.Consistent := by
  obtain ⟨hgrp, hedit, htr, hph⟩ := hst
  cases ev with
  | entry pos uuid faults =>
    simp only [PackageEditorState_AddPads.process, PackageEditorState_AddPads.entry] at h ⊢
    have hframe := PackageEditorState_AddPads.selectNextFreePadInComboBox_frame
      { st with mPackagePadComboBox := some none }
    have hg := (PackageEditorState_AddPads.startAddPad_ok pos uuid faults _ h).1
    rw [hframe] at hg
    simp only at hg
    have hcur : st.mCurrentPad.isSome = false := by rw [← hgrp, hg]; rfl
    apply PackageEditorState_AddPads.startAddPad_consistent _ _ _ _ _ _ h
    · rw [hframe]; exact htr
    · rw [hframe]; simpa [hcur] using hph
  | leftClick pos uuid faults =>
    simp only [PackageEditorState_AddPads.process,
      PackageEditorState_AddPads.processGraphicsSceneLeftMouseButtonPressed] at h ⊢
    cases hc : st.mCurrentPad with
    | none =>
      simp only [hc] at h ⊢
      apply PackageEditorState_AddPads.startAddPad_consistent _ _ _ _ htr _ h
      simpa [hc] using hph
    | some pad =>
      simp only [hc] at h ⊢
      have hcs : st.mCurrentPad.isSome = true := by rw [hc]; rfl
      obtain ⟨-, -, hok, hfail⟩ :=
        PackageEditorState_AddPads.finishAddPad_spec pos faults st hcs (hedit hcs)
      have hg := (PackageEditorState_AddPads.startAddPad_ok pos uuid faults _ h).1
      cases hf : (st.finishAddPad pos faults).1 with
      | false =>
        have := hfail hf (by rw [hgrp]; exact hcs)
        rw [hg] at this
        simp at this
      | true =>
        obtain ⟨-, -, htrace⟩ := hok hf
        apply PackageEditorState_AddPads.startAddPad_consistent _ _ _ _ _ _ h
        · intro c hcm
          rw [htrace] at hcm
          simp only [List.mem_append, List.mem_cons, List.mem_singleton, List.not_mem_nil,
            or_false] at hcm
          rcases hcm with hcm | rfl | rfl
          · exact htr c hcm
          · rfl
          · rfl
        · rw [htrace, List.map_append, Phase.after_append, hph, hcs]
          rfl
  | exit faults =>
    simp only [PackageEditorState_AddPads.process, PackageEditorState_AddPads.exit] at h ⊢
    cases hc : st.mCurrentPad with
    | none =>
      simp only [hc]
      refine ⟨?_, ?_, htr, ?_⟩
      · simpa [hc] using hgrp
      · simp [hc]
      · simpa [hc] using hph
    | some pad =>
      simp only [hc] at h ⊢
      have hcs : st.mCurrentPad.isSome = true := by rw [hc]; rfl
      cases ha : (st.abortAddPad faults).1 with
      | false =>
        have hsplit : st.abortAddPad faults = (false, (st.abortAddPad faults).2) := by
          rw [← ha]
        rw [hsplit] at h
        simp at h
      | true =>
        have hsplit : st.abortAddPad faults = (true, (st.abortAddPad faults).2) := by
          rw [← ha]
        obtain ⟨children, footprint, -, -, hcur, hed, hctx, htrace⟩ :=
          PackageEditorState_AddPads.abortAddPad_ok faults st ha
        rw [hsplit]
        refine ⟨?_, ?_, ?_, ?_⟩
        · simp only [hctx, hcur]; rfl
        · intro hx; simp only [hcur] at hx; simp at hx
        · intro c hcm
          simp only [htrace, List.mem_append, List.mem_singleton] at hcm
          rcases hcm with hcm | rfl
          · exact htr c hcm
          · rfl
        · simp only [htrace, hcur, List.map_append, Phase.after_append, hph, hcs]
          rfl

/-- A run in which every handler returns true leads from a consistent boundary
to a consistent boundary. -/
theorem PackageEditorState_AddPads.run_consistent (events : List ToolEvent)
    (st : PackageEditorState_AddPads) (hst : st.Consistent) (h : (st.run events).1 = true) :
    (st.run events).2.Consistent := by
  induction events generalizing st with
  | nil => exact hst
  | cons ev rest ih =>
    simp only [PackageEditorState_AddPads.run, Bool.and_eq_true] at h ⊢
    exact ih _ (PackageEditorState_AddPads.process_consistent st ev hst h.1) h.2

/-- Witness for C17: on the sample tool, starting a pad and aborting it leaves
the one pad of the footprint and an empty undo stack. -/
theorem PackageEditorState_AddPads.start_then_abort_witness :
    (sampleTool.startAddPad (0, 0) 41 noStackFaults).1 = true ∧
    ((sampleTool.startAddPad (0, 0) 41 noStackFaults).2.abortAddPad noStackFaults).1 = true ∧
    ((sampleTool.startAddPad (0, 0) 41 noStackFaults).2.mContext.currentFootprint.map
      fun f => f.getPads.length) = some 2 ∧
    (((sampleTool.startAddPad (0, 0) 41 noStackFaults).2.abortAddPad
      noStackFaults).2.mContext.currentFootprint.map fun f => f.getPads.length) = some 1 ∧
    ((sampleTool.startAddPad (0, 0) 41 noStackFaults).2.abortAddPad
      noStackFaults).2.mContext.undoStack.past = [] :=
  ⟨by decide, by decide, by decide,
    (PackageEditorState_AddPads.start_then_abort (0, 0) 41 noStackFaults noStackFaults sampleTool
      (by decide) (by decide)).1.trans (by decide),
    (PackageEditorState_AddPads.start_then_abort (0, 0) 41 noStackFaults noStackFaults sampleTool
      (by decide) (by decide)).2.2.2.1.trans (by decide)⟩

/-- C18: in every sequence of the events entry, left click and exit in which
every handler returns true, started without current pad and without open
group, every call on the undo stack returns normally and the calls are whole
placements (`beginCmdGroup`, append of the insert command, then either append
of the edit command and `commitCmdGroup`, or `abortCmdGroup`), followed by the
begin of one exactly if a current pad exists; a command group is open exactly
while a current pad exists.  A successful `startAddPad` makes exactly the calls
`beginCmdGroup` and the append of one insert command, a successful
`finishAddPad` exactly the append of the pending edit command and
`commitCmdGroup`, and a successful `abortAddPad` exactly `abortCmdGroup`. -/
theorem PackageEditorState_AddPads.one_group_per_placement (st0 : PackageEditorState_AddPads)
    (events : List ToolEvent) (hpad : st0.mCurrentPad = none)
    (hgroup : st0.mContext.undoStack.group = none) (htrace : st0.trace = [])
    (hrun : (st0.run events).1 = true) :
    ((st0.run events).2.mContext.undoStack.group.isSome =
      (st0.run events).2.mCurrentPad.isSome) ∧
    (∀ c ∈ (st0.run events).2.trace, c.2 = true) ∧
    Phase.after (some Phase.idle) ((st0.run events).2.trace.map Prod.fst) =
      some (if (st0.run events).2.mCurrentPad.isSome then Phase.placing else Phase.idle) ∧
    (∀ (st : PackageEditorState_AddPads) (pos : Point) (uuid : Uuid) (faults : StackFaults),
      (st.startAddPad pos uuid faults).1 = true →
      (st.startAddPad pos uuid faults).2.trace =
        st.trace ++ [(StackCall.beginCmdGroup, true), (StackCall.appendInsert, true)]) ∧
    (∀ (st : PackageEditorState_AddPads) (pos : Point) (faults : StackFaults),
      st.mCurrentPad.isSome = true → st.mEditCmd.isSome = true →
      (st.finishAddPad pos faults).1 = true →
      (st.finishAddPad pos faults).2.trace =
        st.trace ++ [(StackCall.appendEdit, true), (StackCall.commitCmdGroup, true)]) ∧
    (∀ (st : PackageEditorState_AddPads) (faults : StackFaults),
      (st.abortAddPad faults).1 = true →
      (st.abortAddPad faults).2.trace = st.trace ++ [(StackCall.abortCmdGroup, true)]) := by
  have h0 : st0.Consistent := by
    refine ⟨by rw [hpad, hgroup]; rfl, by rw [hpad]; simp, by rw [htrace]; simp, ?_⟩
    rw [htrace, hpad]
    rfl
  obtain ⟨h1, -, h3, h4⟩ := PackageEditorState_AddPads.run_consistent events st0 h0 hrun
  refine ⟨h1, h3, h4, ?_, ?_, ?_⟩
  · intro st pos uuid faults h
    obtain ⟨-, _, _, -, -, -, -, ht⟩ :=
      PackageEditorState_AddPads.startAddPad_ok pos uuid faults st h
    exact ht
  · intro st pos faults hc he h
    exact ((PackageEditorState_AddPads.finishAddPad_spec pos faults st hc he).2.2.1 h).2.2
  · intro st faults h
    obtain ⟨_, _, -, -, -, -, -, ht⟩ := PackageEditorState_AddPads.abortAddPad_ok faults st h
    exact ht

/-- Witness for C18: entering the tool, placing two pads and leaving it. -/
theorem PackageEditorState_AddPads.one_group_per_placement_witness :
    sampleTool.mCurrentPad = none ∧ sampleTool.mContext.undoStack.group = none ∧
    sampleTool.trace = [] ∧ (sampleTool.run sampleEvents).1 = true ∧
    (sampleTool.run sampleEvents).2.trace.length = 11 ∧
    (sampleTool.run sampleEvents).2.mContext.undoStack.group.isSome =
      (sampleTool.run sampleEvents).2.mCurrentPad.isSome :=
  ⟨rfl, rfl, rfl, by decide, by decide,
    (PackageEditorState_AddPads.one_group_per_placement sampleTool sampleEvents rfl rfl rfl
      (by decide)).1⟩

/-! ## The pad map after construction -/

/-- Setting every attached flag leaves the pad map's keys and objects. -/
theorem BI_Footprint.padObjects_setAllAttached (v : Bool) (fp : BI_Footprint) :
    (fp.setAllAttached v).padObjects = fp.padObjects := by
  simp [BI_Footprint.padObjects, BI_Footprint.setAllAttached, BI_FootprintPad.setAttached,
    Function.comp_def]

/-- The guarded body of `addToBoard`/`removeFromBoard` leaves the pad map's
keys and objects, whether it throws or not. -/
theorem BI_Footprint.padObjects_applyToBoard (op : Op) (faults : Target → Option Error)
    (fp : BI_Footprint) : (fp.applyToBoard op faults).fp.padObjects = fp.padObjects := by
  cases h : (fp.applyToBoard op faults).thrown with
  | none =>
    rw [(BI_Footprint.applyToBoard_success op faults fp h).1]
    exact BI_Footprint.padObjects_setAllAttached _ _
  | some e =>
    rw [BI_Footprint.applyToBoard_failure op faults fp (by rw [h]; simp)]

/-- `addStrokeText` changes at most the list of stroke texts. -/
theorem BI_Footprint.addStrokeText_frame (fault : Option Error) (fp : BI_Footprint)
    (text : BI_StrokeText) :
    (fp.addStrokeText fault text).fp =
      { fp with mStrokeTexts := (fp.addStrokeText fault text).fp.mStrokeTexts } := by
  simp only [BI_Footprint.addStrokeText]
  split
  · rfl
  · split
    · split <;> rfl
    · rfl

/-- `removeStrokeText` changes at most the list of stroke texts. -/
theorem BI_Footprint.removeStrokeText_frame (fault : Option Error) (fp : BI_Footprint)
    (text : BI_StrokeText) :
    (fp.removeStrokeText fault text).fp =
      { fp with mStrokeTexts := (fp.removeStrokeText fault text).fp.mStrokeTexts } := by
  simp only [BI_Footprint.removeStrokeText]
  split
  · rfl
  · split
    · split <;> rfl
    · rfl

/-- C19: no operation on a constructed footprint (`addStrokeText`,
`removeStrokeText`, `addToBoard`, `removeFromBoard`, `setSelected`, the three
device handlers, `serialize`), whether it succeeds or fails, changes the key
set of the pad map or the pad object a key maps to. -/
theorem BI_Footprint.pad_map_fixed (fp : BI_Footprint) (fault : Option Error)
    (faults : Target → Option Error) (text : BI_StrokeText) (selected : Bool)
    (place : BI_Device → Uuid → Point × Angle) (pos : Point) (rot : Angle) (mirrored : Bool)
    {SExpression : Type} (ser : SExpression → List BI_StrokeText → SExpression)
    (root : SExpression) :
    (fp.addStrokeText fault text).fp.padObjects = fp.padObjects ∧
    (fp.removeStrokeText fault text).fp.padObjects = fp.padObjects ∧
    (fp.addToBoard faults).fp.padObjects = fp.padObjects ∧
    (fp.removeFromBoard faults).fp.padObjects = fp.padObjects ∧
    (fp.setSelected selected).padObjects = fp.padObjects ∧
    (fp.deviceInstanceMoved place pos).1.padObjects = fp.padObjects ∧
    (fp.deviceInstanceRotated place rot).1.padObjects = fp.padObjects ∧
    (fp.deviceInstanceMirrored place mirrored).1.padObjects = fp.padObjects ∧
    (fp.serialize ser root).2.padObjects = fp.padObjects := by
  have hu := (BI_Footprint.updatePads_spec place fp.mDevice 0 fp.mPads).1
  refine ⟨?_, ?_, ?_, ?_, ?_, ?_, ?_, ?_, rfl⟩
  · rw [BI_Footprint.addStrokeText_frame]; rfl
  · rw [BI_Footprint.removeStrokeText_frame]; rfl
  · simp only [BI_Footprint.addToBoard]
    split
    · rfl
    · exact BI_Footprint.padObjects_applyToBoard _ _ _
  · simp only [BI_Footprint.removeFromBoard]
    split
    · rfl
    · exact BI_Footprint.padObjects_applyToBoard _ _ _
  · simp [BI_Footprint.padObjects, BI_Footprint.setSelected, Function.comp_def]
  · simp [BI_Footprint.padObjects, BI_Footprint.deviceInstanceMoved, hu, Function.comp_def,
      BI_FootprintPad.updatePosition]
  · simp [BI_Footprint.padObjects, BI_Footprint.deviceInstanceRotated, hu, Function.comp_def,
      BI_FootprintPad.updatePosition]
  · simp [BI_Footprint.padObjects, BI_Footprint.deviceInstanceMirrored, hu, Function.comp_def,
      BI_FootprintPad.updatePosition]

/-! ## Order of the stroke texts -/

/-- During construction a freshly created text is appended without exception. -/
theorem BI_Footprint.addStrokeText_fresh (fault : Option Error) (b : Building)
    (h : b.TextsBelowHeap) (text : StrokeText) :
    b.fp.addStrokeText fault (BI_StrokeText.new b.heap b.fp.mBoard text) =
      { thrown := none
        fp := { b.fp with mStrokeTexts := b.fp.mStrokeTexts ++
          [(BI_StrokeText.new b.heap b.fp.mBoard text).setFootprint (some b.fp.addr)] }
        text := (BI_StrokeText.new b.heap b.fp.mBoard text).setFootprint (some b.fp.addr) } := by
  have hany : (b.fp.mStrokeTexts.any fun t => t.addr == b.heap) = false := by
    rw [List.any_eq_false]
    intro t ht
    have := h.2 t ht
    simp only [beq_iff_eq]
    omega
  simp [BI_Footprint.addStrokeText, BI_StrokeText.new, hany, h.1]

/-- When the text loop of a constructor returns normally, it has appended one
stroke text per source, in the order of the sources, each owning the text of
its source. -/
theorem BI_Footprint.createStrokeTexts_ok (fault : Option Error)
    (sources : List (Except Error StrokeText)) (b : Building) (h : b.TextsBelowHeap)
    (hok : (BI_Footprint.createStrokeTexts fault sources b).1 = none) :
    ∃ news : List BI_StrokeText,
      (BI_Footprint.createStrokeTexts fault sources b).2.fp.mStrokeTexts =
        b.fp.mStrokeTexts ++ news ∧
      sources = news.map (fun t => Except.ok t.mText) := by
  induction sources generalizing b with
  | nil => exact ⟨[], by simp [BI_Footprint.createStrokeTexts], rfl⟩
  | cons item rest ih =>
    cases item with
    | error e => simp [BI_Footprint.createStrokeTexts] at hok
    | ok text =>
      simp only [BI_Footprint.createStrokeTexts, BI_Footprint.addStrokeText_fresh fault b h]
        at hok ⊢
      obtain ⟨news, h1, h2⟩ := ih
        { fp := { b.fp with mStrokeTexts := b.fp.mStrokeTexts ++
            [(BI_StrokeText.new b.heap b.fp.mBoard text).setFootprint (some b.fp.addr)] },
          heap := b.heap + 1, allocated := b.allocated ++ [b.heap] }
        (by
          refine ⟨h.1, ?_⟩
          intro t ht
          simp only [List.mem_append, List.mem_singleton] at ht
          rcases ht with ht | rfl
          · exact Nat.lt_succ_of_lt (h.2 t ht)
          · simp [BI_StrokeText.setFootprint, BI_StrokeText.new])
        hok
      refine ⟨(BI_StrokeText.new b.heap b.fp.mBoard text).setFootprint (some b.fp.addr) :: news,
        ?_, ?_⟩
      · rw [h1]; simp
      · simp [h2, BI_StrokeText.setFootprint, BI_StrokeText.new]

/-- The pad loop does not touch the stroke texts. -/
theorem BI_Footprint.loadPads_texts (l : List FootprintPad) (b : Building) :
    (BI_Footprint.loadPads l b).2.fp.mStrokeTexts = b.fp.mStrokeTexts := by
  induction l generalizing b with
  | nil => rfl
  | cons p rest ih =>
    simp only [BI_Footprint.loadPads]
    split
    · rfl
    · split
      · rfl
      · split
        · rfl
        · rw [ih]

/-- A constructor body that returns normally leaves one stroke text per source,
in the order of the sources. -/
theorem BI_Footprint.construct_texts (fault : Option Error)
    (sources : List (Except Error StrokeText)) (this heap : Nat) (device : BI_Device)
    (hok : (BI_Footprint.construct fault sources
      { fp := BI_Footprint.initial this device, heap := heap, allocated := [] }).thrown = none) :
    sources = (BI_Footprint.construct fault sources
      { fp := BI_Footprint.initial this device, heap := heap,
        allocated := [] }).self.mStrokeTexts.map (fun t => Except.ok t.mText) := by
  have h0 : Building.TextsBelowHeap
      { fp := BI_Footprint.initial this device, heap := heap, allocated := [] } := by
    simp [Building.TextsBelowHeap, BI_Footprint.initial, BI_Footprint.isAddedToBoard]
  simp only [BI_Footprint.construct] at hok ⊢
  split
  · rename_i e b1 heq
    simp [heq, Building.catchAll] at hok
  · rename_i b1 heq
    obtain ⟨news, h1, h2⟩ := BI_Footprint.createStrokeTexts_ok fault sources _ h0 (by rw [heq])
    rw [heq] at h1
    simp only [BI_Footprint.initial, List.nil_append] at h1
    split
    · rename_i e b2 heq2
      simp [heq, heq2, Building.catchAll] at hok
    · rename_i b2 heq2
      have h3 : b2.fp.mStrokeTexts = b1.fp.mStrokeTexts := by
        have := BI_Footprint.loadPads_texts b1.fp.getLibFootprint.getPads
          { b1 with fp := { b1.fp with mGraphicsItem := true } }
        have hinit : BI_Footprint.init b1 = BI_Footprint.loadPads b1.fp.getLibFootprint.getPads
          { b1 with fp := { b1.fp with mGraphicsItem := true } } := rfl
        rw [← hinit, heq2] at this
        exact this
      simp only [h3, h1]
      exact h2

/-- Two lists with the same image under `Except.ok` are equal. -/
theorem map_ok_injective (ε : Type) {α : Type} {l1 l2 : List α}
    (h : l1.map (fun x => (Except.ok x : Except ε α)) = l2.map (fun x => Except.ok x)) :
    l1 = l2 := by
  induction l1 generalizing l2 with
  | nil => cases l2 with
    | nil => rfl
    | cons y ys => simp at h
  | cons x xs ih => cases l2 with
    | nil => simp at h
    | cons y ys =>
      simp only [List.map_cons, List.cons.injEq, Except.ok.injEq] at h
      rw [h.1, ih h.2]

/-- C20: the stroke text collection keeps insertion order.  A successful
`addStrokeText` appends the text at the end; a successful `removeStrokeText`
removes exactly the first entry that is this text and keeps the others in
their order; each constructor that returns normally holds one stroke text per
item of its source (the other footprint's texts, the file nodes, the default
texts), in the order of the source. -/
theorem BI_Footprint.stroke_texts_keep_order (fault : Option Error) (fp : BI_Footprint)
    (text : BI_StrokeText) (this heap : Nat) (device : BI_Device) (other : BI_Footprint)
    (children : List (Except Error StrokeText)) (transform : Transform) :
    ((fp.addStrokeText fault text).thrown = none →
      (fp.addStrokeText fault text).fp.mStrokeTexts =
        fp.mStrokeTexts ++ [(fp.addStrokeText fault text).text] ∧
      (fp.addStrokeText fault text).text.addr = text.addr) ∧
    ((fp.removeStrokeText fault text).thrown = none →
      ∃ l1 t l2, fp.mStrokeTexts = l1 ++ t :: l2 ∧ t.addr = text.addr ∧
        (∀ x ∈ l1, x.addr ≠ text.addr) ∧
        (fp.removeStrokeText fault text).fp.mStrokeTexts = l1 ++ l2) ∧
    ((BI_Footprint.copyOf this heap fault device other).thrown = none →
      (BI_Footprint.copyOf this heap fault device other).self.mStrokeTexts.map
        (fun t => t.mText) = other.mStrokeTexts.map (fun t => t.mText)) ∧
    ((BI_Footprint.fromNode this heap fault device children).thrown = none →
      children = (BI_Footprint.fromNode this heap fault device children).self.mStrokeTexts.map
        (fun t => Except.ok t.mText)) ∧
    ((BI_Footprint.fromDevice this heap fault device transform).thrown = none →
      (BI_Footprint.fromDevice this heap fault device transform).self.mStrokeTexts.map
        (fun t => t.mText) =
        BI_Footprint.getDefaultStrokeTexts transform (BI_Footprint.initial this device)) := by
  refine ⟨?_, ?_, ?_, ?_, ?_⟩
  · intro h
    simp only [BI_Footprint.addStrokeText] at h ⊢
    split
    · rename_i hc; simp [hc] at h
    · rename_i hc
      simp only [hc] at h
      split
      · split
        · rename_i ha _ e t2 heq; simp [heq, ha] at h
        · rename_i t2 heq
          refine ⟨rfl, ?_⟩
          have := congrArg Prod.snd heq
          simp only [BI_StrokeText.addToBoard] at this
          rw [← this]
          rfl
      · exact ⟨rfl, rfl⟩
  · intro h
    simp only [BI_Footprint.removeStrokeText] at h ⊢
    split
    · rename_i hf; simp [hf] at h
    · rename_i member hf
      have hmem : member ∈ fp.mStrokeTexts := List.mem_of_find?_eq_some hf
      have hp : (member.addr == text.addr) = true := by
        have := List.find?_some hf
        simpa using this
      obtain ⟨t, l1, l2, hl1, ht, hsplit, herase⟩ :=
        List.exists_of_eraseP (p := fun t => t.addr == text.addr) hmem hp
      have hres : ∀ x ∈ l1, x.addr ≠ text.addr := by
        intro x hx
        simpa using hl1 x hx
      have hta : t.addr = text.addr := by simpa using ht
      simp only [hf] at h
      split
      · split
        · rename_i ha _ e m1 heq; simp [heq, ha] at h
        · exact ⟨l1, t, l2, hsplit, hta, hres, herase⟩
      · exact ⟨l1, t, l2, hsplit, hta, hres, herase⟩
  · intro h
    have hc := BI_Footprint.construct_texts fault _ this heap device h
    refine (map_ok_injective Error ?_).symm
    simpa [List.map_map, Function.comp_def, BI_Footprint.copyOf] using hc
  · intro h
    exact BI_Footprint.construct_texts fault _ this heap device h
  · intro h
    have hc := BI_Footprint.construct_texts fault _ this heap device h
    refine (map_ok_injective Error ?_).symm
    simpa [List.map_map, Function.comp_def, BI_Footprint.fromDevice] using hc

/-- Witness for C20: adding a second text to the sample footprint puts it
last, removing the first text leaves the second, and the copy constructor
succeeds on the sample footprint. -/
theorem BI_Footprint.stroke_texts_keep_order_witness :
    (sampleFootprint.addStrokeText none sampleStrokeText).thrown = none ∧
    (sampleFootprint.addStrokeText none sampleStrokeText).fp.mStrokeTexts.map
      (fun t => t.addr) = [1000, 2000] ∧
    ((sampleFootprint.addStrokeText none sampleStrokeText).fp.removeStrokeText none
      (BI_StrokeText.new 1000 1 sampleStrokeText.mText)).thrown = none ∧
    ((sampleFootprint.addStrokeText none sampleStrokeText).fp.removeStrokeText none
      (BI_StrokeText.new 1000 1 sampleStrokeText.mText)).fp.mStrokeTexts.map
      (fun t => t.addr) = [2000] ∧
    (BI_Footprint.copyOf 600 3000 none sampleDevice sampleFootprint).thrown = none ∧
    (BI_Footprint.copyOf 600 3000 none sampleDevice sampleFootprint).self.mStrokeTexts.map
      (fun t => t.mText) = sampleFootprint.mStrokeTexts.map (fun t => t.mText) :=
  ⟨by decide,
    (congrArg (List.map fun t => t.addr)
      ((BI_Footprint.stroke_texts_keep_order none sampleFootprint sampleStrokeText 600 3000
        sampleDevice sampleFootprint [] sampleTransform).1 (by decide)).1).trans (by decide),
    by decide, by decide, by decide,
    (BI_Footprint.stroke_texts_keep_order none sampleFootprint sampleStrokeText 600 3000
      sampleDevice sampleFootprint [] sampleTransform).2.2.1 (by decide)⟩

/-! ## Use of a footprint by net lines -/

theorem BI_Footprint.isUsedLoop_iff (pads : List (Uuid × BI_FootprintPad)) :
    BI_Footprint.isUsedLoop pads = true ↔ ∃ entry ∈ pads, entry.2.isUsed = true := by
  induction pads with
  | nil => simp [BI_Footprint.isUsedLoop]
  | cons entry rest ih =>
    by_cases h : entry.2.isUsed = true
    · simp [BI_Footprint.isUsedLoop, h]
    · simp [BI_Footprint.isUsedLoop, h, ih]

/-- C25: `isUsed` of a footprint is true exactly when one of the pads of its
pad map is used; a pad is used exactly when its set of registered net lines
is not empty; a footprint without pads is not used. -/
theorem BI_Footprint.isUsed_iff_some_pad_used (fp : BI_Footprint) :
    (fp.isUsed = true ↔ ∃ entry ∈ fp.mPads, entry.2.isUsed = true) ∧
    (∀ pad : BI_FootprintPad, pad.isUsed = true ↔ pad.mRegisteredNetLines ≠ []) ∧
    (fp.isUsed = true ↔ ∃ entry ∈ fp.mPads, entry.2.mRegisteredNetLines ≠ []) ∧
    (fp.mPads = [] → fp.isUsed = false) := by
  have hpad : ∀ pad : BI_FootprintPad, pad.isUsed = true ↔ pad.mRegisteredNetLines ≠ [] := by
    intro pad
    simp [BI_FootprintPad.isUsed, List.length_pos]
  refine ⟨BI_Footprint.isUsedLoop_iff fp.mPads, hpad, ?_, ?_⟩
  · rw [BI_Footprint.isUsed, BI_Footprint.isUsedLoop_iff]
    constructor
    · rintro ⟨entry, hmem, h⟩
      exact ⟨entry, hmem, (hpad _).1 h⟩
    · rintro ⟨entry, hmem, h⟩
      exact ⟨entry, hmem, (hpad _).2 h⟩
  · intro h
    simp [BI_Footprint.isUsed, h, BI_Footprint.isUsedLoop]

theorem usedFootprint_isUsed :
    usedFootprint.isUsed = true ∧ sampleFootprint.isUsed = false := by
  decide

/-! ## The default stroke texts -/

theorem BI_Footprint.getDefaultStrokeTexts_eq (transform : Transform) (fp : BI_Footprint) :
    fp.getDefaultStrokeTexts transform =
      fp.mDevice.getLibFootprint.getStrokeTexts.map fun text =>
        { getUuid := text.getUuid
          getLayerName := transform.mapLayerName text.getLayerName
          getText := text.getText
          getPosition := transform.mapPoint text.getPosition
          getRotation := text.getRotation +
            (if text.getMirrored then -fp.getRotation else fp.getRotation)
          getMirrored := transform.mapMirrored text.getMirrored } := by
  unfold BI_Footprint.getDefaultStrokeTexts
  apply List.map_congr_left
  intro text _
  by_cases h : fp.getMirrored = true <;> simp [h]

/-- C23: the rotation of each default stroke text is the rotation of the
library text minus the rotation of the footprint when the library text is
mirrored and plus the rotation of the footprint otherwise, and the list of
rotations is the same for both values of the mirror flag of the footprint. -/
theorem BI_Footprint.getDefaultStrokeTexts_rotation (transform : Transform)
    (fp : BI_Footprint) :
    ((fp.getDefaultStrokeTexts transform).map StrokeText.getRotation =
      fp.mDevice.getLibFootprint.getStrokeTexts.map fun text =>
        if text.getMirrored then text.getRotation - fp.mDevice.getRotation
        else text.getRotation + fp.mDevice.getRotation) ∧
    ∀ mirrored : Bool,
      (BI_Footprint.getDefaultStrokeTexts transform
          { fp with mDevice := { fp.mDevice with getMirrored := mirrored } }).map
          StrokeText.getRotation =
        (fp.getDefaultStrokeTexts transform).map StrokeText.getRotation := by
  constructor
  · rw [BI_Footprint.getDefaultStrokeTexts_eq, List.map_map]
    apply List.map_congr_left
    intro text _
    by_cases h : text.getMirrored = true <;>
      simp [h, BI_Footprint.getRotation, BI_Device.getRotation, sub_eq_add_neg]
  · intro mirrored
    rw [BI_Footprint.getDefaultStrokeTexts_eq, BI_Footprint.getDefaultStrokeTexts_eq,
      List.map_map, List.map_map]
    rfl

/-- C24: `getDefaultStrokeTexts` returns one text per stroke text of the
library footprint, in the order of the library footprint and with the same
UUIDs and the same text; each returned text is the library text with its
position, mirror flag and layer name mapped by the transform and its rotation
adjusted, and the call reads the library footprint without changing it (it
returns a new list). -/
theorem BI_Footprint.getDefaultStrokeTexts_frame (transform : Transform)
    (fp : BI_Footprint) :
    (fp.getDefaultStrokeTexts transform).length =
      fp.mDevice.getLibFootprint.getStrokeTexts.length ∧
    (fp.getDefaultStrokeTexts transform).map StrokeText.getUuid =
      fp.mDevice.getLibFootprint.getStrokeTexts.map StrokeText.getUuid ∧
    (fp.getDefaultStrokeTexts transform).map StrokeText.getText =
      fp.mDevice.getLibFootprint.getStrokeTexts.map StrokeText.getText ∧
    fp.getDefaultStrokeTexts transform =
      fp.mDevice.getLibFootprint.getStrokeTexts.map fun text =>
        { text with
          getPosition := transform.mapPoint text.getPosition
          getRotation := text.getRotation +
            (if text.getMirrored then -fp.mDevice.getRotation else fp.mDevice.getRotation)
          getMirrored := transform.mapMirrored text.getMirrored
          getLayerName := transform.mapLayerName text.getLayerName } := by
  rw [BI_Footprint.getDefaultStrokeTexts_eq]
  refine ⟨by simp, ?_, ?_, rfl⟩
  · rw [List.map_map]; rfl
  · rw [List.map_map]; rfl

/-! ## The setters and the assignment of ComponentSignal -/

theorem ComponentSignal.operatorEq_iff (s rhs : ComponentSignal) :
    s.operatorEq rhs = true ↔ s = rhs := by
  obtain ⟨u, n, r, f, q, g, c⟩ := s
  obtain ⟨u2, n2, r2, f2, q2, g2, c2⟩ := rhs
  simp only [ComponentSignal.operatorEq, ComponentSignal.mk.injEq]
  by_cases h1 : u = u2 <;> by_cases h2 : n = n2 <;> by_cases h3 : r = r2 <;>
    by_cases h4 : f = f2 <;> by_cases h5 : q = q2 <;> by_cases h6 : g = g2 <;>
    by_cases h7 : c = c2 <;> simp [h1, h2, h3, h4, h5, h6, h7]

theorem ComponentSignal.assignUuid_eq (s : ComponentSignal) (uuid : Uuid) :
    (s.assignUuid uuid).signal = { s with mUuid := uuid } ∧
    (s.assignUuid uuid).onEdited = if s.mUuid = uuid then [] else [.UuidChanged] := by
  by_cases h : s.mUuid = uuid
  · subst h; simp [ComponentSignal.assignUuid]
  · simp [ComponentSignal.assignUuid, h]

theorem ComponentSignal.setName_eq (s : ComponentSignal) (name : String) :
    (s.setName name).signal = { s with mName := name } ∧
    (s.setName name).onEdited = if s.mName = name then [] else [.NameChanged] := by
  by_cases h : name = s.mName
  · subst h; simp [ComponentSignal.setName]
  · simp [ComponentSignal.setName, h, Ne.symm h]

theorem ComponentSignal.setRole_eq (s : ComponentSignal) (role : SignalRole) :
    (s.setRole role).signal = { s with mRole := role } ∧
    (s.setRole role).onEdited = if s.mRole = role then [] else [.RoleChanged] := by
  by_cases h : role = s.mRole
  · subst h; simp [ComponentSignal.setRole]
  · simp [ComponentSignal.setRole, h, Ne.symm h]

theorem ComponentSignal.setForcedNetName_eq (s : ComponentSignal) (name : String) :
    (s.setForcedNetName name).signal = { s with mForcedNetName := name } ∧
    (s.setForcedNetName name).onEdited =
      if s.mForcedNetName = name then [] else [.ForcedNetNameChanged] := by
  by_cases h : name = s.mForcedNetName
  · subst h; simp [ComponentSignal.setForcedNetName]
  · simp [ComponentSignal.setForcedNetName, h, Ne.symm h]

theorem ComponentSignal.setIsRequired_eq (s : ComponentSignal) (required : Bool) :
    (s.setIsRequired required).signal = { s with mIsRequired := required } ∧
    (s.setIsRequired required).onEdited =
      if s.mIsRequired = required then [] else [.IsRequiredChanged] := by
  by_cases h : required = s.mIsRequired
  · subst h; simp [ComponentSignal.setIsRequired]
  · simp [ComponentSignal.setIsRequired, h, Ne.symm h]

theorem ComponentSignal.setIsNegated_eq (s : ComponentSignal) (negated : Bool) :
    (s.setIsNegated negated).signal = { s with mIsNegated := negated } ∧
    (s.setIsNegated negated).onEdited =
      if s.mIsNegated = negated then [] else [.IsNegatedChanged] := by
  by_cases h : negated = s.mIsNegated
  · subst h; simp [ComponentSignal.setIsNegated]
  · simp [ComponentSignal.setIsNegated, h, Ne.symm h]

theorem ComponentSignal.setIsClock_eq (s : ComponentSignal) (clock : Bool) :
    (s.setIsClock clock).signal = { s with mIsClock := clock } ∧
    (s.setIsClock clock).onEdited = if s.mIsClock = clock then [] else [.IsClockChanged] := by
  by_cases h : clock = s.mIsClock
  · subst h; simp [ComponentSignal.setIsClock]
  · simp [ComponentSignal.setIsClock, h, Ne.symm h]

theorem ComponentSignal.assign_eq (s rhs : ComponentSignal) :
    s.assign rhs = (rhs, s.differences rhs) := by
  simp only [ComponentSignal.assign, ComponentSignal.differences,
    (ComponentSignal.assignUuid_eq _ _).1, (ComponentSignal.assignUuid_eq _ _).2,
    (ComponentSignal.setName_eq _ _).1, (ComponentSignal.setName_eq _ _).2,
    (ComponentSignal.setRole_eq _ _).1, (ComponentSignal.setRole_eq _ _).2,
    (ComponentSignal.setForcedNetName_eq _ _).1, (ComponentSignal.setForcedNetName_eq _ _).2,
    (ComponentSignal.setIsRequired_eq _ _).1, (ComponentSignal.setIsRequired_eq _ _).2,
    (ComponentSignal.setIsNegated_eq _ _).1, (ComponentSignal.setIsNegated_eq _ _).2,
    (ComponentSignal.setIsClock_eq _ _).1, (ComponentSignal.setIsClock_eq _ _).2]

/-- C28: each of the six setters of `ComponentSignal` returns true exactly
when the given value differs from the stored one; when it returns true the
object is the old one with that field replaced and the notifications are
exactly the one of the matching kind; when it returns false the object is
unchanged and nothing is notified. -/
theorem ComponentSignal.setters_report_change (s : ComponentSignal) (name forced : String)
    (role : SignalRole) (required negated clock : Bool) :
    (((s.setName name).result = true ↔ name ≠ s.mName) ∧
      ((s.setName name).result = true →
        (s.setName name).signal = { s with mName := name } ∧
        (s.setName name).onEdited = [.NameChanged]) ∧
      ((s.setName name).result = false →
        (s.setName name).signal = s ∧ (s.setName name).onEdited = [])) ∧
    (((s.setRole role).result = true ↔ role ≠ s.mRole) ∧
      ((s.setRole role).result = true →
        (s.setRole role).signal = { s with mRole := role } ∧
        (s.setRole role).onEdited = [.RoleChanged]) ∧
      ((s.setRole role).result = false →
        (s.setRole role).signal = s ∧ (s.setRole role).onEdited = [])) ∧
    (((s.setForcedNetName forced).result = true ↔ forced ≠ s.mForcedNetName) ∧
      ((s.setForcedNetName forced).result = true →
        (s.setForcedNetName forced).signal = { s with mForcedNetName := forced } ∧
        (s.setForcedNetName forced).onEdited = [.ForcedNetNameChanged]) ∧
      ((s.setForcedNetName forced).result = false →
        (s.setForcedNetName forced).signal = s ∧ (s.setForcedNetName forced).onEdited = [])) ∧
    (((s.setIsRequired required).result = true ↔ required ≠ s.mIsRequired) ∧
      ((s.setIsRequired required).result = true →
        (s.setIsRequired required).signal = { s with mIsRequired := required } ∧
        (s.setIsRequired required).onEdited = [.IsRequiredChanged]) ∧
      ((s.setIsRequired required).result = false →
        (s.setIsRequired required).signal = s ∧ (s.setIsRequired required).onEdited = [])) ∧
    (((s.setIsNegated negated).result = true ↔ negated ≠ s.mIsNegated) ∧
      ((s.setIsNegated negated).result = true →
        (s.setIsNegated negated).signal = { s with mIsNegated := negated } ∧
        (s.setIsNegated negated).onEdited = [.IsNegatedChanged]) ∧
      ((s.setIsNegated negated).result = false →
        (s.setIsNegated negated).signal = s ∧ (s.setIsNegated negated).onEdited = [])) ∧
    (((s.setIsClock clock).result = true ↔ clock ≠ s.mIsClock) ∧
      ((s.setIsClock clock).result = true →
        (s.setIsClock clock).signal = { s with mIsClock := clock } ∧
        (s.setIsClock clock).onEdited = [.IsClockChanged]) ∧
      ((s.setIsClock clock).result = false →
        (s.setIsClock clock).signal = s ∧ (s.setIsClock clock).onEdited = [])) := by
  refine ⟨?_, ?_, ?_, ?_, ?_, ?_⟩
  · by_cases h : name = s.mName <;> simp [ComponentSignal.setName, h]
  · by_cases h : role = s.mRole <;> simp [ComponentSignal.setRole, h]
  · by_cases h : forced = s.mForcedNetName <;> simp [ComponentSignal.setForcedNetName, h]
  · by_cases h : required = s.mIsRequired <;> simp [ComponentSignal.setIsRequired, h]
  · by_cases h : negated = s.mIsNegated <;> simp [ComponentSignal.setIsNegated, h]
  · by_cases h : clock = s.mIsClock <;> simp [ComponentSignal.setIsClock, h]

theorem ComponentSignal.setters_report_change_witness :
    ((sampleSignal.setName "CLK").signal = { sampleSignal with mName := "CLK" } ∧
      (sampleSignal.setName "CLK").onEdited = [.NameChanged]) ∧
    ((sampleSignal.setIsNegated false).signal = sampleSignal ∧
      (sampleSignal.setIsNegated false).onEdited = []) :=
  ⟨(ComponentSignal.setters_report_change sampleSignal "CLK" "" 1 false false false).1.2.1
      (by decide),
    (ComponentSignal.setters_report_change sampleSignal "CLK" "" 1 false false false).2.2.2.2.1.2.2
      (by decide)⟩

/-- C29: after the assignment the object compares equal to `rhs` under
`operator==` (it is `rhs`); the notifications emitted are one per field in
which the two objects differed, in the order uuid, name, role, forced net
name, required, negated, clock, so their number is the number of differing
fields; when the objects were equal the object is unchanged and nothing is
notified. -/
theorem ComponentSignal.assign_notifies_differences (s rhs : ComponentSignal) :
    (s.assign rhs).1.operatorEq rhs = true ∧
    (s.assign rhs).2 = s.differences rhs ∧
    (s.assign rhs).2.length =
      (if s.mUuid = rhs.mUuid then 0 else 1) + (if s.mName = rhs.mName then 0 else 1) +
      (if s.mRole = rhs.mRole then 0 else 1) +
      (if s.mForcedNetName = rhs.mForcedNetName then 0 else 1) +
      (if s.mIsRequired = rhs.mIsRequired then 0 else 1) +
      (if s.mIsNegated = rhs.mIsNegated then 0 else 1) +
      (if s.mIsClock = rhs.mIsClock then 0 else 1) ∧
    (s.operatorEq rhs = true → s.assign rhs = (s, [])) := by
  rw [ComponentSignal.assign_eq]
  refine ⟨(ComponentSignal.operatorEq_iff _ _).2 rfl, rfl, ?_, ?_⟩
  · simp only [ComponentSignal.differences, List.length_append]
    repeat rw [apply_ite List.length]
    simp only [List.length_nil, List.length_singleton]
  · intro h
    rw [(ComponentSignal.operatorEq_iff _ _).1 h]
    simp [ComponentSignal.differences]

theorem ComponentSignal.assign_notifies_differences_witness :
    sampleSignal.assign otherSignal =
      (otherSignal, [.NameChanged, .IsRequiredChanged, .IsClockChanged]) ∧
    otherSignal.assign otherSignal = (otherSignal, []) :=
  ⟨Prod.ext (by decide)
      ((ComponentSignal.assign_notifies_differences sampleSignal otherSignal).2.1.trans
        (by decide)),
    (ComponentSignal.assign_notifies_differences otherSignal otherSignal).2.2.2 (by decide)⟩

/-! ## The next free package pad -/

/-- C30: with a current footprint and a combo box, the pad selected by
`selectNextFreePadInComboBox` is the first pad of the package, in the order of
the package, that no pad of the footprint refers to; no pad is selected
exactly when every pad of the package is referred to by a pad of the
footprint, which includes a package without pads; nothing else of the tool
changes. -/
theorem PackageEditorState_AddPads.selectNextFreePadInComboBox_first_free
    (st : PackageEditorState_AddPads) (footprint : Footprint) (box : Option Uuid)
    (hf : st.mContext.currentFootprint = some footprint)
    (hb : st.mPackagePadComboBox = some box) :
    (∀ u : Uuid, st.selectNextFreePadInComboBox.mPackagePadComboBox = some (some u) ↔
      ∃ before after, st.mContext.package = before ++ u :: after ∧
        (¬ ∃ pad ∈ footprint.getPads, pad.getPackagePadUuid = some u) ∧
        ∀ v ∈ before, ∃ pad ∈ footprint.getPads, pad.getPackagePadUuid = some v) ∧
    (st.selectNextFreePadInComboBox.mPackagePadComboBox = some none ↔
      ∀ v ∈ st.mContext.package, ∃ pad ∈ footprint.getPads, pad.getPackagePadUuid = some v) ∧
    (st.mContext.package = [] →
      st.selectNextFreePadInComboBox.mPackagePadComboBox = some none) ∧
    st.selectNextFreePadInComboBox =
      { st with mPackagePadComboBox := st.selectNextFreePadInComboBox.mPackagePadComboBox } := by
  have hsel : st.selectNextFreePadInComboBox =
      { st with mPackagePadComboBox := some (st.mContext.package.find? fun pkgPad =>
          !(footprint.getPads.any fun fptPad => fptPad.getPackagePadUuid == some pkgPad)) } := by
    simp [PackageEditorState_AddPads.selectNextFreePadInComboBox, hf, hb]
  rw [hsel]
  refine ⟨?_, ?_, ?_, rfl⟩
  · intro u
    simp only [Option.some.injEq, List.find?_eq_some]
    constructor
    · rintro ⟨hu, before, after, hp, hbefore⟩
      refine ⟨before, after, hp, ?_, ?_⟩
      · simpa using hu
      · intro v hv
        simpa using hbefore v hv
    · rintro ⟨before, after, hp, hu, hbefore⟩
      refine ⟨by simpa using hu, before, after, hp, ?_⟩
      intro v hv
      simpa using hbefore v hv
  · simp only [Option.some.injEq, List.find?_eq_none]
    constructor
    · intro h v hv
      simpa using h v hv
    · intro h v hv
      simpa using h v hv
  · intro h
    simp [h]

theorem PackageEditorState_AddPads.selectNextFreePadInComboBox_first_free_witness :
    ({ sampleTool with mPackagePadComboBox := some none }
      ).selectNextFreePadInComboBox.mPackagePadComboBox = some (some 12) :=
  ((PackageEditorState_AddPads.selectNextFreePadInComboBox_first_free
    { sampleTool with mPackagePadComboBox := some none }
    { getPads := [{ getUuid := 21, getPackagePadUuid := some 11 }], getStrokeTexts := [] }
    none rfl rfl).1 12).2 ⟨[11], [], rfl, by decide, by decide⟩

/-! ## A failing addStrokeText -/

/-- A failing `addToBoard` of a stroke text leaves the text as it was. -/
theorem BI_StrokeText.addToBoard_fail (fault : Option Error) (text : BI_StrokeText) (e : Error)
    (h : (text.addToBoard fault).1 = some e) : (text.addToBoard fault).2 = text := by
  obtain ⟨⟨a, s⟩, addr, board, footprint, t⟩ := text
  cases a <;> cases fault <;>
    simp [BI_StrokeText.addToBoard, BI_Base.addToBoard] at h ⊢

/-- What a failing `addStrokeText` leaves behind. -/
theorem BI_Footprint.addStrokeText_failure (fault : Option Error) (fp : BI_Footprint)
    (text : BI_StrokeText) (h : (fp.addStrokeText fault text).thrown ≠ none) :
    (fp.addStrokeText fault text).fp = fp ∧
    (fp.addStrokeText fault text).text =
      if (fp.mStrokeTexts.any (fun t => t.addr == text.addr) || text.mBoard != fp.mBoard)
      then text else text.setFootprint (some fp.addr) := by
  by_cases hg : (fp.mStrokeTexts.any (fun t => t.addr == text.addr) ||
      text.mBoard != fp.mBoard) = true
  · rw [if_pos hg]
    simp only [BI_Footprint.addStrokeText, if_pos hg, and_self]
  · rw [if_neg hg]
    by_cases ha : fp.isAddedToBoard = true
    · cases heq : (text.setFootprint (some fp.addr)).addToBoard fault with
      | mk o text2 =>
        cases o with
        | none =>
          exfalso
          apply h
          simp only [BI_Footprint.addStrokeText, if_neg hg, if_pos ha, heq]
        | some e =>
          have h1 : ((text.setFootprint (some fp.addr)).addToBoard fault).1 = some e := by
            rw [heq]
          have h2 := BI_StrokeText.addToBoard_fail _ _ _ h1
          rw [heq] at h2
          simp only [BI_Footprint.addStrokeText, if_neg hg, if_pos ha, heq]
          exact ⟨trivial, h2⟩
    · exfalso
      apply h
      simp only [BI_Footprint.addStrokeText, if_neg hg, if_neg ha]

/-- C22, as the code has it: after a failing `addStrokeText` the footprint,
with its list of stroke texts, is as before the call and the attached flag of
the text is as before the call; the back-reference of the text is as before
the call when the text was rejected because this footprint already owns it or
because it belongs to another board; when `addToBoard` of the text failed
while the footprint is attached, the back-reference refers to this footprint
and nothing else of the text has changed. -/
theorem BI_Footprint.addStrokeText_failure_frame (fault : Option Error) (fp : BI_Footprint)
    (text : BI_StrokeText) (h : (fp.addStrokeText fault text).thrown ≠ none) :
    (fp.addStrokeText fault text).fp = fp ∧
    (fp.addStrokeText fault text).fp.mStrokeTexts = fp.mStrokeTexts ∧
    (fp.addStrokeText fault text).text.mIsAddedToBoard = text.mIsAddedToBoard ∧
    (((fp.mStrokeTexts.any fun t => t.addr == text.addr) = true ∨ text.mBoard ≠ fp.mBoard) →
      (fp.addStrokeText fault text).text = text) ∧
    (¬ ((fp.mStrokeTexts.any fun t => t.addr == text.addr) = true ∨ text.mBoard ≠ fp.mBoard) →
      fp.isAddedToBoard = true ∧
      (fp.addStrokeText fault text).text = { text with mFootprint := some fp.addr }) := by
  obtain ⟨h1, h2⟩ := BI_Footprint.addStrokeText_failure fault fp text h
  refine ⟨h1, by rw [h1], ?_, ?_, ?_⟩
  · rw [h2]
    split <;> rfl
  · intro hg
    rw [h2, if_pos]
    simpa using hg
  · intro hg
    constructor
    · by_contra ha
      apply h
      have hg2 : (fp.mStrokeTexts.any (fun t => t.addr == text.addr) ||
          text.mBoard != fp.mBoard) = false := by
        simpa using hg
      simp [BI_Footprint.addStrokeText, hg2, ha]
    · rw [h2, if_neg]
      · rfl
      · simpa using hg

theorem BI_Footprint.addStrokeText_failure_frame_witness :
    (sampleAttached.addStrokeText (some (Error.External 7)) sampleStrokeText).fp =
      sampleAttached ∧
    (sampleAttached.addStrokeText (some (Error.External 7))
      sampleStrokeText).text.mIsAddedToBoard = false :=
  ⟨(BI_Footprint.addStrokeText_failure_frame (some (Error.External 7)) sampleAttached
      sampleStrokeText (by decide)).1,
    (BI_Footprint.addStrokeText_failure_frame (some (Error.External 7)) sampleAttached
      sampleStrokeText (by decide)).2.2.1⟩

/-- C22, counterexample: a text without footprint that is already attached to
the board is passed to `addStrokeText` of an attached footprint on the same
board.  `addToBoard` of the text throws, the call fails, and the
back-reference of the text now refers to the footprint (address 500).  The
same happens with a detached text whose `addToBoard` fails for a reason of
its own. -/
theorem BI_Footprint.addStrokeText_failure_changes_back_reference :
    (sampleAttached.addStrokeText none
      { sampleStrokeText with mIsAddedToBoard := true }).thrown = some Error.AlreadyAttached ∧
    ({ sampleStrokeText with mIsAddedToBoard := true } : BI_StrokeText).mFootprint = none ∧
    (sampleAttached.addStrokeText none
      { sampleStrokeText with mIsAddedToBoard := true }).text.mFootprint = some 500 ∧
    (sampleAttached.addStrokeText (some (Error.External 7)) sampleStrokeText).thrown =
      some (Error.External 7) ∧
    sampleStrokeText.mFootprint = none ∧
    (sampleAttached.addStrokeText (some (Error.External 7)) sampleStrokeText).text.mFootprint =
      some 500 := by
  decide

/-! ## A failing startAddPad -/

/-- What a failing `startAddPad` leaves on the undo stack: the committed
history is untouched; the group is as before, or the call found no open group
and leaves an empty one open. -/
theorem PackageEditorState_AddPads.startAddPad_failure (pos : Point) (uuid : Uuid)
    (faults : StackFaults) (st : PackageEditorState_AddPads)
    (h : (st.startAddPad pos uuid faults).1 = false) :
    (st.startAddPad pos uuid faults).2.mContext.undoStack.past = st.mContext.undoStack.past ∧
    (st.startAddPad pos uuid faults).2.mContext.undoStack.future =
      st.mContext.undoStack.future ∧
    ((st.startAddPad pos uuid faults).2.mContext.undoStack = st.mContext.undoStack ∨
      (st.mContext.undoStack.group = none ∧ faults StackCall.beginCmdGroup = none ∧
        (st.startAddPad pos uuid faults).2.mContext.undoStack.group = some [])) := by
  obtain ⟨⟨package, footprint, ⟨past, future, group⟩⟩, pad, item, box, last, edit, trace⟩ := st
  cases group with
  | some g =>
    simp [PackageEditorState_AddPads.startAddPad, Context.beginCmdGroup,
      PackageEditorState_AddPads.startAddPadFailed]
  | none =>
    cases hb : faults StackCall.beginCmdGroup with
    | some e =>
      simp [PackageEditorState_AddPads.startAddPad, Context.beginCmdGroup,
        PackageEditorState_AddPads.startAddPadFailed, hb]
    | none =>
      cases footprint with
      | none =>
        simp [PackageEditorState_AddPads.startAddPad, Context.beginCmdGroup,
          Context.appendToCmdGroup, PackageEditorState_AddPads.startAddPadFailed, hb]
      | some f =>
        cases ha : faults StackCall.appendInsert with
        | some e =>
          simp [PackageEditorState_AddPads.startAddPad, Context.beginCmdGroup,
            Context.appendToCmdGroup, PackageEditorState_AddPads.startAddPadFailed, hb, ha]
        | none =>
          simp [PackageEditorState_AddPads.startAddPad, Context.beginCmdGroup,
            Context.appendToCmdGroup, hb, ha] at h

/-- C27, the call that goes wrong: in the tool right after construction no
command group is open; `beginCmdGroup` succeeds and executing the insert
command throws.  `startAddPad` returns false, the current pad is reset, and
the command group that this call opened is still open (and empty). -/
theorem PackageEditorState_AddPads.startAddPad_failure_leaves_group_open :
    sampleTool.mContext.undoStack.group = none ∧
    (sampleTool.startAddPad (0, 0) 41 insertFails).1 = false ∧
    (sampleTool.startAddPad (0, 0) 41 insertFails).2.mCurrentPad = none ∧
    (sampleTool.startAddPad (0, 0) 41 insertFails).2.mContext.undoStack.group = some [] ∧
    (sampleTool.startAddPad (0, 0) 41 insertFails).2.mContext.undoStack ≠
      sampleTool.mContext.undoStack ∧
    ((sampleTool.startAddPad (0, 0) 41 insertFails).2.startAddPad (0, 0) 42 noStackFaults).1 =
      false ∧
    ((sampleTool.startAddPad (0, 0) 41 insertFails).2.exit noStackFaults).2.mContext.undoStack.group =
      some [] := by
  decide

/-! ## The order of the rollback -/

/-- A proper beginning of a pass over two collections and a last step: some
of the first collection, then, only if the first is complete, some of the
second; the step after it is the one at that position of the pass. -/
theorem prefix_of_two_ranges {β : Type} (f g : Nat → β) (s : β) (m n : Nat) (done : List β)
    (failed : β)
    (h : done ++ [failed] <+: (List.range m).map f ++ (List.range n).map g ++ [s]) :
    ∃ p t, p ≤ m ∧ t ≤ n ∧ (0 < t → p = m) ∧
      done = (List.range p).map f ++ (List.range t).map g ∧
      ((List.range m).map f ++ (List.range n).map g ++ [s])[p + t]? = some failed := by
  have hlen : done.length ≤ m + n := by
    have := h.length_le
    simp at this
    omega
  have hd : done = ((List.range m).map f ++ (List.range n).map g ++ [s]).take done.length :=
    List.prefix_iff_eq_take.1 ((List.prefix_append done [failed]).trans h)
  have hf : ((List.range m).map f ++ (List.range n).map g ++ [s])[done.length]? =
      some failed := by
    obtain ⟨r, hr⟩ := h
    rw [← hr, List.append_assoc, List.getElem?_append_right (Nat.le_refl _)]
    simp
  refine ⟨min done.length m, done.length - m, Nat.min_le_right _ _, by omega, ?_, ?_, ?_⟩
  · intro ht
    exact Nat.min_eq_right (by omega)
  · conv_lhs => rw [hd]
    rw [List.take_append_eq_append_take, List.take_append_eq_append_take]
    simp only [List.length_append, List.length_map, List.length_range]
    rw [show done.length - (m + n) = 0 by omega]
    simp only [List.take_zero, List.append_nil, ← List.map_take, List.take_range]
    rw [Nat.min_eq_left (show done.length - m ≤ n by omega)]
  · rw [show min done.length m + (done.length - m) = done.length by omega]
    exact hf

/-- The step of a full pass that follows `p` pad steps and `t` text steps. -/
theorem BI_Footprint.fullPass_step (op : Op) (fp : BI_Footprint) (p t : Nat) (failed : Call)
    (hp : p ≤ fp.mPads.length) (ht : t ≤ fp.mStrokeTexts.length)
    (hpt : 0 < t → p = fp.mPads.length) (h : (fp.fullPass op)[p + t]? = some failed) :
    failed.op = op ∧ failed.inverse ∉ (padCalls op.inverse p) ∧
      failed.inverse ∉ (textCalls op.inverse t) := by
  simp only [BI_Footprint.fullPass] at h
  by_cases h1 : p < fp.mPads.length
  · have ht0 : t = 0 := by
      by_contra hne
      have := hpt (Nat.pos_of_ne_zero hne)
      omega
    subst ht0
    rw [List.append_assoc, List.getElem?_append_left (by simpa using h1)] at h
    simp [List.getElem?_range h1] at h
    subst h
    simp [Call.inverse, padCalls, textCalls]
  · have hpm : p = fp.mPads.length := by omega
    rw [List.append_assoc, List.getElem?_append_right (by simp; omega)] at h
    simp only [List.length_map, List.length_range, hpm, Nat.add_sub_cancel_left] at h
    by_cases h2 : t < fp.mStrokeTexts.length
    · rw [List.getElem?_append_left (by simpa using h2)] at h
      simp [List.getElem?_range h2] at h
      subst h
      simp [Call.inverse, padCalls, textCalls]
    · have htn : t = fp.mStrokeTexts.length := by omega
      rw [List.getElem?_append_right (by simp; omega)] at h
      simp [htn] at h
      subst h
      simp [Call.inverse, padCalls, textCalls]

/-- With the guard passed, the selected method is the guarded body. -/
theorem BI_Footprint.lifecycleCall_eq (op : Op) (faults : Target → Option Error)
    (fp : BI_Footprint) (hguard : fp.isAddedToBoard = !op.attached) :
    fp.lifecycleCall op faults = fp.applyToBoard op faults := by
  cases op <;>
    simp [BI_Footprint.lifecycleCall, BI_Footprint.addToBoard, BI_Footprint.removeFromBoard,
      Op.attached] at hguard ⊢ <;> simp [hguard]

/-- C21: in `addToBoard` and `removeFromBoard` (the guard at the entry
passed), each loop pushes the inverse of every child call that returned, in
call order, and of no other call.  When the method returns normally the calls
made are exactly the forward calls of the full pass: no inverse is run.  When
it throws at the step after `p` pads and `t` stroke texts, the calls made are
these steps, the failed step, then the inverses of the `t` text steps, last
one first, then the inverses of the `p` pad steps, last one first; the
inverse of the failed step is not among them. -/
theorem BI_Footprint.rollback_last_in_first_out (op : Op) (faults : Target → Option Error)
    (fp : BI_Footprint) (hguard : fp.isAddedToBoard = !op.attached) :
    (∀ (mk : Nat → Target) (n i : Nat) (fr : Frame), ∃ k, k ≤ n ∧
      (forEachChild op faults mk n i fr).2.sgl =
        fr.sgl ++ (List.range' i k).map (fun j => { target := mk j, op := op.inverse }) ∧
      ((forEachChild op faults mk n i fr).1 = none → k = n ∧
        (forEachChild op faults mk n i fr).2.calls =
          fr.calls ++ (List.range' i k).map (fun j => { target := mk j, op := op })) ∧
      ((forEachChild op faults mk n i fr).1 ≠ none → k < n ∧
        (forEachChild op faults mk n i fr).2.calls =
          fr.calls ++ (List.range' i k).map (fun j => { target := mk j, op := op }) ++
            [{ target := mk (i + k), op := op }])) ∧
    ((fp.lifecycleCall op faults).thrown = none →
      (fp.lifecycleCall op faults).calls =
        padCalls op fp.mPads.length ++ textCalls op fp.mStrokeTexts.length ++
          [{ target := Target.self, op := op }]) ∧
    ((fp.lifecycleCall op faults).thrown ≠ none →
      ∃ p t failed, p ≤ fp.mPads.length ∧ t ≤ fp.mStrokeTexts.length ∧
        (0 < t → p = fp.mPads.length) ∧
        (padCalls op fp.mPads.length ++ textCalls op fp.mStrokeTexts.length ++
          [{ target := Target.self, op := op }])[p + t]? = some failed ∧
        (fp.lifecycleCall op faults).calls =
          padCalls op p ++ textCalls op t ++ [failed] ++
            ((textCalls op.inverse t).reverse ++ (padCalls op.inverse p).reverse) ∧
        failed.inverse ∉ (textCalls op.inverse t).reverse ++ (padCalls op.inverse p).reverse) := by
  rw [BI_Footprint.lifecycleCall_eq op faults fp hguard]
  refine ⟨?_, ?_, ?_⟩
  · intro mk n i fr
    exact forEachChild_trace op faults mk n i fr
  · intro h
    exact (BI_Footprint.applyToBoard_success op faults fp h).2
  · intro h
    obtain ⟨done, failed, hpre, hcalls⟩ := BI_Footprint.applyToBoard_failure_trace op faults fp h
    obtain ⟨p, t, hp, ht, hpt, hdone, hstep⟩ := prefix_of_two_ranges _ _ _ _ _ done failed hpre
    have hs := BI_Footprint.fullPass_step op fp p t failed hp ht hpt hstep
    refine ⟨p, t, failed, hp, ht, hpt, hstep, ?_, ?_⟩
    · rw [hcalls, hdone]
      simp [padCalls, textCalls, Call.inverse, Function.comp_def]
    · simp only [List.mem_append, List.mem_reverse, not_or]
      exact ⟨hs.2.2, hs.2.1⟩

theorem BI_Footprint.rollback_last_in_first_out_witness :
    (sampleFootprint.lifecycleCall Op.addToBoard (faultAt Target.self)).calls =
      [{ target := Target.pad 0, op := Op.addToBoard },
       { target := Target.pad 1, op := Op.addToBoard },
       { target := Target.pad 2, op := Op.addToBoard },
       { target := Target.text 0, op := Op.addToBoard },
       { target := Target.self, op := Op.addToBoard },
       { target := Target.text 0, op := Op.removeFromBoard },
       { target := Target.pad 2, op := Op.removeFromBoard },
       { target := Target.pad 1, op := Op.removeFromBoard },
       { target := Target.pad 0, op := Op.removeFromBoard }] ∧
    (sampleFootprint.lifecycleCall Op.addToBoard noFaults).calls =
      [{ target := Target.pad 0, op := Op.addToBoard },
       { target := Target.pad 1, op := Op.addToBoard },
       { target := Target.pad 2, op := Op.addToBoard },
       { target := Target.text 0, op := Op.addToBoard },
       { target := Target.self, op := Op.addToBoard }] :=
  ⟨by decide,
    ((BI_Footprint.rollback_last_in_first_out Op.addToBoard noFaults sampleFootprint
      (by decide)).2.1 (by decide)).trans (by decide)⟩

/-! ## Children are attached exactly when the footprint is -/

theorem BI_Footprint.setAllAttached_follow (v : Bool) (fp : BI_Footprint) :
    (fp.setAllAttached v).ChildrenFollow := by
  constructor
  · intro entry h
    simp only [BI_Footprint.setAllAttached, List.mem_map] at h
    obtain ⟨e, -, rfl⟩ := h
    rfl
  · intro text h
    simp only [BI_Footprint.setAllAttached, List.mem_map] at h
    obtain ⟨t, -, rfl⟩ := h
    rfl

theorem BI_Footprint.applyToBoard_follow (op : Op) (faults : Target → Option Error)
    (fp : BI_Footprint) (h : fp.ChildrenFollow) :
    (fp.applyToBoard op faults).fp.ChildrenFollow := by
  by_cases ht : (fp.applyToBoard op faults).thrown = none
  · rw [(BI_Footprint.applyToBoard_success op faults fp ht).1]
    exact BI_Footprint.setAllAttached_follow _ _
  · rw [BI_Footprint.applyToBoard_failure op faults fp ht]
    exact h

theorem BI_StrokeText.addToBoard_ok (fault : Option Error) (text text2 : BI_StrokeText)
    (h : text.addToBoard fault = (none, text2)) : text2.mIsAddedToBoard = true := by
  obtain ⟨⟨a, s⟩, addr, board, footprint, t⟩ := text
  cases a <;> cases fault <;>
    simp [BI_StrokeText.addToBoard, BI_Base.addToBoard] at h
  rw [← h]

theorem BI_Footprint.addStrokeText_follow (fault : Option Error) (fp : BI_Footprint)
    (text : BI_StrokeText) (h : fp.ChildrenFollow) (ht : text.mIsAddedToBoard = false) :
    (fp.addStrokeText fault text).fp.ChildrenFollow := by
  by_cases hg : (fp.mStrokeTexts.any (fun t => t.addr == text.addr) ||
      text.mBoard != fp.mBoard) = true
  · simp only [BI_Footprint.addStrokeText, if_pos hg]
    exact h
  · by_cases ha : fp.isAddedToBoard = true
    · cases heq : (text.setFootprint (some fp.addr)).addToBoard fault with
      | mk o text2 =>
        cases o with
        | some e =>
          simp only [BI_Footprint.addStrokeText, if_neg hg, if_pos ha, heq]
          exact h
        | none =>
          have h2 := BI_StrokeText.addToBoard_ok _ _ _ heq
          simp only [BI_Footprint.addStrokeText, if_neg hg, if_pos ha, heq]
          refine ⟨h.1, ?_⟩
          intro t hmem
          simp only [List.mem_append, List.mem_singleton] at hmem
          rcases hmem with hmem | rfl
          · exact h.2 t hmem
          · rw [h2]
            exact ha.symm
    · simp only [BI_Footprint.addStrokeText, if_neg hg, if_neg ha]
      refine ⟨h.1, ?_⟩
      intro t hmem
      simp only [List.mem_append, List.mem_singleton] at hmem
      rcases hmem with hmem | rfl
      · exact h.2 t hmem
      · simp only [Bool.not_eq_true] at ha
        change text.mIsAddedToBoard = fp.isAddedToBoard
        rw [ht, ha]

theorem BI_Footprint.removeStrokeText_follow (fault : Option Error) (fp : BI_Footprint)
    (text : BI_StrokeText) (h : fp.ChildrenFollow) :
    (fp.removeStrokeText fault text).fp.ChildrenFollow := by
  have hsub : ∀ t ∈ (fp.removeStrokeText fault text).fp.mStrokeTexts, t ∈ fp.mStrokeTexts := by
    simp only [BI_Footprint.removeStrokeText]
    split
    · exact fun t ht => ht
    · split
      · split
        · exact fun t ht => ht
        · exact fun t ht => List.mem_of_mem_eraseP ht
      · exact fun t ht => List.mem_of_mem_eraseP ht
  rw [BI_Footprint.removeStrokeText_frame]
  exact ⟨h.1, fun t ht => h.2 t (hsub t ht)⟩

theorem BI_Footprint.perform_follow (fp : BI_Footprint) (c : FootprintCall)
    (h : fp.ChildrenFollow) (hc : c.textDetached) : (fp.perform c).ChildrenFollow := by
  cases c with
  | addToBoard faults =>
    simp only [BI_Footprint.perform, BI_Footprint.addToBoard]
    split
    · exact h
    · exact BI_Footprint.applyToBoard_follow _ _ _ h
  | removeFromBoard faults =>
    simp only [BI_Footprint.perform, BI_Footprint.removeFromBoard]
    split
    · exact h
    · exact BI_Footprint.applyToBoard_follow _ _ _ h
  | addStrokeText fault text => exact BI_Footprint.addStrokeText_follow _ _ _ h hc
  | removeStrokeText fault text => exact BI_Footprint.removeStrokeText_follow _ _ _ h

theorem BI_Footprint.performAll_follow (calls : List FootprintCall) (fp : BI_Footprint)
    (h : fp.ChildrenFollow) (hc : ∀ c ∈ calls, c.textDetached) :
    (fp.performAll calls).ChildrenFollow := by
  induction calls generalizing fp with
  | nil => exact h
  | cons c rest ih =>
    simp only [BI_Footprint.performAll, List.foldl_cons]
    exact ih _ (BI_Footprint.perform_follow fp c h (hc c (List.mem_cons_self _ _)))
      (fun d hd => hc d (List.mem_cons_of_mem _ hd))

theorem BI_Footprint.createStrokeTexts_follow (fault : Option Error)
    (sources : List (Except Error StrokeText)) (b : Building) (h : b.fp.ChildrenFollow) :
    (BI_Footprint.createStrokeTexts fault sources b).2.fp.ChildrenFollow ∧
    (BI_Footprint.createStrokeTexts fault sources b).2.fp.isAddedToBoard =
      b.fp.isAddedToBoard := by
  induction sources generalizing b with
  | nil => exact ⟨h, rfl⟩
  | cons item rest ih =>
    cases item with
    | error e => exact ⟨h, rfl⟩
    | ok text =>
      have h1 := BI_Footprint.addStrokeText_follow fault b.fp
        (BI_StrokeText.new b.heap b.fp.mBoard text) h rfl
      have h2 : (b.fp.addStrokeText fault
          (BI_StrokeText.new b.heap b.fp.mBoard text)).fp.isAddedToBoard = b.fp.isAddedToBoard := by
        rw [BI_Footprint.addStrokeText_frame]
        rfl
      simp only [BI_Footprint.createStrokeTexts]
      split
      · exact ⟨h1, h2⟩
      · exact ⟨(ih ⟨_, _, _⟩ h1).1, ((ih ⟨_, _, _⟩ h1).2).trans h2⟩

theorem BI_Footprint.loadPads_follow (l : List FootprintPad) (b : Building)
    (h : b.fp.ChildrenFollow) (hd : b.fp.isAddedToBoard = false) :
    (BI_Footprint.loadPads l b).2.fp.ChildrenFollow ∧
    (BI_Footprint.loadPads l b).2.fp.isAddedToBoard = false := by
  induction l generalizing b with
  | nil => exact ⟨h, hd⟩
  | cons p rest ih =>
    simp only [BI_Footprint.loadPads]
    split
    · exact ⟨h, hd⟩
    · split
      · exact ⟨h, hd⟩
      · split
        · exact ⟨h, hd⟩
        · rename_i hc _ _
          apply ih
          · rw [QHash.insert_new _ _ _ (by simpa using hc)]
            refine ⟨?_, h.2⟩
            intro entry hmem
            simp only [List.mem_append, List.mem_singleton] at hmem
            rcases hmem with hmem | rfl
            · exact h.1 entry hmem
            · exact hd.symm
          · exact hd

theorem BI_Footprint.construct_follow (fault : Option Error)
    (sources : List (Except Error StrokeText)) (this heap : Nat) (device : BI_Device)
    (hok : (BI_Footprint.construct fault sources
      { fp := BI_Footprint.initial this device, heap := heap, allocated := [] }).thrown = none) :
    (BI_Footprint.construct fault sources
      { fp := BI_Footprint.initial this device, heap := heap,
        allocated := [] }).self.ChildrenFollow ∧
    (BI_Footprint.construct fault sources
      { fp := BI_Footprint.initial this device, heap := heap,
        allocated := [] }).self.isAddedToBoard = false := by
  have h0 : (BI_Footprint.initial this device).ChildrenFollow := by
    simp [BI_Footprint.ChildrenFollow, BI_Footprint.initial]
  have h1 := BI_Footprint.createStrokeTexts_follow fault sources
    { fp := BI_Footprint.initial this device, heap := heap, allocated := [] } h0
  simp only [BI_Footprint.construct] at hok ⊢
  split
  · rename_i e b1 heq
    simp [heq, Building.catchAll] at hok
  · rename_i b1 heq
    rw [heq] at h1
    have h2 := BI_Footprint.loadPads_follow b1.fp.getLibFootprint.getPads
      { b1 with fp := { b1.fp with mGraphicsItem := true } } h1.1 h1.2
    split
    · rename_i e b2 heq2
      simp [heq, heq2, Building.catchAll] at hok
    · rename_i b2 heq2
      simp only [BI_Footprint.init] at heq2
      rw [BI_Footprint.getLibFootprint] at h2
      simp only [BI_Footprint.getLibFootprint] at heq2
      rw [heq2] at h2
      exact h2

/-- C26: a footprint that one of the three constructors has built is detached
and so are its pads and stroke texts; and from any footprint whose children
are attached exactly when it is, after any sequence of `addToBoard`,
`removeFromBoard`, `addStrokeText` (of a text that is detached when it is
passed in) and `removeStrokeText`, each call returning or throwing, every pad
and every stroke text of the footprint is attached exactly when the footprint
is. -/
theorem BI_Footprint.children_follow_footprint (this heap : Nat) (fault : Option Error)
    (device : BI_Device) (other : BI_Footprint) (children : List (Except Error StrokeText))
    (transform : Transform) (fp0 : BI_Footprint) (calls : List FootprintCall) :
    (∀ c ∈ BI_Footprint.constructors this heap fault device other children transform,
      c.thrown = none →
        c.self.isAddedToBoard = false ∧
        (∀ entry ∈ c.self.mPads, entry.2.mIsAddedToBoard = false) ∧
        (∀ text ∈ c.self.mStrokeTexts, text.mIsAddedToBoard = false)) ∧
    ((∀ entry ∈ fp0.mPads, entry.2.mIsAddedToBoard = fp0.isAddedToBoard) →
      (∀ text ∈ fp0.mStrokeTexts, text.mIsAddedToBoard = fp0.isAddedToBoard) →
      (∀ c ∈ calls, c.textDetached) →
        (∀ entry ∈ (fp0.performAll calls).mPads,
          entry.2.mIsAddedToBoard = (fp0.performAll calls).isAddedToBoard) ∧
        (∀ text ∈ (fp0.performAll calls).mStrokeTexts,
          text.mIsAddedToBoard = (fp0.performAll calls).isAddedToBoard)) := by
  constructor
  · intro c hc hok
    have key : ∀ sources : List (Except Error StrokeText),
        c = BI_Footprint.construct fault sources
          { fp := BI_Footprint.initial this device, heap := heap, allocated := [] } →
        c.self.isAddedToBoard = false ∧
        (∀ entry ∈ c.self.mPads, entry.2.mIsAddedToBoard = false) ∧
        (∀ text ∈ c.self.mStrokeTexts, text.mIsAddedToBoard = false) := by
      intro sources hs
      subst hs
      obtain ⟨h1, h2⟩ := BI_Footprint.construct_follow fault sources this heap device hok
      refine ⟨h2, ?_, ?_⟩
      · intro entry hmem
        rw [h1.1 entry hmem, h2]
      · intro text hmem
        rw [h1.2 text hmem, h2]
    simp only [BI_Footprint.constructors, List.mem_cons, List.mem_singleton, List.mem_nil_iff,
      or_false] at hc
    rcases hc with rfl | rfl | rfl
    · exact key _ rfl
    · exact key _ rfl
    · exact key _ rfl
  · intro hp ht hc
    exact BI_Footprint.performAll_follow calls fp0 ⟨hp, ht⟩ hc

theorem BI_Footprint.children_follow_footprint_witness :
    (sampleFootprint.performAll sampleCalls).isAddedToBoard = true ∧
    (sampleFootprint.performAll sampleCalls).mStrokeTexts.map (fun t => t.addr) =
      [1000, 2001] ∧
    (∀ entry ∈ (sampleFootprint.performAll sampleCalls).mPads,
      entry.2.mIsAddedToBoard = (sampleFootprint.performAll sampleCalls).isAddedToBoard) ∧
    (∀ text ∈ (sampleFootprint.performAll sampleCalls).mStrokeTexts,
      text.mIsAddedToBoard = (sampleFootprint.performAll sampleCalls).isAddedToBoard) :=
  ⟨by decide, by decide,
    (BI_Footprint.children_follow_footprint 500 1000 none sampleDevice sampleFootprint []
      sampleTransform sampleFootprint sampleCalls).2 (by decide) (by decide)
      (by simp [sampleCalls, FootprintCall.textDetached, sampleStrokeText, BI_StrokeText.new])⟩

end librepcb
